import Mathlib

/-!
# SLEPc Davidson eigensolver: the calc-pairs step and the outer solve loop

A shallow embedding of `src/eps/impls/davidson/common/dvd_calcpairs.c` and of
`EPSSolve_DAVIDSON` (`davidson.c`).

Conventions of the embedding:

* `PetscInt` is `Int` (no overflow is modelled).
* `PetscScalar` is a type `R`; the statements are in exact arithmetic.
* A `Vec` is an element of a type `E`; an array of vectors `Vec *` is a function
  `Int → E` (a pointer), and pointer arithmetic `p + k` is `fun i => p (i + k)`.
* A dense matrix is the function of its entries `row → column → R`; the
  column-major storage `M[ld*j + i]` is abstracted, the leading dimensions are
  kept as plain fields of the dashboard.
* `PetscErrorCode` is `Except String`: `CHKERRQ` is the bind of that monad.
-/

namespace Slepc

/-- Array of vectors addressed from a base pointer. -/
abbrev Vecs (E : Type) := Int → E

/-- Dense matrix, by entries `M i j` (row `i`, column `j`). -/
abbrev DMat (R : Type) := Int → Int → R

/-- Pointer arithmetic on an array of vectors: `p + k`. -/
def Vecs.shift {E : Type} (p : Vecs E) (k : Int) : Vecs E := fun i => p (i + k)

/-- Pointer to column `k` of a dense matrix: `&M[ld*k]`. -/
def DMat.col {R : Type} (M : DMat R) (k : Int) : DMat R := fun i j => M i (j + k)

/-- The two flags of `d->sEP` that the calc-pairs step tests with `DVD_IS`:
`DVD_EP_STD` and `DVD_EP_HERMITIAN` (the bit values live in `davidson.h`). -/
structure EPType_t where
  DVD_EP_STD : Bool
  DVD_EP_HERMITIAN : Bool
  deriving DecidableEq, Repr

/-- Compile-time configuration: `PETSC_USE_COMPLEX`, `SLEPC_MISSING_LAPACK_GGES`
and the value of the constant `DVD_STATE_CONF` of `davidson.h`. -/
structure Build where
  PETSC_USE_COMPLEX : Bool
  SLEPC_MISSING_LAPACK_GGES : Bool
  DVD_STATE_CONF : Int
  deriving DecidableEq, Repr

/-- The blackboard of the resource planner, restricted to the fields that
`dvd_calcpairs_qz` and `EPSSetUp_DAVIDSON` read or write. `free_vecs` and
`free_scalars` are the bump pointers into the vector pool and the scalar pool, as
offsets. -/
structure dvdBlackboard where
  state : Int
  max_nev : Int
  size_V : Int
  max_size_V : Int
  own_vecs : Int
  own_scalars : Int
  max_size_auxS : Int
  free_vecs : Int
  free_scalars : Int
  max_size_auxV : Int := 0
  deriving DecidableEq, Repr

/-- What `dvd_calcpairs_qz` reads from the dashboard: `sEP`, `nev`, whether `B`
is present, `ipV_oneMV` and `eps->nds`. -/
structure qzProblem where
  sEP : EPType_t
  nev : Int
  hasB : Bool
  ipV_oneMV : Bool
  nds : Int
  deriving DecidableEq, Repr

/-- The sizes that `dvd_calcpairs_qz` stores in the dashboard in the allocation
pass (the pointers it stores are the successive values of the bump pointers). -/
structure qzSetup where
  max_size_AV : Int
  max_size_proj : Int
  max_size_cS : Int
  ldcS : Int
  ldcT : Int
  hasG : Bool
  deriving DecidableEq, Repr

/-- `PetscMax`. -/
def PetscMax (a b : Int) : Int := if a < b then b else a

/-- The declaration part of `dvd_calcpairs_qz` (lines 79-105), run in both passes. -/
def dvd_calcpairs_qz_declare (cfg : Build) (d : qzProblem) (b : dvdBlackboard) :
    dvdBlackboard :=
  let std_probl := d.sEP.DVD_EP_STD
  let her_probl := d.sEP.DVD_EP_HERMITIAN
  let max_nev :=
    if cfg.PETSC_USE_COMPLEX then PetscMax b.max_nev d.nev
    else PetscMax b.max_nev (d.nev + 1)
  let b := { b with max_nev := max_nev }
  let b := { b with own_vecs := b.own_vecs +
    (b.size_V * (if d.hasB then 2 else 1) + d.nds * (if d.ipV_oneMV then 1 else 0)) }
  let b := { b with own_scalars := b.own_scalars +
    b.max_size_V * b.max_size_V * 2 * (if std_probl then 1 else 2) }
  let b := { b with own_scalars := b.own_scalars +
    b.max_size_V * b.max_size_V * (if std_probl then 1 else 2) }
  let b := { b with own_scalars := b.own_scalars +
    b.max_nev * b.max_nev * (if her_probl then 0 else (if std_probl then 1 else 2)) }
  let max_size_auxS :=
    PetscMax (PetscMax b.max_size_auxS (b.max_size_V * b.max_size_V * 4))
      (if std_probl then 0 else b.max_size_V * 11 + 16)
  let b := { b with max_size_auxS := max_size_auxS }
  if cfg.PETSC_USE_COMPLEX then
    { b with max_size_auxS := PetscMax b.max_size_auxS b.max_size_V }
  else b

/-- The allocation part of `dvd_calcpairs_qz` (lines 108-161): every
`p = b->free_x; b->free_x += n` advances the corresponding bump pointer. -/
def dvd_calcpairs_qz_claim (d : qzProblem) (b : dvdBlackboard) :
    dvdBlackboard × qzSetup :=
  let std_probl := d.sEP.DVD_EP_STD
  let her_probl := d.sEP.DVD_EP_HERMITIAN
  -- AV
  let b := { b with free_vecs := b.free_vecs + b.size_V }
  -- H, pX, S
  let b := { b with free_scalars := b.free_scalars + b.max_size_V * b.max_size_V }
  let b := { b with free_scalars := b.free_scalars + b.max_size_V * b.max_size_V }
  let b := { b with free_scalars := b.free_scalars + b.max_size_V * b.max_size_V }
  -- cS
  let b := if !her_probl then
      { b with free_scalars := b.free_scalars + b.max_nev * b.max_nev }
    else b
  let max_size_cS := if !her_probl then b.max_nev else 0
  -- BDS
  let b := if d.ipV_oneMV then { b with free_vecs := b.free_vecs + d.nds } else b
  -- BV
  let b := if d.hasB then { b with free_vecs := b.free_vecs + b.size_V } else b
  -- G, T, cT, pY
  let b := if !std_probl then
      let b := { b with free_scalars := b.free_scalars + b.max_size_V * b.max_size_V }
      let b := { b with free_scalars := b.free_scalars + b.max_size_V * b.max_size_V }
      let b := { b with free_scalars := b.free_scalars + b.max_nev * b.max_nev }
      { b with free_scalars := b.free_scalars + b.max_size_V * b.max_size_V }
    else b
  (b, { max_size_AV := b.size_V, max_size_proj := b.max_size_V,
        max_size_cS := max_size_cS, ldcS := b.max_nev,
        ldcT := if !std_probl then b.max_nev else 0, hasG := !std_probl })

/-- The function `dvd_calcpairs_qz`: the declarations, and the claims when
`b->state >= DVD_STATE_CONF`. -/
def dvd_calcpairs_qz (cfg : Build) (d : qzProblem) (b : dvdBlackboard) :
    dvdBlackboard × Option qzSetup :=
  let b := dvd_calcpairs_qz_declare cfg d b
  if cfg.DVD_STATE_CONF ≤ b.state then
    let r := dvd_calcpairs_qz_claim d b
    (r.1, some r.2)
  else (b, none)

/-- A blackboard in the allocation pass, used to evaluate `dvd_calcpairs_qz`. -/
def qzBoard : dvdBlackboard :=
  { state := 1, max_nev := 0, size_V := 1, max_size_V := 1, own_vecs := 0,
    own_scalars := 0, max_size_auxS := 0, free_vecs := 0, free_scalars := 0 }

/-- A generalized Hermitian problem that is not reduced to standard form. -/
def qzGhep : qzProblem :=
  { sEP := { DVD_EP_STD := false, DVD_EP_HERMITIAN := true }, nev := 1, hasB := true,
    ipV_oneMV := false, nds := 0 }

/-- The real-scalar build, with `DVD_STATE_CONF = 1`. -/
def realBuild : Build :=
  { PETSC_USE_COMPLEX := false, SLEPC_MISSING_LAPACK_GGES := false, DVD_STATE_CONF := 1 }

/-! ## The dashboard -/

/-- The flags of a `MatType_t` value that this file's code sets or tests. -/
structure MatType_t where
  DVD_MAT_HERMITIAN : Bool := false
  DVD_MAT_IMPLICIT : Bool := false
  DVD_MAT_UTRIANG : Bool := false
  DVD_MAT_LTRIANG : Bool := false
  DVD_MAT_IDENTITY : Bool := false
  DVD_MAT_UNITARY : Bool := false
  DVD_MAT_POS_DEF : Bool := false
  deriving DecidableEq, Repr

/-- The value `DVD_MAT_HERMITIAN | DVD_MAT_IMPLICIT | DVD_MAT_UTRIANG`. -/
def hermitianUpper : MatType_t :=
  { DVD_MAT_HERMITIAN := true, DVD_MAT_IMPLICIT := true, DVD_MAT_UTRIANG := true }

/-- The values of `d->MT_type`. -/
inductive MT_type_t where
  | DVD_MT_IDENTITY
  | DVD_MT_pX
  | DVD_MT_ORTHO
  deriving DecidableEq, Repr

/-- The routines that `d->calcpairs_selectPairs` can point to. -/
inductive selectPairs_t where
  | dvd_calcpairs_selectPairs_eig
  | dvd_calcpairs_selectPairs_qz
  deriving DecidableEq, Repr

/-- Calls to collaborators, recorded in program order in `d.trace` (a ghost
field: the code has no such log). -/
inductive Call where
  | SlepcAllReduceSumBegin (max_ops : Int) (size_in : Int)
  | VecsMultS (sU eU sV eV : Int)
  | SlepcAllReduceSumEnd
  | EPSDenseHEP (n : Int)
  | EPSDenseHessenberg (n : Int)
  | EPSDenseSchur (n : Int)
  | LAPACKgges (n : Int)
  | PetscInfo (i : Int)
  deriving DecidableEq, Repr

/-- The dashboard `dvdDashboard`, restricted to the fields used by
`dvd_calcpairs.c` and by the solve loop. Scalars are `R`, vectors are `E`.
A pointer that the code tests against `PETSC_NULL` is an `Option`. The function
pointers `calcpairs_W` and `calcpairs_proj_trans` are kept in `Collab`. -/
structure dvdDashboard (R E : Type) where
  A : E → E
  B : Option (E → E)
  sEP : EPType_t
  sA : MatType_t
  sB : MatType_t
  sH : MatType_t
  sG : MatType_t
  ipV_oneMV : Bool
  doNotUpdateBV : Bool
  V : Vecs E
  W : Option (Vecs E)
  AV : Vecs E
  real_AV : Vecs E
  BV : Option (Vecs E)
  real_BV : Option (Vecs E)
  cX : Option (Vecs E)
  cY : Option (Vecs E)
  BcX : Option (Vecs E)
  size_V : Int
  max_size_V : Int
  size_AV : Int
  max_size_AV : Int
  size_BV : Int
  max_size_BV : Int
  size_cX : Int
  size_cY : Int
  V_imm_s : Int
  V_imm_e : Int
  V_tra_s : Int
  V_tra_e : Int
  V_new_s : Int
  V_new_e : Int
  MT_type : MT_type_t
  MTX : DMat R
  MTY : Option (DMat R)
  size_MT : Int
  H : DMat R
  real_H : DMat R
  G : Option (DMat R)
  real_G : Option (DMat R)
  S : DMat R
  T : Option (DMat R)
  pX : DMat R
  pY : Option (DMat R)
  cS : Option (DMat R)
  cT : Option (DMat R)
  size_H : Int
  size_G : Int
  max_size_proj : Int
  max_size_cS : Int
  ldH : Int
  ldS : Int
  ldT : Int
  ldpX : Int
  ldpY : Int
  pX_type : MatType_t
  pY_type : MatType_t
  eigr : Int → R
  eigi : Int → R
  nR : Int → R
  nconv : Int
  /-- The scratch region `d->auxS`, read as a matrix; what the routines leave in
  it is not tracked. -/
  auxS : DMat R
  calcpairs_selectPairs : Option selectPairs_t
  trace : List Call

/-- The left basis used by the projections: `d->W ? d->W : d->V`. -/
def dvdDashboard.leftBasis {R E : Type} (d : dvdDashboard R E) : Vecs E :=
  match d.W with
  | some W => W
  | none => d.V

/-- The transform of the left basis: `d->MTY ? d->MTY : d->MTX`. -/
def dvdDashboard.leftMT {R E : Type} (d : dvdDashboard R E) : DMat R :=
  match d.MTY with
  | some M => M
  | none => d.MTX

/-- Append a collaborator call to the ghost trace. -/
def dvdDashboard.log {R E : Type} (d : dvdDashboard R E) (c : Call) : dvdDashboard R E :=
  { d with trace := d.trace ++ [c] }

/-- Output of the Hermitian dense eigensolver: the overwritten `S`, the
eigenvalues `w` and the eigenvectors `pX`. -/
structure DenseHEP (R : Type) where
  S : DMat R
  w : Int → R
  pX : DMat R

/-- Output of the Hessenberg reduction: the overwritten `S` and the transform `pX`. -/
structure DenseHess (R : Type) where
  S : DMat R
  pX : DMat R

/-- Output of the Schur form computation. -/
structure DenseSchur (R : Type) where
  S : DMat R
  pX : DMat R
  wr : Int → R
  wi : Int → R

/-- Output of LAPACK `gges`: the Schur pair, `alpha` (`alphar`, `alphai`; with
complex scalars only `alphar` is written), `beta`, the two Schur bases and `info`. -/
structure DenseGges (R : Type) where
  S : DMat R
  T : DMat R
  alphar : Int → R
  alphai : Int → R
  beta : Int → R
  pY : DMat R
  pX : DMat R
  info : Int

/-- Result of `IPOrthogonalize` on one vector: the vector, its norm, `lindep`. -/
structure OrthOut (R E : Type) where
  v : E
  norm : R
  lindep : Bool

/-- The collaborators of the calc-pairs step whose code lies outside this
file's source: the inner product, the orthogonalizers, the dense solvers, and
the two dashboard callbacks `calcpairs_W` and `calcpairs_proj_trans`. The dense
solvers receive the order `n` and the `n`-by-`n` input matrices. -/
structure Collab (R E : Type) where
  /-- Entry `(i,j)` of `U'*V`, from the columns `U[i]` and `V[j]`. -/
  dot : E → E → R
  VecNorm : E → R
  /-- The test `norm < PETSC_MACHINE_EPSILON`. -/
  belowEps : R → Bool
  dvd_orthV : Option (Vecs E) → Int → Vecs E → Int → Int → Except String (Vecs E)
  dvd_BorthV : Option (Vecs E) → Option (Vecs E) → Int → Vecs E → Option (Vecs E) →
    Int → Int → Except String (Vecs E × Option (Vecs E))
  calcpairs_W : dvdDashboard R E → Except String (dvdDashboard R E)
  calcpairs_proj_trans : Option (dvdDashboard R E → Except String (dvdDashboard R E))
  EPSDenseHEP : Int → DMat R → Except String (DenseHEP R)
  EPSDenseHessenberg : Int → DMat R → Except String (DenseHess R)
  EPSDenseSchur : Int → DMat R → DMat R → Except String (DenseSchur R)
  LAPACKgges : Bool → Int → DMat R → DMat R → DenseGges R
  IPOrthogonalize : Int → Vecs E → E → Except String (OrthOut R E)
  /-- The logging call `PetscInfo2(d->eps,"...",index,norm)` of
  `dvd_calcpairs_proj_res`, whose error code is checked. -/
  PetscInfo2 : Int → R → Except String Unit

/-! ## Dense and vector kernels -/

section Kernels

variable {R E : Type} [CommRing R] [Star R] [Div R] [AddCommGroup E] [Module R E]

/-- Sum of `f 0, …, f (n-1)` (empty when `n ≤ 0`): a C loop `for (k=0; k<n; k++)`
accumulating in exact arithmetic. -/
def sumTo {M : Type} [AddCommMonoid M] (n : Int) (f : Int → M) : M :=
  Finset.sum (Finset.range n.toNat) (fun k => f (k : Int))

/-- Modelled from the spec: `SlepcUpdateVectorsZ(Y,beta,alpha,X,cX,M,ldM,rM,cM)`
is not in the sources; by its uses in `dvd_calcpairs_res_0` ("R <- V * UL",
"R <- AV*U - R") it computes `Y <- beta*Y + alpha*X*M` on the `cM` columns of
`Y`, with `M` of `rM` rows: `Y[j] = beta*Y[j] + alpha*sum_{k<rM} M[k][j]*X[k]`. -/
def SlepcUpdateVectorsZ (Y : Vecs E) (beta alpha : R) (X : Vecs E) (_cX : Int)
    (M : DMat R) (rM cM : Int) : Vecs E :=
  fun j => if 0 ≤ j ∧ j < cM then beta • Y j + alpha • sumTo rM (fun k => M k j • X k)
    else Y j

/-- Modelled from the spec: `VecsMultS(M,sM,ldM,U,sU,eU,V,sV,eV,r,sr)` is not in
the sources; by §4.4 step 3 of the specification and the comment in
`dvd_calcpairs_WtMatV_gen` it leaves the block `M(0:sU-1,0:sV-1)` as it is and
sets the other entries of `M(0:eU-1,0:eV-1)` to those of `U'*V`. The reduction
across processes is the identity in a single-process run in exact arithmetic. -/
def VecsMultS (dot : E → E → R) (M : DMat R) (_sM : MatType_t) (U : Vecs E) (sU eU : Int)
    (V : Vecs E) (sV eV : Int) : DMat R :=
  fun i j => if (0 ≤ i ∧ i < eU) ∧ (0 ≤ j ∧ j < eV) ∧ (sU ≤ i ∨ sV ≤ j) then dot (U i) (V j)
    else M i j

/-- Modelled from the spec: `SlepcDenseMatProdTriang(C,sC,ldC,A,sA,ldA,rA,cA,At,
B,sB,ldB,rB,cB,Bt)` is not in the sources; by the comments in
`dvd_calcpairs_WtMatV_gen` ("H <- MTY^T * (H * MTX)", "MTY'*H*MTX") it stores
the product `op(A)*op(B)` in `C`, `op` being the conjugate transpose when the
flag is set. The inner dimension is taken from `A`. -/
def SlepcDenseMatProdTriang (C : DMat R) (_sC : MatType_t) (A : DMat R) (_sA : MatType_t)
    (rA cA : Int) (At : Bool) (B : DMat R) (_sB : MatType_t) (rB cB : Int) (Bt : Bool) :
    DMat R :=
  let rows := if At then cA else rA
  let inner := if At then rA else cA
  let cols := if Bt then rB else cB
  fun i j => if (0 ≤ i ∧ i < rows) ∧ (0 ≤ j ∧ j < cols) then
      sumTo inner (fun k => (if At then star (A k i) else A i k)
        * (if Bt then star (B j k) else B k j))
    else C i j

/-- Modelled from the spec: `SlepcDenseCopyTriang(S,sS,ldS,H,sH,ldH,rH,cH)` is
not in the sources; by the comment "S <- H" it makes `S` the `rH`-by-`cH` matrix
of the entries of `H` (stored with leading dimension `ldS = rH`). -/
def SlepcDenseCopyTriang (H : DMat R) (rH cH : Int) : DMat R :=
  fun i j => if (0 ≤ i ∧ i < rH) ∧ (0 ≤ j ∧ j < cH) then H i j else 0

/-- Write `w[0..n)` into the array `a`. -/
def writeTo (a : Int → R) (n : Int) (w : Int → R) : Int → R :=
  fun i => if 0 ≤ i ∧ i < n then w i else a i

end Kernels

/-! ## Basic routines of the calc-pairs step -/

section CalcPairs

variable {R E : Type} [CommRing R] [Star R] [Div R] [AddCommGroup E] [Module R E]

/-- The function `dvd_calcpairs_updateV`: orthogonalize the new columns of `V`. -/
def dvd_calcpairs_updateV (x : Collab R E) (d : dvdDashboard R E) :
    Except String (dvdDashboard R E) :=
  let cX := if d.BcX.isSome then d.BcX
    else (if d.cY.isSome ∧ d.W.isNone then d.cY else d.cX)
  if d.ipV_oneMV then do
    let r ← x.dvd_BorthV d.cX d.real_BV d.size_cX d.V d.BV d.V_new_s d.V_new_e
    pure { d with V := r.1, BV := r.2 }
  else do
    let V ← x.dvd_orthV cX d.size_cX d.V d.V_new_s d.V_new_e
    pure { d with V := V }

/-- The function `dvd_calcpairs_updateW`; it is called with `d->W` present. -/
def dvd_calcpairs_updateW (x : Collab R E) (d : dvdDashboard R E) :
    Except String (dvdDashboard R E) := do
  let d ← x.calcpairs_W d
  match d.W with
  | some W =>
    let W ← x.dvd_orthV d.cY d.size_cY W d.V_new_s d.V_new_e
    pure { d with W := some W }
  | none => throw "SEGV"

/-- The function `dvd_calcpairs_updateMatV`, returning the new `*AV` and
`*size_AV`. The loop over the new columns writes `(*AV)[i] = A*V[i]` for each
`i` of `[V_new_s, V_new_e)`, reading only `V`. -/
def dvd_calcpairs_updateMatV (A : E → E) (AV : Vecs E) (size_AV : Int)
    (doUpdate doNew : Bool) (d : dvdDashboard R E) : Except String (Vecs E × Int) :=
  let AV :=
    if doUpdate then
      match d.MT_type with
      | .DVD_MT_pX =>
        (SlepcUpdateVectorsZ (AV.shift d.V_imm_e) (0 : R) 1 AV size_AV
          (d.pX.col d.V_tra_s) size_AV (d.V_tra_e - d.V_tra_s)).shift (-d.V_imm_e)
      | .DVD_MT_ORTHO =>
        (SlepcUpdateVectorsZ (AV.shift d.V_imm_e) (0 : R) 1 AV size_AV
          (d.MTX.col d.V_tra_s) size_AV (d.V_tra_e - d.V_tra_s)).shift (-d.V_imm_e)
      | .DVD_MT_IDENTITY => AV
    else AV
  let AV := AV.shift d.V_imm_s
  if d.V_imm_e - d.V_imm_s + d.V_tra_e - d.V_tra_s ≠ d.V_new_s then
    throw "Incompatible dimensions"
  else
    let AV : Vecs E :=
      if doNew then fun i => if d.V_new_s ≤ i ∧ i < d.V_new_e then A (d.V i) else AV i
      else AV
    pure (AV, d.V_new_e)

/-- The function `dvd_calcpairs_updateAV`. -/
def dvd_calcpairs_updateAV (d : dvdDashboard R E) : Except String (dvdDashboard R E) := do
  let r ← dvd_calcpairs_updateMatV d.A d.AV d.size_AV true true d
  pure { d with AV := r.1, size_AV := r.2 }

/-- The function `dvd_calcpairs_updateBV`; `dvd_calcpairs_proj` calls it with
`d->BV` present, and it applies `d->B`. -/
def dvd_calcpairs_updateBV (d : dvdDashboard R E) : Except String (dvdDashboard R E) :=
  match d.B, d.BV with
  | some B, some BV => do
    let r ← dvd_calcpairs_updateMatV B BV d.size_BV (!d.doNotUpdateBV) (!d.ipV_oneMV) d
    pure { d with BV := some r.1, size_BV := r.2, doNotUpdateBV := false }
  | _, _ => throw "SEGV"

/-- The function `dvd_calcpairs_WtMatV_gen`, returning the new `*H` and `*size_H`
together with the value `*size_H` has when `VecsMultS` is called. -/
def dvd_calcpairs_WtMatV_gen (dot : E → E → R) (H : DMat R) (sH : MatType_t) (size_H : Int)
    (MTY MTX : DMat R) (rMT cMT : Int) (W V : Vecs E) (size_V : Int) (auxS : DMat R) :
    DMat R × Int × Int :=
  let r : DMat R × Int :=
    if 0 < cMT then
      let auxS := SlepcDenseMatProdTriang auxS {} H sH size_H size_H false MTX {} rMT cMT false
      let H := SlepcDenseMatProdTriang H sH MTY {} rMT cMT true auxS {} size_H cMT false
      (H, cMT)
    else (H, size_H)
  (VecsMultS dot r.1 sH W r.2 size_V V r.2 size_V, size_V, r.2)

/-- The function `dvd_calcpairs_VtAV_gen`. -/
def dvd_calcpairs_VtAV_gen (x : Collab R E) (d : dvdDashboard R E) : dvdDashboard R E :=
  let MTY := d.leftMT
  let W := d.leftBasis
  let d := { d with sH := if d.sA.DVD_MAT_HERMITIAN then hermitianUpper else d.sH }
  let d := { d with size_H :=
    if d.V_imm_e - d.V_imm_s = 0 ∧ d.V_tra_e - d.V_tra_s = 0 then 0 else d.size_H }
  let r := dvd_calcpairs_WtMatV_gen x.dot d.H d.sH d.size_H (MTY.col d.V_tra_s)
    (d.MTX.col d.V_tra_s) d.size_MT (d.V_tra_e - d.V_tra_s) W d.AV d.size_V d.auxS
  { d with H := r.1, size_H := r.2.1 }.log (.VecsMultS r.2.2 d.size_V r.2.2 d.size_V)

/-- The function `dvd_calcpairs_VtBV_gen`; it dereferences `d->G`. -/
def dvd_calcpairs_VtBV_gen (x : Collab R E) (d : dvdDashboard R E) :
    Except String (dvdDashboard R E) :=
  let MTY := d.leftMT
  let W := d.leftBasis
  let d := { d with sG := if d.sB.DVD_MAT_HERMITIAN then hermitianUpper else d.sG }
  let d := { d with size_G :=
    if d.V_imm_e - d.V_imm_s = 0 ∧ d.V_tra_e - d.V_tra_s = 0 then 0 else d.size_G }
  match d.G with
  | some G =>
    let BV := match d.BV with
      | some BV => BV
      | none => d.V
    let r := dvd_calcpairs_WtMatV_gen x.dot G d.sG d.size_G (MTY.col d.V_tra_s)
      (d.MTX.col d.V_tra_s) d.size_MT (d.V_tra_e - d.V_tra_s) W BV d.size_V d.auxS
    pure ({ d with G := some r.1, size_G := r.2.1 }.log
      (.VecsMultS r.2.2 d.size_V r.2.2 d.size_V))
  | none => throw "SEGV"

/-- The function `dvd_calcpairs_projeig_eig`. With real scalars `w` is `d->eigr`
itself; with complex scalars `w[0..size_H)` is copied into `d->eigr`. -/
def dvd_calcpairs_projeig_eig (x : Collab R E) (d : dvdDashboard R E) :
    Except String (dvdDashboard R E) := do
  let d := { d with ldS := d.size_H, ldpX := d.size_H }
  let S := SlepcDenseCopyTriang d.H d.size_H d.size_H
  let d := d.log (.EPSDenseHEP d.size_H)
  let r ← x.EPSDenseHEP d.size_H S
  pure { d with S := r.S, pX := r.pX, eigr := writeTo d.eigr d.size_H r.w,
                pX_type := { DVD_MAT_UNITARY := true },
                calcpairs_selectPairs := some .dvd_calcpairs_selectPairs_eig }

/-- The function `dvd_calcpairs_projeig_qz_std`. -/
def dvd_calcpairs_projeig_qz_std (x : Collab R E) (d : dvdDashboard R E) :
    Except String (dvdDashboard R E) := do
  let d := { d with ldS := d.size_H, ldpX := d.size_H }
  let S := SlepcDenseCopyTriang d.H d.size_H d.size_H
  let d := d.log (.EPSDenseHessenberg d.size_H)
  let h ← x.EPSDenseHessenberg d.size_H S
  let d := d.log (.EPSDenseSchur d.size_H)
  let r ← x.EPSDenseSchur d.size_H h.S h.pX
  pure { d with S := r.S, pX := r.pX, eigr := writeTo d.eigr d.size_H r.wr,
                eigi := writeTo d.eigi d.size_H r.wi,
                pX_type := { DVD_MAT_UNITARY := true },
                calcpairs_selectPairs := some .dvd_calcpairs_selectPairs_qz }

/-- The function `dvd_calcpairs_projeig_qz_gen`; it dereferences `d->G` and
`d->T`. With complex scalars `gges` does not write `d->eigi`, which is divided all the same. -/
def dvd_calcpairs_projeig_qz_gen (cfg : Build) (x : Collab R E) (d : dvdDashboard R E) :
    Except String (dvdDashboard R E) :=
  if cfg.SLEPC_MISSING_LAPACK_GGES then throw "GGES - Lapack routine is unavailable."
  else
    match d.G, d.T with
    | some G, some _ =>
      let d := { d with ldS := d.size_H, ldT := d.size_H, ldpX := d.size_H, ldpY := d.size_H }
      let S := SlepcDenseCopyTriang d.H d.size_H d.size_H
      let T := SlepcDenseCopyTriang G d.size_H d.size_H
      let d := d.log (.LAPACKgges d.size_H)
      let r := x.LAPACKgges d.pY.isSome d.size_H S T
      if r.info ≠ 0 then throw "Error in Lapack GGES"
      else
        let eigi := if cfg.PETSC_USE_COMPLEX then d.eigi else writeTo d.eigi d.size_H r.alphai
        let eigr := writeTo d.eigr d.size_H r.alphar
        pure { d with S := r.S, T := some r.T, pX := r.pX,
                      pY := (if d.pY.isSome then some r.pY else none),
                      eigr := writeTo eigr d.size_H (fun i => eigr i / r.beta i),
                      eigi := writeTo eigi d.size_H (fun i => eigi i / r.beta i),
                      pX_type := { DVD_MAT_UNITARY := true },
                      pY_type := { DVD_MAT_UNITARY := true },
                      calcpairs_selectPairs := some .dvd_calcpairs_selectPairs_qz }
    | _, _ => throw "SEGV"

/-- The first part of `dvd_calcpairs_proj` (lines 225-256): the reductions are
prepared, `V`, `AV`, `BV`, `W`, `H` and `G` are updated, the reductions are done,
the projected problem is transformed and the pending transform is cleared. -/
def dvd_calcpairs_proj_update (x : Collab R E) (d : dvdDashboard R E) :
    Except String (dvdDashboard R E) := do
  let size_in := 2 * d.size_V * d.size_V
  let d := d.log (.SlepcAllReduceSumBegin 2 size_in)
  let d ← dvd_calcpairs_updateV x d
  let d ← dvd_calcpairs_updateAV d
  let d ←
    (if d.W.isNone then
      (if (dvd_calcpairs_VtAV_gen x d).BV.isSome then
        dvd_calcpairs_updateBV (dvd_calcpairs_VtAV_gen x d)
      else pure (dvd_calcpairs_VtAV_gen x d))
    else
      (do
        let d ← (if d.BV.isSome then dvd_calcpairs_updateBV d else pure d)
        let d ← dvd_calcpairs_updateW x d
        pure (dvd_calcpairs_VtAV_gen x d)))
  let d ← (if !d.sEP.DVD_EP_STD then dvd_calcpairs_VtBV_gen x d else pure d)
  let d := d.log .SlepcAllReduceSumEnd
  let d ← (match x.calcpairs_proj_trans with
    | some f => f d
    | none => pure d)
  pure { d with
    MT_type := if d.MT_type ≠ .DVD_MT_IDENTITY then .DVD_MT_IDENTITY else d.MT_type
    V_tra_s := if d.MT_type ≠ .DVD_MT_IDENTITY then 0 else d.V_tra_s
    V_tra_e := if d.MT_type ≠ .DVD_MT_IDENTITY then 0 else d.V_tra_e }

/-- The second part of `dvd_calcpairs_proj` (lines 258-272): the projected
problem is solved by the routine selected from `d->sEP`, and the new range is
closed. -/
def dvd_calcpairs_proj_solve (cfg : Build) (x : Collab R E) (d : dvdDashboard R E) :
    Except String (dvdDashboard R E) := do
  let d := { d with pX_type := {} }
  let d ←
    (if d.sEP.DVD_EP_STD then
      if d.sEP.DVD_EP_HERMITIAN then dvd_calcpairs_projeig_eig x d
      else dvd_calcpairs_projeig_qz_std x d
    else dvd_calcpairs_projeig_qz_gen cfg x d)
  pure { d with V_new_s := d.V_new_e }

/-- The body of `dvd_calcpairs_proj` before the consistency check (lines 225-272). -/
def dvd_calcpairs_proj_steps (cfg : Build) (x : Collab R E) (d : dvdDashboard R E) :
    Except String (dvdDashboard R E) := do
  let d ← dvd_calcpairs_proj_update x d
  dvd_calcpairs_proj_solve cfg x d

/-- The condition of the consistency check of `dvd_calcpairs_proj` (lines 275-277). -/
def consistencyBroken (d : dvdDashboard R E) : Bool :=
  decide (d.size_V ≠ d.V_new_e) || decide (d.size_V ≠ d.size_H) ||
  decide (d.size_V ≠ d.size_AV) || (!d.sEP.DVD_EP_STD &&
    (decide (d.size_V ≠ d.size_G) || (d.BV.isSome && decide (d.size_V ≠ d.size_BV))))

/-- The function `dvd_calcpairs_proj`. -/
def dvd_calcpairs_proj (cfg : Build) (x : Collab R E) (d : dvdDashboard R E) :
    Except String (dvdDashboard R E) := do
  let d ← dvd_calcpairs_proj_steps cfg x d
  if consistencyBroken d then throw "Consistency broken!" else pure d

/-- A C loop `for (i = i0; i < i0 + n; i++) body(i)` whose body can fail. -/
def forRange {σ : Type} (body : Int → σ → Except String σ) : Nat → Int → σ → Except String σ
  | 0, _, s => pure s
  | n + 1, i, s => do
    let s ← body i s
    forRange body n (i + 1) s

/-- The basis that `dvd_calcpairs_proj_res` orthogonalizes against (lines 732-746). -/
def proj_res_cX (d : dvdDashboard R E) : Option (Vecs E) :=
  if d.BcX.isSome then d.BcX
  else if d.cY.isSome then d.cY
  else if !(d.sEP.DVD_EP_STD && d.sEP.DVD_EP_HERMITIAN) then d.cX
  else none

/-- One iteration of the orthogonalizing loop of `dvd_calcpairs_proj_res`
(lines 749-754): the error code of `IPOrthogonalize` is checked, and so is the
one of `PetscInfo2` when the event is logged. -/
def proj_res_orth (x : Collab R E) (cX : Vecs E) (r_s : Int) (i : Int)
    (s : dvdDashboard R E × Vecs E) : Except String (dvdDashboard R E × Vecs E) := do
  let o ← x.IPOrthogonalize s.1.size_cX cX (s.2 i)
  let d := { s.1 with nR := Function.update s.1.nR (r_s + i) o.norm }
  let d ← (if o.lindep || x.belowEps (d.nR (r_s + i)) then do
      x.PetscInfo2 (r_s + i) (d.nR (r_s + i))
      pure (d.log (.PetscInfo (r_s + i)))
    else pure d)
  pure (d, Function.update s.2 i o.v)

/-- One iteration of the norm loop of `dvd_calcpairs_proj_res`. -/
def proj_res_norm (x : Collab R E) (r_s : Int) (i : Int)
    (s : dvdDashboard R E × Vecs E) : Except String (dvdDashboard R E × Vecs E) :=
  pure ({ s.1 with nR := Function.update s.1.nR (r_s + i) (x.VecNorm (s.2 i)) }, s.2)

/-- The function `dvd_calcpairs_proj_res`, returning the dashboard and `R`. -/
def dvd_calcpairs_proj_res (x : Collab R E) (d : dvdDashboard R E) (r_s r_e : Int)
    (Rv : Vecs E) : Except String (dvdDashboard R E × Vecs E) :=
  match proj_res_cX d with
  | some cX => forRange (proj_res_orth x cX r_s) (r_e - r_s).toNat 0 (d, Rv)
  | none => forRange (proj_res_norm x r_s) (r_e - r_s).toNat 0 (d, Rv)

/-- The function `dvd_calcpairs_res_0` up to the call of `d->calcpairs_proj_res`
(lines 681-713): the residual vectors before the final projection step. `UL` is
the scratch matrix of the caller. -/
def dvd_calcpairs_res_0_R (d : dvdDashboard R E) (r_s r_e : Int) (Rv : Vecs E)
    (UL : DMat R) : Except String (Vecs E) :=
  if d.B.isNone || !d.sEP.DVD_EP_STD then
    let UL : DMat R := fun j c =>
      if (0 ≤ c ∧ c < r_e - r_s) ∧ (0 ≤ j ∧ j < d.size_H) then
        d.pX j (c + r_s) * d.eigr (c + r_s)
      else UL j c
    let Rv : Except String (Vecs E) :=
      if d.B.isNone then
        pure (SlepcUpdateVectorsZ Rv (0 : R) 1 d.V d.size_V UL d.size_H (r_e - r_s))
      else
        match d.BV with
        | some BV => pure (SlepcUpdateVectorsZ Rv (0 : R) 1 BV d.size_BV UL d.size_H (r_e - r_s))
        | none => throw "SEGV"
    Rv.map (fun Rv => SlepcUpdateVectorsZ Rv (-1 : R) 1 d.AV d.size_AV (d.pX.col r_s)
      d.size_H (r_e - r_s))
  else
    let Rv : Vecs E := fun k =>
      if 0 ≤ k ∧ k < r_e - r_s then d.eigr (k + r_s) • Rv k else Rv k
    pure (SlepcUpdateVectorsZ Rv (-1 : R) 1 d.AV d.size_AV (d.pX.col r_s) d.size_H (r_e - r_s))

/-- Zero the leading `n`-by-`n` block of a matrix that must be present when the
block is not empty (the loop `for (i=0; i<n*n; i++) M[i] = 0.0`). -/
def zeroBlock (M : Option (DMat R)) (n : Int) : Except String (Option (DMat R)) :=
  match M with
  | some M => pure (some (fun i j => if (0 ≤ i ∧ i < n) ∧ (0 ≤ j ∧ j < n) then 0 else M i j))
  | none => if 0 < n * n then throw "SEGV" else pure none

/-- The function `dvd_calcpairs_qz_start`. The assignments `d->cY = d->AV` and
`d->BcX = d->AV` make the two arrays share storage; the embedding copies the
contents. -/
def dvd_calcpairs_qz_start (d : dvdDashboard R E) : Except String (dvdDashboard R E) := do
  let std_probl := d.sEP.DVD_EP_STD
  let her_probl := d.sEP.DVD_EP_HERMITIAN
  let d := { d with size_AV := 0, AV := d.real_AV, max_size_AV := d.max_size_V,
                    size_H := 0, H := d.real_H, ldH := d.max_size_proj }
  let cS ← zeroBlock d.cS d.max_size_cS
  let d := { d with cS := cS, size_cX := 0, size_cY := 0, size_BV := 0 }
  let d := if d.B.isSome then { d with BV := d.real_BV, max_size_BV := d.max_size_V }
    else { d with BV := none, max_size_BV := 0 }
  let d := { d with size_G := 0, G := d.real_G }
  if !std_probl then do
    let cT ← zeroBlock d.cT d.max_size_cS
    let d := { d with cT := cT }
    if her_probl then pure { d with BcX := some d.AV }
    else pure { d with cY := some d.AV, BcX := none }
  else pure d

end CalcPairs

/-- What `dvd_calcpairs_qz` reads from the dashboard `d` of a solver that asks for
`nev` eigenpairs and holds `nds` deflation vectors. -/
def qzProblemOf {R E : Type} (d : dvdDashboard R E) (nev nds : Int) : qzProblem :=
  { sEP := d.sEP, nev := nev, hasB := d.B.isSome, ipV_oneMV := d.ipV_oneMV, nds := nds }

/-- The contents of the storage that the allocation pass of `dvd_calcpairs_qz`
hands out to the dashboard; the routine does not initialize it. -/
structure qzStorage (R E : Type) where
  AV : Vecs E
  BV : Vecs E
  H : DMat R
  pX : DMat R
  S : DMat R
  cS : DMat R
  G : DMat R
  T : DMat R
  cT : DMat R
  pY : DMat R

/-- The dashboard after the allocation pass of `dvd_calcpairs_qz` (lines 108-160):
`s` holds the sizes that the pass computes from the blackboard and `mem` the
contents of the storage it hands out. The fields `ldcS`, `ldcT`, `BDS`, the inner
products and the routine pointers other than `calcpairs_selectPairs` are not part
of the dashboard of this embedding. -/
def dvd_calcpairs_qz_dash {R E : Type} (s : qzSetup) (mem : qzStorage R E)
    (d : dvdDashboard R E) : dvdDashboard R E :=
  let std_probl := d.sEP.DVD_EP_STD
  let her_probl := d.sEP.DVD_EP_HERMITIAN
  { d with
    real_AV := mem.AV, AV := mem.AV
    max_size_AV := s.max_size_AV
    max_size_proj := s.max_size_proj
    H := mem.H, real_H := mem.H
    pX := mem.pX
    S := mem.S
    cS := if !her_probl then some mem.cS else none
    max_size_cS := s.max_size_cS
    real_BV := if d.B.isSome then some mem.BV else none
    BV := if d.B.isSome then some mem.BV else none
    G := if !std_probl then some mem.G else none
    real_G := if !std_probl then some mem.G else none
    T := if !std_probl then some mem.T else none
    cT := if !std_probl then some mem.cT else none
    pY := if !std_probl then some mem.pY else none
    calcpairs_selectPairs := none
    doNotUpdateBV := false }

/-! ## Specification-level definitions -/

section SpecDefs

variable {R E : Type} [CommRing R] [Star R] [Div R] [AddCommGroup E] [Module R E]

/-- The from-scratch projection of the specification, `H = W'*AV`: entry `(i,j)`
is the inner product of `W[i]` (`V[i]` without a left basis) and `AV[j]`. -/
def fromScratchH (x : Collab R E) (d : dvdDashboard R E) : DMat R :=
  fun i j => x.dot (d.leftBasis i) (d.AV j)

/-- The dense transform `MTY^H * H * MTX` of the specification, for an `n`-by-`n`
matrix `H` and transforms with `n` rows. -/
def restartTransform (MTY H MTX : DMat R) (n : Int) : DMat R :=
  fun i j => sumTo n (fun k => star (MTY k i) * sumTo n (fun l => H k l * MTX l j))

/-- The residual of the specification, `R = AV·pX − BV·pX·diag(λ)`, for column `i`
with `pX[:,i]` the first `n` entries of column `i`. -/
def specResidual (AV BV : Vecs E) (pX : DMat R) (eigr : Int → R) (n : Int) (i : Int) : E :=
  sumTo n (fun k => pX k i • AV k) - eigr i • sumTo n (fun k => pX k i • BV k)

end SpecDefs

/-! ## The solve loop -/

/-- The values of `EPSConvergedReason` (`slepceps.h`). -/
inductive EPSConvergedReason where
  | EPS_CONVERGED_TOL
  | EPS_DIVERGED_ITS
  | EPS_DIVERGED_BREAKDOWN
  | EPS_CONVERGED_ITERATING
  deriving DecidableEq, Repr

/-- The fields of `EPS` that `EPSSolve_DAVIDSON` reads or writes. -/
structure EPS_t where
  its : Int
  max_it : Int
  nconv : Int
  nev : Int
  reason : EPSConvergedReason
  deriving DecidableEq, Repr

/-- The steps that the dashboard holds as function pointers or callback lists. -/
structure dvdSteps (R E : Type) where
  startList : dvdDashboard R E → Except String (dvdDashboard R E)
  endList : dvdDashboard R E → Except String (dvdDashboard R E)
  initV : dvdDashboard R E → Except String (dvdDashboard R E)
  calcPairs : dvdDashboard R E → Except String (dvdDashboard R E)
  updateV : dvdDashboard R E → Except String (dvdDashboard R E)

/-- State of the `for` loop of `EPSSolve_DAVIDSON`: `eps->its`, `eps->nconv`, the
dashboard, and (ghost) the value of `eps->nconv` after each executed iteration. -/
structure LoopState (R E : Type) where
  its : Int
  nconv : Int
  d : dvdDashboard R E
  hist : List Int

/-- The loop `for (eps->its=0; eps->its < eps->max_it; eps->its++)` of
`EPSSolve_DAVIDSON`, entered at the test; the first argument bounds the number
of iterations still possible. -/
def EPSSolve_loop {R E : Type} (st : dvdSteps R E) (nev max_it : Int) :
    Nat → LoopState R E → Except String (LoopState R E)
  | 0, s => pure s
  | fuel + 1, s =>
    if s.its < max_it then do
      let d ← (if s.d.size_V = 0 then st.initV s.d else pure s.d)
      let d ← st.calcPairs d
      let d ← st.updateV d
      let s := { s with nconv := d.nconv, d := d, hist := s.hist ++ [d.nconv] }
      if nev ≤ s.nconv then pure s
      else EPSSolve_loop st nev max_it fuel { s with its := s.its + 1 }
    else pure s

/-- The function `EPSSolve_DAVIDSON`, returning `eps` and the final loop state. -/
def EPSSolve_DAVIDSON {R E : Type} (st : dvdSteps R E) (eps : EPS_t) (d : dvdDashboard R E) :
    Except String (EPS_t × LoopState R E) := do
  let d ← st.startList d
  let s ← EPSSolve_loop st eps.nev eps.max_it eps.max_it.toNat
    { its := 0, nconv := eps.nconv, d := d, hist := [] }
  let d ← st.endList s.d
  let reason := if eps.nev ≤ s.nconv then EPSConvergedReason.EPS_CONVERGED_TOL
    else EPSConvergedReason.EPS_DIVERGED_ITS
  pure ({ eps with its := s.its, nconv := s.nconv, reason := reason }, { s with d := d })


/-! ## A concrete single-process setting

Scalars are the integers and vectors have two integer entries. The
collaborators are simple total functions; they are used to evaluate the
embedding on explicit dashboards. -/

/-- The operator `A = diag(1, 2)`. -/
def opA (v : ℤ × ℤ) : ℤ × ℤ := (v.1, 2 * v.2)

/-- The basis `V[0] = e1`, `V[1] = e2`, and zero vectors elsewhere. -/
def basisV : Vecs (ℤ × ℤ) := fun i => if i = 0 then (1, 0) else if i = 1 then (0, 1) else (0, 0)

/-- Collaborators of the concrete setting: the Euclidean inner product, an
orthogonalizer against `e1` (it clears the first entry), the 1-norm, and dense
solvers that return the diagonal as eigenvalues and the identity as basis. -/
def collabZ : Collab ℤ (ℤ × ℤ) :=
  { dot := fun u v => u.1 * v.1 + u.2 * v.2
    VecNorm := fun v => |v.1| + |v.2|
    belowEps := fun r => decide (r < 1)
    dvd_orthV := fun _ _ V _ _ => pure V
    dvd_BorthV := fun _ _ _ V BV _ _ => pure (V, BV)
    calcpairs_W := fun d => pure d
    calcpairs_proj_trans := none
    EPSDenseHEP := fun _ S => pure { S := S, w := fun i => S i i,
                                     pX := fun i j => if i = j then 1 else 0 }
    EPSDenseHessenberg := fun _ S => pure { S := S, pX := fun i j => if i = j then 1 else 0 }
    EPSDenseSchur := fun _ S pX => pure { S := S, pX := pX, wr := fun i => S i i,
                                          wi := fun _ => 0 }
    LAPACKgges := fun _ _ S T => { S := S, T := T, alphar := fun i => S i i,
                                   alphai := fun _ => 0, beta := fun i => T i i,
                                   pY := fun i j => if i = j then 1 else 0,
                                   pX := fun i j => if i = j then 1 else 0, info := 0 }
    IPOrthogonalize := fun _ _ v => pure { v := (0, v.2), norm := |v.2|, lindep := false }
    PetscInfo2 := fun _ _ => pure () }

/-- A dashboard of the concrete setting for a standard Hermitian problem: the
basis has the retained column `V[0]` (immutable range `[0,1)`, already projected
in `H`) and the new column `V[1]` (new range `[1,2)`). -/
def dashZ : dvdDashboard ℤ (ℤ × ℤ) :=
  { A := opA, B := none
    sEP := { DVD_EP_STD := true, DVD_EP_HERMITIAN := true }
    sA := { DVD_MAT_HERMITIAN := true }, sB := {}, sH := {}, sG := {}
    ipV_oneMV := false, doNotUpdateBV := false
    V := basisV, W := none
    AV := fun i => if i = 0 then (1, 0) else (5, 5), real_AV := fun _ => (0, 0)
    BV := none, real_BV := none, cX := none, cY := none, BcX := none
    size_V := 2, max_size_V := 2, size_AV := 1, max_size_AV := 2
    size_BV := 0, max_size_BV := 0, size_cX := 0, size_cY := 0
    V_imm_s := 0, V_imm_e := 1, V_tra_s := 0, V_tra_e := 0, V_new_s := 1, V_new_e := 2
    MT_type := .DVD_MT_IDENTITY
    MTX := fun _ _ => 0, MTY := none, size_MT := 0
    H := fun i j => if i = 0 ∧ j = 0 then 1 else 9, real_H := fun _ _ => 0
    G := none, real_G := none, S := fun _ _ => 0, T := none
    pX := fun _ _ => 0, pY := none, cS := none, cT := none
    size_H := 1, size_G := 0, max_size_proj := 2, max_size_cS := 0
    ldH := 2, ldS := 0, ldT := 0, ldpX := 0, ldpY := 0
    pX_type := {}, pY_type := {}
    eigr := fun _ => 0, eigi := fun _ => 0, nR := fun _ => 0, nconv := 0
    auxS := fun _ _ => 0
    calcpairs_selectPairs := none, trace := [] }

/-- A dashboard of the concrete setting right after a restart of a generalized
problem: the projected matrices are 2-by-2, the restart range is `[0,1)` with the
coefficients `MTX = (1, 1)`, and no column is new. -/
def dashRestart : dvdDashboard ℤ (ℤ × ℤ) :=
  { dashZ with
    sEP := { DVD_EP_STD := false, DVD_EP_HERMITIAN := false }
    sA := {}
    size_V := 1, V_imm_s := 0, V_imm_e := 0, V_tra_s := 0, V_tra_e := 1
    V_new_s := 1, V_new_e := 1
    MT_type := .DVD_MT_ORTHO, MTX := fun _ _ => 1, size_MT := 2
    H := fun i j => 2 * i + j + 1, size_H := 2
    G := some (fun i j => if i = j then 1 else 0), size_G := 2
    T := some (fun _ _ => 0), pY := some (fun _ _ => 0) }

/-- A dashboard of the concrete setting after a converged pair was locked: the
immutable range is `[1,2)`, so `dvd_calcpairs_updateMatV` rebases `AV` by one
column; the retained column is `V[0] = e1`, and `AV[j] = A*V[j]` for every `j`. -/
def dashLocked : dvdDashboard ℤ (ℤ × ℤ) :=
  { dashZ with AV := fun i => opA (basisV i)
               size_V := 1, V_imm_s := 1, V_imm_e := 2, V_new_s := 1, V_new_e := 1 }

/-- A generalized dashboard of the concrete setting with `B = A`, the retained
column `V[0]` applied in `AV` and `BV`, and the new column `V[1]`. -/
def dashGen : dvdDashboard ℤ (ℤ × ℤ) :=
  { dashZ with
    B := some opA, BV := some (fun i => if i = 0 then (1, 0) else (7, 7))
    size_BV := 1, sEP := { DVD_EP_STD := false, DVD_EP_HERMITIAN := false } }

/-- The locked basis of the concrete setting: every `cX[k]` is `e1`. -/
def lockedE1 : Vecs (ℤ × ℤ) := fun _ => (1, 0)

/-- A standard Hermitian dashboard of the concrete setting with one locked pair
(`size_cX = 1`, `cX[0] = e1`) and neither `BcX` nor `cY`. -/
def dashDefl : dvdDashboard ℤ (ℤ × ℤ) :=
  { dashZ with cX := some lockedE1, size_cX := 1 }

/-- The dashboard `dashDefl` for a standard non-Hermitian problem. -/
def dashDeflNH : dvdDashboard ℤ (ℤ × ℤ) :=
  { dashDefl with sEP := { DVD_EP_STD := true, DVD_EP_HERMITIAN := false } }

/-- Steps of the concrete setting for the solve loop: every step succeeds, and
`updateV` locks one more pair at each iteration. -/
def stepsZ : dvdSteps ℤ (ℤ × ℤ) :=
  { startList := fun d => pure d
    endList := fun d => pure d
    initV := fun d => pure d
    calcPairs := fun d => pure d
    updateV := fun d => pure { d with nconv := d.nconv + 1 } }

/-- An `EPS` asking for `nev` eigenpairs in at most `max_it` iterations. -/
def epsZ (nev max_it : Int) : EPS_t :=
  { its := 0, max_it := max_it, nconv := 0, nev := nev,
    reason := EPSConvergedReason.EPS_CONVERGED_ITERATING }

/-- The value of a successful computation, or the given default. -/
def okOr {α : Type} (r : Except String α) (dflt : α) : α :=
  match r with
  | .ok a => a
  | .error _ => dflt

/-- The dashboard that `dvd_calcpairs_proj` leaves when it is called on `dashZ`. -/
def dashZ1 : dvdDashboard ℤ (ℤ × ℤ) := okOr (dvd_calcpairs_proj realBuild collabZ dashZ) dashZ

/-- The ghost-log entry is a projection registered with the reduction (a call
of `VecsMultS`). -/
def Call.isVecsMultS : Call → Bool
  | .VecsMultS _ _ _ _ => true
  | _ => false

/-- The ghost-log entry is a call of a dense solver of the projected problem. -/
def Call.isDenseSolve : Call → Bool
  | .EPSDenseHEP _ => true
  | .EPSDenseHessenberg _ => true
  | .EPSDenseSchur _ => true
  | .LAPACKgges _ => true
  | _ => false

/-- The dashboard `d1` has the ghost log of `d` followed by `evs`, and the
problem type of `d`. -/
def logged {R E : Type} (d d1 : dvdDashboard R E) (evs : List Call) : Prop :=
  d1.trace = d.trace ++ evs ∧ d1.sEP = d.sEP

/-- The dashboard `d1` has the leading dimension `ldH`, the bound `max_size_proj`
and the maximum subspace size `max_size_V` of `d`. -/
def sameLd {R E : Type} (d d1 : dvdDashboard R E) : Prop :=
  d1.ldH = d.ldH ∧ d1.max_size_proj = d.max_size_proj ∧ d1.max_size_V = d.max_size_V

/-- The dashboards of a run that starts from the dashboard `d0` left by
`dvd_calcpairs_qz_start`: a step is a successful call of `dvd_calcpairs_proj`, or
the work of another routine of the solver, which is taken to keep `ldH`,
`max_size_proj` and `max_size_V`. -/
inductive projRun {R E : Type} [CommRing R] [Star R] [Div R] [AddCommGroup E] [Module R E]
    (cfg : Build) (x : Collab R E) (d0 : dvdDashboard R E) : dvdDashboard R E → Prop where
  | start : projRun cfg x d0 d0
  | proj (d d1 : dvdDashboard R E) : projRun cfg x d0 d →
      dvd_calcpairs_proj cfg x d = .ok d1 → projRun cfg x d0 d1
  | other (d d1 : dvdDashboard R E) : projRun cfg x d0 d → sameLd d d1 → projRun cfg x d0 d1

/-- A dashboard of the concrete setting before the setup of the calc-pairs step:
a standard Hermitian problem with room for three basis vectors, two new columns
of `V`, and no size of the projected problem set yet. -/
def dashPre : dvdDashboard ℤ (ℤ × ℤ) :=
  { dashZ with max_size_V := 3, max_size_proj := 0, max_size_AV := 0, ldH := 0
               size_H := 0, size_AV := 0
               V_imm_s := 0, V_imm_e := 0, V_new_s := 0, V_new_e := 2 }

/-- A blackboard in the allocation pass with a maximum subspace size of three. -/
def qzBoard3 : dvdBlackboard := { qzBoard with size_V := 3, max_size_V := 3 }

/-- The sizes that `dvd_calcpairs_qz` computes for `dashPre` from `qzBoard3`. -/
def qzSetup3 : qzSetup :=
  (dvd_calcpairs_qz_claim (qzProblemOf dashPre 1 0)
    (dvd_calcpairs_qz_declare realBuild (qzProblemOf dashPre 1 0) qzBoard3)).2

/-- Storage of the concrete setting: every array is zero. -/
def memZ : qzStorage ℤ (ℤ × ℤ) :=
  { AV := fun _ => (0, 0), BV := fun _ => (0, 0), H := fun _ _ => 0, pX := fun _ _ => 0
    S := fun _ _ => 0, cS := fun _ _ => 0, G := fun _ _ => 0, T := fun _ _ => 0
    cT := fun _ _ => 0, pY := fun _ _ => 0 }

/-- The dashboard of the concrete setting at the start of a solve: `dashPre` after
the allocation pass of `dvd_calcpairs_qz` on `qzBoard3`. Nothing is projected yet
and the two columns of `V` are new. -/
def dashStart : dvdDashboard ℤ (ℤ × ℤ) := dvd_calcpairs_qz_dash qzSetup3 memZ dashPre

/-- The dashboard that `dvd_calcpairs_qz_start` leaves when it is called on `dashStart`. -/
def dashStart0 : dvdDashboard ℤ (ℤ × ℤ) := okOr (dvd_calcpairs_qz_start dashStart) dashStart

/-- The dashboard that `dvd_calcpairs_proj` leaves when it is called on `dashStart0`. -/
def dashStart1 : dvdDashboard ℤ (ℤ × ℤ) :=
  okOr (dvd_calcpairs_proj realBuild collabZ dashStart0) dashStart0

/-- The dashboard `dashStart1` after the two projected columns were made
immutable by the routine that manages `V`. -/
def dashStart2 : dvdDashboard ℤ (ℤ × ℤ) := { dashStart1 with V_imm_e := 2 }

/-- The dashboard that `dvd_calcpairs_proj` leaves when it is called on `dashStart2`. -/
def dashStart3 : dvdDashboard ℤ (ℤ × ℤ) :=
  okOr (dvd_calcpairs_proj realBuild collabZ dashStart2) dashStart2

/-- The dashboard that `dvd_calcpairs_proj` leaves when it is called on `dashRestart`. -/
def dashRestart1 : dvdDashboard ℤ (ℤ × ℤ) :=
  okOr (dvd_calcpairs_proj realBuild collabZ dashRestart) dashRestart

/-! ## Setup of the solver: `EPSSetUp_DAVIDSON` (`davidson.c`) and the option setters it relies on (`opts.c`)

The setup runs in `Except PetscError`: an error is the code and the message of
the `SETERRQ` that raised it. -/

/-- Error codes: a literal code `n` of `SETERRQ(n, ...)`, the symbolic PETSc
codes used by the sources (their numeric values are in `petscerror.h`), and
`signal` for a run that a signal stops (a division by zero). -/
inductive ErrCode where
  | generic (n : Int)
  | PETSC_ERR_SUP
  | PETSC_ERR_ARG_OUTOFRANGE
  | PETSC_ERR_ARG_WRONG
  | signal
  deriving DecidableEq, Repr

/-- An error raised by `SETERRQ` or returned by a collaborator. -/
structure PetscError where
  code : ErrCode
  msg : String
  deriving DecidableEq, Repr

/-- `PetscMin`. -/
def PetscMin (a b : Int) : Int := if a < b then a else b

/-- The values of `EPSProblemType` (`slepceps.h`, lines 76-81). -/
def EPS_HEP : Int := 1
/-- See `EPS_HEP`. -/
def EPS_GHEP : Int := 2
/-- See `EPS_HEP`. -/
def EPS_NHEP : Int := 3
/-- See `EPS_HEP`. -/
def EPS_GNHEP : Int := 4
/-- See `EPS_HEP`. -/
def EPS_PGNHEP : Int := 5
/-- See `EPS_HEP`. -/
def EPS_GHIEP : Int := 6

/-- The values of `EPSExtraction` (`slepceps.h`, lines 91-97); `0` is "unset". -/
def EPS_RITZ : Int := 1
/-- See `EPS_RITZ`. -/
def EPS_HARMONIC : Int := 2
/-- See `EPS_RITZ`. -/
def EPS_HARMONIC_RELATIVE : Int := 3
/-- See `EPS_RITZ`. -/
def EPS_HARMONIC_RIGHT : Int := 4
/-- See `EPS_RITZ`. -/
def EPS_HARMONIC_LARGEST : Int := 5
/-- See `EPS_RITZ`. -/
def EPS_REFINED : Int := 6
/-- See `EPS_RITZ`. -/
def EPS_REFINED_HARMONIC : Int := 7

/-- The values of `EPSWhich` (`slepceps.h`, lines 106-116); `0` is "unset". -/
def EPS_LARGEST_MAGNITUDE : Int := 1
/-- See `EPS_LARGEST_MAGNITUDE`. -/
def EPS_SMALLEST_MAGNITUDE : Int := 2
/-- See `EPS_LARGEST_MAGNITUDE`. -/
def EPS_LARGEST_REAL : Int := 3
/-- See `EPS_LARGEST_MAGNITUDE`. -/
def EPS_SMALLEST_REAL : Int := 4
/-- See `EPS_LARGEST_MAGNITUDE`. -/
def EPS_LARGEST_IMAGINARY : Int := 5
/-- See `EPS_LARGEST_MAGNITUDE`. -/
def EPS_SMALLEST_IMAGINARY : Int := 6
/-- See `EPS_LARGEST_MAGNITUDE`. -/
def EPS_TARGET_MAGNITUDE : Int := 7
/-- See `EPS_LARGEST_MAGNITUDE`. -/
def EPS_TARGET_REAL : Int := 8
/-- See `EPS_LARGEST_MAGNITUDE`. -/
def EPS_TARGET_IMAGINARY : Int := 9

/-- The fields of `EPS` that `EPSSetUp_DAVIDSON` and the setters of `opts.c` read
or write. Enumerations are their integer values; `n` is the global and `nloc` the
local dimension of the problem; `conv_residual` is the test
`eps->conv_func == EPSResidualConverged`. -/
structure EPS_conf where
  n : Int
  nloc : Int
  nev : Int
  ncv : Int
  mpd : Int
  max_it : Int
  which : Int
  problem_type : Int
  isgeneralized : Bool
  ishermitian : Bool
  ispositive : Bool
  leftvecs : Bool
  extraction : Int
  nds : Int
  nini : Int
  tol : ℚ
  target : ℚ
  conv_residual : Bool
  deriving DecidableEq, Repr

/-- A value of the type `PetscReal` (an IEEE double) as the comparisons of C see
it: a number, an infinity with its sign, or a NaN. -/
inductive PetscReal where
  | num (q : ℚ)
  | inf (negative : Bool)
  | nan
  deriving DecidableEq, Repr

/-- The comparison `a == b` of C on two doubles: false when a side is a NaN. -/
def PetscReal.isEq : PetscReal → PetscReal → Bool
  | .num a, .num b => decide (a = b)
  | .inf s, .inf t => decide (s = t)
  | _, _ => false

/-- The comparison `a < b` of C on two doubles: false when a side is a NaN. -/
def PetscReal.isLt : PetscReal → PetscReal → Bool
  | .num a, .num b => decide (a < b)
  | .num _, .inf t => !t
  | .inf s, .num _ => s
  | .inf s, .inf t => s && !t
  | _, _ => false

/-- The comparison `a >= b` of C on two doubles: false when a side is a NaN. -/
def PetscReal.isGe (a b : PetscReal) : Bool := b.isLt a || a.isEq b

/-- The private data `EPS_DAVIDSON` of the solver; `pc` is the test
`data->pc != 0`; `fix` is a `PetscReal`. -/
structure EPS_DAVIDSON where
  krylovstart : Bool
  blocksize : Int
  minv : Int
  plusk : Int
  initialsize : Int
  fix : PetscReal
  pc : Bool
  deriving DecidableEq, Repr

/-- The function `EPSSetProblemType` (`opts.c`). -/
def EPSSetProblemType (eps : EPS_conf) (type : Int) : Except PetscError EPS_conf :=
  if type = EPS_HEP then
    pure { eps with isgeneralized := false, ishermitian := true, ispositive := false,
                    problem_type := type }
  else if type = EPS_NHEP then
    pure { eps with isgeneralized := false, ishermitian := false, ispositive := false,
                    problem_type := type }
  else if type = EPS_GHEP then
    pure { eps with isgeneralized := true, ishermitian := true, ispositive := true,
                    problem_type := type }
  else if type = EPS_GNHEP then
    pure { eps with isgeneralized := true, ishermitian := false, ispositive := false,
                    problem_type := type }
  else if type = EPS_PGNHEP then
    pure { eps with isgeneralized := true, ishermitian := false, ispositive := true,
                    problem_type := type }
  else if type = EPS_GHIEP then
    pure { eps with isgeneralized := true, ishermitian := true, ispositive := false,
                    problem_type := type }
  else throw ⟨.PETSC_ERR_ARG_WRONG, "Unknown eigenvalue problem type"⟩

/-- The values of `HarmType_t` that `EPSSetUp_DAVIDSON` uses (`davidson.h`). -/
inductive HarmType_t where
  | DVD_HARM_NONE
  | DVD_HARM_RR
  | DVD_HARM_RRR
  | DVD_HARM_REIGS
  | DVD_HARM_LEIGS
  deriving DecidableEq, Repr

/-- The values of `InitType_t` that `EPSSetUp_DAVIDSON` uses (`davidson.h`). -/
inductive InitType_t where
  | DVD_INITV_CLASSIC
  | DVD_INITV_KRYLOV
  deriving DecidableEq, Repr

/-- The fields of the dashboard that `EPSSetUp_DAVIDSON` itself writes: the
problem specification (lines 120-170) and the auxiliary regions (lines 232-235).
`hasB` is the test `dvd->B != PETSC_NULL`; `auxV` is an offset into `data->wV` and
`auxS` an offset into `data->wS`. -/
structure dvdProblem where
  hasB : Bool
  sA : MatType_t
  sB : MatType_t
  sEP : EPType_t
  nev : Int
  which : Int
  withTarget : Bool
  target0 : ℚ
  target1 : ℚ
  tol : ℚ
  auxV : Int := 0
  auxS : Int := 0
  size_auxV : Int := 0
  size_auxS : Int := 0
  deriving DecidableEq, Repr

/-- The calls of `EPSSetUp_DAVIDSON` to routines outside the sources that return
only an error code, in program order. -/
inductive SetupCall where
  | STSetUp
  | PetscTypeCompare_ST
  | PCDestroy_data
  | STGetKSP
  | KSPGetPC
  | PetscTypeCompare_PC
  | PetscObjectReference
  | PCCreate
  | PCSetType
  | KSPSetPC
  | PCDestroy_pc2
  | STGetOperators
  | PetscMemzero
  | IPSetBilinearForm (withB : Bool)
  | PetscRandomCreate
  | PetscRandomSetFromOptions
  | dvd_orthV_DS
  | PetscMalloc_wS (n : Int)
  | PetscMalloc_wV (n : Int)
  | VecCreateMPIWithArray (i : Int)
  deriving DecidableEq, Repr

/-- The arguments that `EPSSetUp_DAVIDSON` passes to `dvd_schm_basic_preconf` and
to `dvd_schm_basic_conf`. -/
structure SchmArgs where
  ncv : Int
  min_size_V : Int
  bs : Int
  initv : Int
  nini : Int
  plusk : Int
  pc : Bool
  harm : HarmType_t
  init : InitType_t
  deriving DecidableEq, Repr

/-- The collaborators of `EPSSetUp_DAVIDSON`: the error code of each external
call, the two type tests `PetscTypeCompare` answers, whether the spectral
transformation holds a second operator, and the two configuration routines of
the solver scheme (`dvd_schm_basic_preconf` fills the blackboard with the
declarations of the steps, `dvd_schm_basic_conf` lets the steps claim). -/
structure SetupCollab where
  call : SetupCall → Except PetscError Unit
  isSTPRECOND : Bool
  isPCNONE : Bool
  hasB : Bool
  dvd_schm_basic_preconf : dvdProblem → SchmArgs → Except PetscError dvdBlackboard
  dvd_schm_basic_conf : dvdProblem → dvdBlackboard → SchmArgs → PetscReal →
    Except PetscError dvdBlackboard

/-- What lines 72-92 of `EPSSetUp_DAVIDSON` leave: `eps` and the locals `bs`,
`min_size_V`, `plusk` and `initv`. -/
structure SetupDims where
  eps : EPS_conf
  bs : Int
  min_size_V : Int
  plusk : Int
  initv : Int
  deriving DecidableEq, Repr

/-- Lines 73-76 of `EPSSetUp_DAVIDSON`: the value of `ncv`. -/
def EPSSetUp_DAVIDSON_ncv (eps : EPS_conf) : Except PetscError EPS_conf :=
  if eps.ncv ≠ 0 then
    if eps.ncv < eps.nev then throw ⟨.generic 1, "The value of ncv must be at least nev"⟩
    else pure eps
  else if eps.nev < 500 then
    pure { eps with ncv := PetscMin eps.n (PetscMax (2 * eps.nev) (eps.nev + 15)) }
  else pure { eps with ncv := PetscMin eps.n (eps.nev + 500) }

/-- Line 77 of `EPSSetUp_DAVIDSON`: the default of `max_it`. The quotient
`2*eps->n/eps->ncv` is the truncating division of C; with `ncv = 0` the division
stops the run. -/
def EPSSetUp_DAVIDSON_max_it (eps : EPS_conf) : Except PetscError EPS_conf :=
  if eps.max_it = 0 then
    if eps.ncv = 0 then throw ⟨.signal, "division by zero"⟩
    else pure { eps with max_it := PetscMax 100 (Int.tdiv (2 * eps.n) eps.ncv) }
  else pure eps

/-- Lines 72-92 of `EPSSetUp_DAVIDSON`: the options are completed and the
dimensions are checked. The `PetscInfo` of line 79 only logs. -/
def EPSSetUp_DAVIDSON_dims (eps : EPS_conf) (data : EPS_DAVIDSON) :
    Except PetscError SetupDims := do
  let eps ← EPSSetUp_DAVIDSON_ncv eps
  let eps ← EPSSetUp_DAVIDSON_max_it eps
  let eps := { eps with which := if eps.which = 0 then EPS_LARGEST_MAGNITUDE else eps.which }
  if eps.ishermitian ∧
      (eps.which = EPS_LARGEST_IMAGINARY ∨ eps.which = EPS_SMALLEST_IMAGINARY) then
    throw ⟨.generic 1, "Wrong value of eps->which"⟩
  else
    let bs := if data.blocksize ≤ 0 then 1 else data.blocksize
    if ¬ (eps.nev + bs < eps.ncv) then
      throw ⟨.generic 1, "The ncv has to be greater than nev plus blocksize!"⟩
    else
      let min_size_V := if data.minv = 0 then bs else data.minv
      if ¬ (min_size_V ≤ eps.ncv) then
        throw ⟨.generic 1, "The value of eps_davidsones_minv must be less than ncv!"⟩
      else
        pure { eps := eps, bs := bs, min_size_V := min_size_V, plusk := data.plusk,
               initv := data.initialsize }

/-- Lines 94-118 of `EPSSetUp_DAVIDSON`: left vectors are refused, the spectral
transformation is set up and must be `STPRECOND`, and the preconditioner is taken
out of `st->ksp`. Returns `data` and the test `pc != 0` for the local `pc`. -/
def EPSSetUp_DAVIDSON_pc (x : SetupCollab) (eps : EPS_conf) (data : EPS_DAVIDSON) :
    Except PetscError (EPS_DAVIDSON × Bool) := do
  if eps.leftvecs then
    throw ⟨.PETSC_ERR_SUP, "Left vectors not supported in this solver"⟩
  else
    x.call .STSetUp
    x.call .PetscTypeCompare_ST
    if !x.isSTPRECOND then
      throw ⟨.PETSC_ERR_SUP, "%s only works with precond spectral transformation"⟩
    else
      let data ← (if data.pc then do
          x.call .PCDestroy_data
          pure { data with pc := false }
        else pure data)
      x.call .STGetKSP
      x.call .KSPGetPC
      x.call .PetscTypeCompare_PC
      if x.isPCNONE then pure (data, false)
      else
        x.call .PetscObjectReference
        let data := { data with pc := true }
        x.call .PCCreate
        x.call .PCSetType
        x.call .KSPSetPC
        x.call .PCDestroy_pc2
        pure (data, true)

/-- The assignments of lines 123-170 of `EPSSetUp_DAVIDSON`: the problem
specification written into the zeroed dashboard, and the local `ipB`. `hasB` tells
whether `STGetOperators` returned a second operator. -/
def EPSSetUp_DAVIDSON_spec (eps : EPS_conf) (hasB : Bool) : dvdProblem × Bool :=
  let B := if eps.isgeneralized then hasB else false
  let ispositive := eps.ispositive
  let sA : MatType_t :=
    { DVD_MAT_IMPLICIT := true, DVD_MAT_HERMITIAN := eps.ishermitian,
      DVD_MAT_POS_DEF := ispositive && !eps.isgeneralized }
  let ispositive :=
    if !ispositive && !eps.isgeneralized && eps.ishermitian then true else ispositive
  let sB : MatType_t :=
    if !eps.isgeneralized then
      { DVD_MAT_IMPLICIT := true, DVD_MAT_HERMITIAN := true, DVD_MAT_IDENTITY := true,
        DVD_MAT_UNITARY := true, DVD_MAT_POS_DEF := true }
    else
      { DVD_MAT_IMPLICIT := true, DVD_MAT_HERMITIAN := eps.ishermitian,
        DVD_MAT_POS_DEF := ispositive }
  let ipB := sB.DVD_MAT_POS_DEF
  let sEP : EPType_t :=
    { DVD_EP_STD := !eps.isgeneralized || (eps.isgeneralized && ipB),
      DVD_EP_HERMITIAN := ispositive }
  let target : ℚ × ℚ :=
    if eps.which = EPS_TARGET_MAGNITUDE ∨ eps.which = EPS_TARGET_REAL ∨
        eps.which = EPS_TARGET_IMAGINARY then (eps.target, 1)
    else if eps.which = EPS_SMALLEST_MAGNITUDE ∨ eps.which = EPS_SMALLEST_REAL ∨
        eps.which = EPS_SMALLEST_IMAGINARY then (0, 1)
    else (1, 0)
  ({ hasB := B, sA := sA, sB := sB, sEP := sEP, nev := eps.nev, which := eps.which,
     withTarget := true, target0 := target.1, target1 := target.2, tol := eps.tol }, ipB)

/-- Lines 172-181 of `EPSSetUp_DAVIDSON`: the switch on `eps->extraction`. -/
def EPSSetUp_DAVIDSON_harm (extraction : Int) : Except PetscError HarmType_t :=
  if extraction = 0 ∨ extraction = EPS_RITZ then pure .DVD_HARM_NONE
  else if extraction = EPS_HARMONIC then pure .DVD_HARM_RR
  else if extraction = EPS_HARMONIC_RELATIVE then pure .DVD_HARM_RRR
  else if extraction = EPS_HARMONIC_RIGHT then pure .DVD_HARM_REIGS
  else if extraction = EPS_HARMONIC_LARGEST then pure .DVD_HARM_LEIGS
  else throw ⟨.PETSC_ERR_SUP, "Unsupported extraction type"⟩

/-- What lines 72-170 of `EPSSetUp_DAVIDSON` leave, when they succeed. -/
structure SetupSpec where
  dims : SetupDims
  data : EPS_DAVIDSON
  pc : Bool
  dvd : dvdProblem
  ipB : Bool
  deriving DecidableEq, Repr

/-- Lines 72-170 of `EPSSetUp_DAVIDSON`: everything before the switch on the
extraction. -/
def EPSSetUp_DAVIDSON_begin (x : SetupCollab) (eps : EPS_conf) (data : EPS_DAVIDSON) :
    Except PetscError SetupSpec := do
  let dims ← EPSSetUp_DAVIDSON_dims eps data
  let r ← EPSSetUp_DAVIDSON_pc x dims.eps data
  x.call .STGetOperators
  x.call .PetscMemzero
  let s := EPSSetUp_DAVIDSON_spec dims.eps x.hasB
  pure { dims := dims, data := r.1, pc := r.2, dvd := s.1, ipB := s.2 }

/-- A loop `for (i=0; i<n; i++)` of calls that return an error code. -/
def callRange (call : Int → Except PetscError Unit) : Nat → Int → Except PetscError Unit
  | 0, _ => pure ()
  | n + 1, i => do
    call i
    callRange call n (i + 1)

/-- The sizes and offsets that lines 218-235 of `EPSSetUp_DAVIDSON` compute from
the blackboard: `wS` holds `len_wS` scalars and `wV` holds `nvecs` vectors. -/
structure SetupReserve where
  nvecs : Int
  nscalars : Int
  len_wS : Int
  free_vecs : Int
  free_scalars : Int
  auxV : Int
  auxS : Int
  size_auxV : Int
  size_auxS : Int
  deriving DecidableEq, Repr

/-- The arithmetic of lines 218-235 of `EPSSetUp_DAVIDSON` ("Reserve memory"). -/
def EPSSetUp_DAVIDSON_reserve (nloc : Int) (b : dvdBlackboard) : SetupReserve :=
  let nvecs := b.max_size_auxV + b.own_vecs
  let nscalars := b.own_scalars + b.max_size_auxS
  let free_scalars := nvecs * nloc
  { nvecs := nvecs, nscalars := nscalars, len_wS := nvecs * nloc + nscalars,
    free_vecs := 0, free_scalars := free_scalars,
    auxV := b.own_vecs, auxS := free_scalars + b.own_scalars,
    size_auxV := b.max_size_auxV, size_auxS := b.max_size_auxS }

/-- What a successful `EPSSetUp_DAVIDSON` leaves. -/
structure SetupResult where
  eps : EPS_conf
  data : EPS_DAVIDSON
  dvd : dvdProblem
  args : SchmArgs
  reserve : SetupReserve
  b : dvdBlackboard
  deriving DecidableEq, Repr

/-- The function `EPSSetUp_DAVIDSON`. The pointers that the last lines copy into
`eps` (`eigr`, `eigi`, `errest`, `V`) are not part of the embedding. -/
def EPSSetUp_DAVIDSON (x : SetupCollab) (eps : EPS_conf) (data : EPS_DAVIDSON) :
    Except PetscError SetupResult := do
  let s ← EPSSetUp_DAVIDSON_begin x eps data
  let harm ← EPSSetUp_DAVIDSON_harm s.dims.eps.extraction
  let init := if s.data.krylovstart then InitType_t.DVD_INITV_KRYLOV
    else InitType_t.DVD_INITV_CLASSIC
  x.call (.IPSetBilinearForm (s.ipB && s.dvd.hasB))
  x.call .PetscRandomCreate
  x.call .PetscRandomSetFromOptions
  x.call .dvd_orthV_DS
  let eps := { s.dims.eps with
    conv_residual := if s.dims.eps.conv_residual then false else s.dims.eps.conv_residual }
  let args : SchmArgs :=
    { ncv := eps.ncv, min_size_V := s.dims.min_size_V, bs := s.dims.bs, initv := s.dims.initv,
      nini := eps.nini, plusk := s.dims.plusk, pc := s.pc, harm := harm, init := init }
  let b ← x.dvd_schm_basic_preconf s.dvd args
  let r := EPSSetUp_DAVIDSON_reserve eps.nloc b
  x.call (.PetscMalloc_wS r.len_wS)
  x.call (.PetscMalloc_wV r.nvecs)
  callRange (fun i => x.call (.VecCreateMPIWithArray i)) r.nvecs.toNat 0
  let b := { b with free_vecs := r.free_vecs, free_scalars := r.free_scalars }
  let dvd := { s.dvd with auxV := r.auxV, auxS := r.auxS, size_auxV := r.size_auxV,
                          size_auxS := r.size_auxS }
  let b ← x.dvd_schm_basic_conf dvd b args s.data.fix
  pure { eps := eps, data := s.data, dvd := dvd, args := args, reserve := r, b := b }

/-- An `EPS` of the concrete setting after `EPSCreate`: a problem of dimension
`n`, one eigenvalue wanted, nothing else set. -/
def epsConf (n : Int) : EPS_conf :=
  { n := n, nloc := n, nev := 1, ncv := 0, mpd := 0, max_it := 0, which := 0,
    problem_type := 0, isgeneralized := false, ishermitian := false, ispositive := false,
    leftvecs := false, extraction := 0, nds := 0, nini := 0, tol := 0, target := 0,
    conv_residual := true }

/-- The private data with the defaults that `EPSCreate_DAVIDSON` sets. -/
def dataDefault : EPS_DAVIDSON :=
  { krylovstart := false, blocksize := 1, minv := 6, plusk := 0, initialsize := 5,
    fix := .num (1 / 100), pc := false }

/-- Collaborators of the concrete setting for the setup: every call returns,
there is no preconditioner, and the solver scheme declares and then claims what
`dvd_calcpairs_qz` does for a basis of `ncv` vectors. -/
def collabSetup : SetupCollab :=
  { call := fun _ => pure ()
    isSTPRECOND := true
    isPCNONE := true
    hasB := true
    dvd_schm_basic_preconf := fun dvd a =>
      pure (dvd_calcpairs_qz_declare realBuild
        { sEP := dvd.sEP, nev := dvd.nev, hasB := dvd.hasB, ipV_oneMV := false, nds := 0 }
        { state := 0, max_nev := 0, size_V := a.ncv, max_size_V := a.ncv, own_vecs := 0,
          own_scalars := 0, max_size_auxS := 0, free_vecs := 0, free_scalars := 0 })
    dvd_schm_basic_conf := fun dvd b _ _ =>
      pure (dvd_calcpairs_qz_claim
        { sEP := dvd.sEP, nev := dvd.nev, hasB := dvd.hasB, ipV_oneMV := false, nds := 0 }
        { b with state := 1 }).1 }

/-! ## Selection of the eigenpairs after a Schur decomposition

The routine `dvd_calcpairs_selectPairs_qz` of `dvd_calcpairs.c` and, for the
complex build, the operations on complex scalars that it uses. -/

/-- The operations of the complex build on a `PetscScalar`. `PetscRealPart`,
`PetscImaginaryPart` and `PetscAbsScalar` return a `PetscReal`; it is kept here
as a scalar, which is what the C code makes of it when it stores it in a
`PetscScalar` or divides a scalar by it. `PetscConj` is `star`. -/
structure ScalarOps (R : Type) where
  PetscRealPart : R → R
  PetscImaginaryPart : R → R
  PetscAbsScalar : R → R

/-- Output of the routines that sort a Schur decomposition: the reordered
factors, bases and eigenvalues. -/
structure SchurSorted (R : Type) where
  S : DMat R
  T : DMat R
  pY : DMat R
  pX : DMat R
  eigr : Int → R
  eigi : Int → R

/-- The collaborators of `dvd_calcpairs_selectPairs_qz`: the sorting routines
`EPSSortDenseSchurGeneralized(eps,n,k0,k,S,T,ldS,pY,pX,eigr,eigi)` and
`EPSSortDenseSchur(eps,n,k0,S,ldS,pX,eigr,eigi)`, and the dashboard callback
`calcpairs_eigs_trans`. -/
structure SortCollab (R E : Type) where
  EPSSortDenseSchurGeneralized : Int → Int → Int → DMat R → DMat R → Int → Option (DMat R) →
    DMat R → (Int → R) → (Int → R) → Except String (SchurSorted R)
  EPSSortDenseSchur : Int → Int → DMat R → Int → DMat R → (Int → R) → (Int → R) →
    Except String (SchurSorted R)
  calcpairs_eigs_trans : Option (dvdDashboard R E → Except String (dvdDashboard R E))

section SelectPairs

variable {R E : Type} [CommRing R] [Star R] [Div R] [DecidableEq R]

/-- Lines 573-591 of `dvd_calcpairs_selectPairs_qz`: the leading dimensions are
checked, the Schur decomposition is sorted, and the callback is run. -/
def dvd_calcpairs_selectPairs_qz_sort (y : SortCollab R E) (d : dvdDashboard R E) (n : Int) :
    Except String (dvdDashboard R E) :=
  if d.ldpX ≠ d.size_H ∨
      (d.T.isSome = true ∧ (d.ldS ≠ d.ldT ∨ d.ldpX ≠ d.ldpY ∨ d.ldpX ≠ d.size_H)) then
    throw "Error before ordering eigenpairs"
  else do
    let d ← (match d.T with
      | some T => do
        let r ← y.EPSSortDenseSchurGeneralized d.size_H 0 n d.S T d.ldS d.pY d.pX d.eigr d.eigi
        pure { d with S := r.S, T := some r.T, pY := (if d.pY.isSome then some r.pY else none),
                      pX := r.pX, eigr := r.eigr, eigi := r.eigi }
      | none => do
        let r ← y.EPSSortDenseSchur d.size_H 0 d.S d.ldS d.pX d.eigr d.eigi
        pure { d with S := r.S, pX := r.pX, eigr := r.eigr, eigi := r.eigi })
    match y.calcpairs_eigs_trans with
    | some f => f d
    | none => pure d

/-- The body of the loop of lines 595-602 for the column `i`, on `(T, S, pX)`:
when the diagonal entry `T[i][i]` has a nonzero imaginary part, the phase
`s = conj(T[i][i])/|T[i][i]|` is computed, rows `0..i` of column `i` of `T` get the
real part of their product with `s`, rows `0..i` of column `i` of `S` and rows
`0..size_H-1` of column `i` of `pX` are multiplied by `s`. -/
def qz_rotate (ops : ScalarOps R) (size_H i : Int) (m : DMat R × DMat R × DMat R) :
    DMat R × DMat R × DMat R :=
  if ops.PetscImaginaryPart (m.1 i i) ≠ 0 then
    let s := star (m.1 i i) / ops.PetscAbsScalar (m.1 i i)
    (fun j c => if c = i ∧ 0 ≤ j ∧ j ≤ i then ops.PetscRealPart (m.1 j c * s) else m.1 j c,
     fun j c => if c = i ∧ 0 ≤ j ∧ j ≤ i then m.2.1 j c * s else m.2.1 j c,
     fun j c => if c = i ∧ 0 ≤ j ∧ j < size_H then m.2.2 j c * s else m.2.2 j c)
  else m

/-- The loop `for (i = i0; i < i0 + n; i++)` of lines 595-602. -/
def qz_rotate_all (ops : ScalarOps R) (size_H : Int) :
    Nat → Int → DMat R × DMat R × DMat R → DMat R × DMat R × DMat R
  | 0, _, m => m
  | n + 1, i, m => qz_rotate_all ops size_H n (i + 1) (qz_rotate ops size_H i m)

/-- Lines 593-603 of `dvd_calcpairs_selectPairs_qz` (complex build): when `T`
exists, its diagonal is made real. -/
def dvd_calcpairs_selectPairs_qz_real (ops : ScalarOps R) (d : dvdDashboard R E) :
    dvdDashboard R E :=
  match d.T with
  | some T =>
    let m := qz_rotate_all ops d.size_H d.size_H.toNat 0 (T, d.S, d.pX)
    { d with T := some m.1, S := m.2.1, pX := m.2.2 }
  | none => d

/-- The function `dvd_calcpairs_selectPairs_qz`. -/
def dvd_calcpairs_selectPairs_qz (cfg : Build) (ops : ScalarOps R) (y : SortCollab R E)
    (d : dvdDashboard R E) (n : Int) : Except String (dvdDashboard R E) := do
  let d ← dvd_calcpairs_selectPairs_qz_sort y d n
  pure (if cfg.PETSC_USE_COMPLEX then dvd_calcpairs_selectPairs_qz_real ops d else d)

/-- The phase `conj(t)/|t|` of a scalar `t`. -/
def phase (ops : ScalarOps R) (t : R) : R := star t / ops.PetscAbsScalar t

/-- At the scalar `t`, `PetscAbsScalar` is the modulus: `|t|*|t| = t*conj(t)`, and
`|t|` is a real number different from zero (its imaginary part is zero and it is
its own conjugate). -/
def modulusAt (ops : ScalarOps R) (t : R) : Prop :=
  t * star t = ops.PetscAbsScalar t * ops.PetscAbsScalar t ∧ ops.PetscAbsScalar t ≠ 0 ∧
  ops.PetscImaginaryPart (ops.PetscAbsScalar t) = 0 ∧
  star (ops.PetscAbsScalar t) = ops.PetscAbsScalar t

/-- The laws of the real and the imaginary part that the fix-up relies on: a
real part has no imaginary part, and a scalar without imaginary part is its own
real part. -/
def realPartLaws (ops : ScalarOps R) : Prop :=
  (∀ z, ops.PetscImaginaryPart (ops.PetscRealPart z) = 0) ∧
  (∀ z, ops.PetscImaginaryPart z = 0 → ops.PetscRealPart z = z)

end SelectPairs

/-- Complex numbers with rational real and imaginary part: the scalars of the
concrete setting for the complex build. -/
@[ext]
structure QI where
  re : ℚ
  im : ℚ
  deriving DecidableEq

instance QI.instZero : Zero QI := ⟨⟨0, 0⟩⟩

instance QI.instOne : One QI := ⟨⟨1, 0⟩⟩

instance QI.instAdd : Add QI := ⟨fun a b => ⟨a.re + b.re, a.im + b.im⟩⟩

instance QI.instNeg : Neg QI := ⟨fun a => ⟨-a.re, -a.im⟩⟩

instance QI.instMul : Mul QI :=
  ⟨fun a b => ⟨a.re * b.re - a.im * b.im, a.re * b.im + a.im * b.re⟩⟩

instance QI.instInv : Inv QI :=
  ⟨fun a => ⟨a.re / (a.re * a.re + a.im * a.im), -a.im / (a.re * a.re + a.im * a.im)⟩⟩

/-- Conjugation: `PetscConj`. -/
instance QI.instStar : Star QI := ⟨fun a => ⟨a.re, -a.im⟩⟩

instance QI.instCommRing : CommRing QI where
  add_assoc a b c := QI.ext (add_assoc a.re b.re c.re) (add_assoc a.im b.im c.im)
  zero_add a := QI.ext (zero_add a.re) (zero_add a.im)
  add_zero a := QI.ext (add_zero a.re) (add_zero a.im)
  add_comm a b := QI.ext (add_comm a.re b.re) (add_comm a.im b.im)
  neg_add_cancel a := QI.ext (neg_add_cancel a.re) (neg_add_cancel a.im)
  left_distrib a b c := QI.ext
    (show a.re * (b.re + c.re) - a.im * (b.im + c.im)
      = a.re * b.re - a.im * b.im + (a.re * c.re - a.im * c.im) by ring)
    (show a.re * (b.im + c.im) + a.im * (b.re + c.re)
      = a.re * b.im + a.im * b.re + (a.re * c.im + a.im * c.re) by ring)
  right_distrib a b c := QI.ext
    (show (a.re + b.re) * c.re - (a.im + b.im) * c.im
      = a.re * c.re - a.im * c.im + (b.re * c.re - b.im * c.im) by ring)
    (show (a.re + b.re) * c.im + (a.im + b.im) * c.re
      = a.re * c.im + a.im * c.re + (b.re * c.im + b.im * c.re) by ring)
  mul_assoc a b c := QI.ext
    (show (a.re * b.re - a.im * b.im) * c.re - (a.re * b.im + a.im * b.re) * c.im
      = a.re * (b.re * c.re - b.im * c.im) - a.im * (b.re * c.im + b.im * c.re) by ring)
    (show (a.re * b.re - a.im * b.im) * c.im + (a.re * b.im + a.im * b.re) * c.re
      = a.re * (b.re * c.im + b.im * c.re) + a.im * (b.re * c.re - b.im * c.im) by ring)
  one_mul a := QI.ext (show 1 * a.re - 0 * a.im = a.re by ring)
    (show 1 * a.im + 0 * a.re = a.im by ring)
  mul_one a := QI.ext (show a.re * 1 - a.im * 0 = a.re by ring)
    (show a.re * 0 + a.im * 1 = a.im by ring)
  mul_comm a b := QI.ext
    (show a.re * b.re - a.im * b.im = b.re * a.re - b.im * a.im by ring)
    (show a.re * b.im + a.im * b.re = b.re * a.im + b.im * a.re by ring)
  zero_mul a := QI.ext (show 0 * a.re - 0 * a.im = 0 by ring)
    (show 0 * a.im + 0 * a.re = 0 by ring)
  mul_zero a := QI.ext (show a.re * 0 - a.im * 0 = 0 by ring)
    (show a.re * 0 + a.im * 0 = 0 by ring)
  nsmul := nsmulRec
  zsmul := zsmulRec

instance QI.instField : Field QI where
  inv_zero := QI.ext (show (0 : ℚ) / (0 * 0 + 0 * 0) = 0 by simp)
    (show -(0 : ℚ) / (0 * 0 + 0 * 0) = 0 by simp)
  exists_pair_ne := ⟨0, 1, fun h => zero_ne_one (congrArg QI.re h)⟩
  mul_inv_cancel a ha := by
    have hn : a.re * a.re + a.im * a.im ≠ 0 := by
      intro h
      apply ha
      have h1 : a.re = 0 := by nlinarith [mul_self_nonneg a.re, mul_self_nonneg a.im]
      have h2 : a.im = 0 := by nlinarith [mul_self_nonneg a.re, mul_self_nonneg a.im]
      exact QI.ext h1 h2
    refine QI.ext ?_ ?_
    · show a.re * (a.re / (a.re * a.re + a.im * a.im))
        - a.im * (-a.im / (a.re * a.re + a.im * a.im)) = 1
      field_simp
    · show a.re * (-a.im / (a.re * a.re + a.im * a.im))
        + a.im * (a.re / (a.re * a.re + a.im * a.im)) = 0
      field_simp
      ring
  nnqsmul := _
  nnqsmul_def := fun _ _ => rfl
  qsmul := _
  qsmul_def := fun _ _ => rfl
  nnratCast_def := fun _ => rfl
  ratCast_def := fun _ => rfl

instance QI.instStarRing : StarRing QI where
  star_involutive a := QI.ext rfl (neg_neg a.im)
  star_mul a b := QI.ext
    (show a.re * b.re - a.im * b.im = b.re * a.re - -b.im * -a.im by ring)
    (show -(a.re * b.im + a.im * b.re) = b.re * -a.im + -b.im * a.re by ring)
  star_add a b := QI.ext rfl (neg_add a.im b.im)

/-- The natural number whose square is `n`, and `0` when `n` is not a square. -/
def isqrt (n : Nat) : Nat := ((List.range (n + 1)).find? (fun k => k * k = n)).getD 0

/-- The operations on `QI`: the real part, the imaginary part, and the modulus
when the squared modulus is the square of a rational number. -/
def opsQI : ScalarOps QI :=
  { PetscRealPart := fun z => ⟨z.re, 0⟩
    PetscImaginaryPart := fun z => ⟨z.im, 0⟩
    PetscAbsScalar := fun z =>
      ⟨(isqrt (z.re * z.re + z.im * z.im).num.natAbs : ℚ) /
        (isqrt (z.re * z.re + z.im * z.im).den : ℚ), 0⟩ }

/-- The complex build. -/
def complexBuild : Build :=
  { PETSC_USE_COMPLEX := true, SLEPC_MISSING_LAPACK_GGES := false, DVD_STATE_CONF := 1 }

/-- Sorting routines of the concrete setting: the decomposition is already
sorted and is returned as it is; there is no callback. -/
def sortQI : SortCollab QI (ℤ × ℤ) :=
  { EPSSortDenseSchurGeneralized := fun _ _ _ S T _ pY pX eigr eigi =>
      pure { S := S, T := T, pY := pY.getD (fun _ _ => 0), pX := pX, eigr := eigr, eigi := eigi }
    EPSSortDenseSchur := fun _ _ S _ pX eigr eigi =>
      pure { S := S, T := fun _ _ => 0, pY := fun _ _ => 0, pX := pX, eigr := eigr, eigi := eigi }
    calcpairs_eigs_trans := none }

/-- The factor `T` of the concrete setting: upper triangular, with the real
diagonal entry `2` and the diagonal entry `3+4i`, above which stands `1`. -/
def TQI : DMat QI := fun i j =>
  if i = 0 ∧ j = 0 then ⟨2, 0⟩ else if i = 0 ∧ j = 1 then ⟨1, 0⟩
  else if i = 1 ∧ j = 1 then ⟨3, 4⟩ else 0

/-- The factor `S` of the concrete setting. -/
def SQI : DMat QI := fun i j =>
  if i = 0 ∧ j = 0 then ⟨1, 0⟩ else if i = 0 ∧ j = 1 then ⟨0, 1⟩
  else if i = 1 ∧ j = 1 then ⟨5, 0⟩ else 0

/-- The identity matrix over `QI`. -/
def idQI : DMat QI := fun i j => if i = j then 1 else 0

/-- A dashboard of the concrete setting for the complex build, after the
generalized Schur decomposition of a 2-by-2 projected problem. -/
def dashQI : dvdDashboard QI (ℤ × ℤ) :=
  { A := opA, B := some opA
    sEP := { DVD_EP_STD := false, DVD_EP_HERMITIAN := false }
    sA := {}, sB := {}, sH := {}, sG := {}
    ipV_oneMV := false, doNotUpdateBV := false
    V := basisV, W := none
    AV := fun i => opA (basisV i), real_AV := fun _ => (0, 0)
    BV := some (fun i => opA (basisV i)), real_BV := none
    cX := none, cY := none, BcX := none
    size_V := 2, max_size_V := 2, size_AV := 2, max_size_AV := 2
    size_BV := 2, max_size_BV := 2, size_cX := 0, size_cY := 0
    V_imm_s := 0, V_imm_e := 2, V_tra_s := 0, V_tra_e := 0, V_new_s := 2, V_new_e := 2
    MT_type := .DVD_MT_IDENTITY
    MTX := fun _ _ => 0, MTY := none, size_MT := 0
    H := SQI, real_H := fun _ _ => 0
    G := some TQI, real_G := none, S := SQI, T := some TQI
    pX := idQI, pY := some idQI, cS := none, cT := none
    size_H := 2, size_G := 2, max_size_proj := 2, max_size_cS := 0
    ldH := 2, ldS := 2, ldT := 2, ldpX := 2, ldpY := 2
    pX_type := {}, pY_type := {}
    eigr := fun i => SQI i i, eigi := fun _ => 0, nR := fun _ => 0, nconv := 0
    auxS := fun _ _ => 0
    calcpairs_selectPairs := some .dvd_calcpairs_selectPairs_qz, trace := [] }

/-- The dashboard that `dvd_calcpairs_selectPairs_qz` leaves when it is called on
`dashQI` in the complex build. -/
def dashQI1 : dvdDashboard QI (ℤ × ℤ) :=
  okOr (dvd_calcpairs_selectPairs_qz complexBuild opsQI sortQI dashQI 2) dashQI

/-- The factor `T` of `dashQI1`. -/
def TQI1 : DMat QI := dashQI1.T.getD (fun _ _ => 0)

/-! ## Option setters: `EPSSetBalance` (`opts.c`), `SVDSetDimensions` (`svdopts.c`) and the setters of the Davidson solvers (`davidson.c`) -/

/-- The constants `PETSC_DECIDE`, `PETSC_DEFAULT` and `PETSC_IGNORE` of `petsc.h`.
The header is not among the sources, so the setters take the constants as a
parameter. -/
structure PetscConsts where
  PETSC_DECIDE : Int
  PETSC_DEFAULT : Int
  PETSC_IGNORE : Int
  deriving DecidableEq, Repr

/-- The values that PETSc gives the constants: `PETSC_DECIDE = -1`,
`PETSC_DEFAULT = -2` and `PETSC_IGNORE = PETSC_NULL = 0`. -/
def petscConsts : PetscConsts :=
  { PETSC_DECIDE := -1, PETSC_DEFAULT := -2, PETSC_IGNORE := 0 }

/-- What a setter leaves: the object as it is when the call returns, and the
error code that the call returns (`none` is the code 0). A `SETERRQ` returns at
once, with the stores made before it. -/
structure SetOutcome (σ : Type) where
  obj : σ
  ierr : Option PetscError

/-- The macro `CHKERRQ` on the outcome of a setter. -/
def SetOutcome.chk {σ : Type} (r : SetOutcome σ) : Except PetscError σ :=
  match r.ierr with
  | some e => throw e
  | none => pure r.obj

/-- The values of `EPSBalance` (`slepceps.h`, lines 125-128). -/
def EPS_BALANCE_NONE : Int := 1
/-- See `EPS_BALANCE_NONE`. -/
def EPS_BALANCE_ONESIDE : Int := 2
/-- See `EPS_BALANCE_NONE`. -/
def EPS_BALANCE_TWOSIDE : Int := 3
/-- See `EPS_BALANCE_NONE`. -/
def EPS_BALANCE_USER : Int := 4

/-- The fields of `EPS` that `EPSSetBalance` writes and `EPSGetBalance` reads. -/
structure EPS_balance where
  balance : Int
  balance_its : Int
  balance_cutoff : ℚ
  deriving DecidableEq, Repr

/-- The first block of `EPSSetBalance` (lines 977-989): the balancing method. -/
def EPSSetBalance_bal (c : PetscConsts) (eps : EPS_balance) (bal : Int) :
    SetOutcome EPS_balance :=
  if bal ≠ c.PETSC_IGNORE then
    if bal = c.PETSC_DECIDE ∨ bal = c.PETSC_DEFAULT then
      ⟨{ eps with balance := EPS_BALANCE_TWOSIDE }, none⟩
    else if bal = EPS_BALANCE_NONE ∨ bal = EPS_BALANCE_ONESIDE ∨ bal = EPS_BALANCE_TWOSIDE ∨
        bal = EPS_BALANCE_USER then
      ⟨{ eps with balance := bal }, none⟩
    else ⟨eps, some ⟨.PETSC_ERR_ARG_OUTOFRANGE, "Invalid value of argument 'bal'"⟩⟩
  else ⟨eps, none⟩

/-- The second block of `EPSSetBalance` (lines 990-993): the statement
`eps->balance_its = its` follows the `if` without an `else`. -/
def EPSSetBalance_its (c : PetscConsts) (eps : EPS_balance) (its : Int) : EPS_balance :=
  if its ≠ c.PETSC_IGNORE then
    let eps := if its = c.PETSC_DECIDE ∨ its = c.PETSC_DEFAULT then
      { eps with balance_its := 5 } else eps
    { eps with balance_its := its }
  else eps

/-- The third block of `EPSSetBalance` (lines 994-997): the statement
`eps->balance_cutoff = cutoff` follows the `if` without an `else`. The cutoff is
a `PetscReal`, compared with the constants as numbers. -/
def EPSSetBalance_cutoff (c : PetscConsts) (eps : EPS_balance) (cutoff : ℚ) : EPS_balance :=
  if cutoff ≠ (c.PETSC_IGNORE : ℚ) then
    let eps := if cutoff = (c.PETSC_DECIDE : ℚ) ∨ cutoff = (c.PETSC_DEFAULT : ℚ) then
      { eps with balance_cutoff := 1 / 100000000 } else eps
    { eps with balance_cutoff := cutoff }
  else eps

/-- The function `EPSSetBalance`. -/
def EPSSetBalance (c : PetscConsts) (eps : EPS_balance) (bal its : Int) (cutoff : ℚ) :
    SetOutcome EPS_balance :=
  let r := EPSSetBalance_bal c eps bal
  match r.ierr with
  | some _ => r
  | none => ⟨EPSSetBalance_cutoff c (EPSSetBalance_its c r.obj its) cutoff, none⟩

/-- The function `EPSGetBalance`, called with three valid pointers: the values
of `*bal`, `*its` and `*cutoff`. -/
def EPSGetBalance (eps : EPS_balance) : Int × Int × ℚ :=
  (eps.balance, eps.balance_its, eps.balance_cutoff)

/-- The fields of `SVD` that `SVDSetDimensions` writes. -/
structure SVD_dims where
  nsv : Int
  ncv : Int
  setupcalled : Int
  deriving DecidableEq, Repr

/-- The function `SVDSetDimensions`. -/
def SVDSetDimensions (c : PetscConsts) (svd : SVD_dims) (nsv ncv : Int) : SetOutcome SVD_dims :=
  let r : SetOutcome SVD_dims :=
    if nsv ≠ c.PETSC_IGNORE then
      if nsv < 1 then
        ⟨svd, some ⟨.PETSC_ERR_ARG_OUTOFRANGE, "Illegal value of nsv. Must be > 0"⟩⟩
      else ⟨{ svd with nsv := nsv, setupcalled := 0 }, none⟩
    else ⟨svd, none⟩
  match r.ierr with
  | some _ => r
  | none =>
    if ncv ≠ c.PETSC_IGNORE then
      if ncv < 1 ∧ ncv ≠ c.PETSC_DECIDE then
        ⟨r.obj, some ⟨.PETSC_ERR_ARG_OUTOFRANGE, "Illegal value of ncv. Must be > 0"⟩⟩
      else ⟨{ r.obj with ncv := ncv, setupcalled := 0 }, none⟩
    else ⟨r.obj, none⟩

/-- The function `SVDGetDimensions`, called with two valid pointers: the values
of `*nsv` and `*ncv`. -/
def SVDGetDimensions (svd : SVD_dims) : Int × Int := (svd.nsv, svd.ncv)

/-- The function `EPSDAVIDSONSetKrylovStart_DAVIDSON`. -/
def EPSDAVIDSONSetKrylovStart_DAVIDSON (data : EPS_DAVIDSON) (krylovstart : Bool) :
    SetOutcome EPS_DAVIDSON :=
  ⟨{ data with krylovstart := krylovstart }, none⟩

/-- The function `EPSDAVIDSONSetBlockSize_DAVIDSON`. -/
def EPSDAVIDSONSetBlockSize_DAVIDSON (c : PetscConsts) (data : EPS_DAVIDSON) (blocksize : Int) :
    SetOutcome EPS_DAVIDSON :=
  let blocksize := if blocksize = c.PETSC_DEFAULT ∨ blocksize = c.PETSC_DECIDE then 1
    else blocksize
  if blocksize ≤ 0 then ⟨data, some ⟨.PETSC_ERR_ARG_OUTOFRANGE, "Invalid blocksize value"⟩⟩
  else ⟨{ data with blocksize := blocksize }, none⟩

/-- The function `EPSDAVIDSONSetRestart_DAVIDSON`. -/
def EPSDAVIDSONSetRestart_DAVIDSON (c : PetscConsts) (data : EPS_DAVIDSON) (minv plusk : Int) :
    SetOutcome EPS_DAVIDSON :=
  let minv := if minv = c.PETSC_DEFAULT ∨ minv = c.PETSC_DECIDE then 5 else minv
  if minv ≤ 0 then ⟨data, some ⟨.PETSC_ERR_ARG_OUTOFRANGE, "Invalid minv value"⟩⟩
  else
    let plusk := if plusk = c.PETSC_DEFAULT ∨ plusk = c.PETSC_DECIDE then 5 else plusk
    if plusk < 0 then ⟨data, some ⟨.PETSC_ERR_ARG_OUTOFRANGE, "Invalid plusk value"⟩⟩
    else ⟨{ data with minv := minv, plusk := plusk }, none⟩

/-- The function `EPSDAVIDSONSetInitialSize_DAVIDSON`. -/
def EPSDAVIDSONSetInitialSize_DAVIDSON (c : PetscConsts) (data : EPS_DAVIDSON)
    (initialsize : Int) : SetOutcome EPS_DAVIDSON :=
  let initialsize := if initialsize = c.PETSC_DEFAULT ∨ initialsize = c.PETSC_DECIDE then 5
    else initialsize
  if initialsize ≤ 0 then
    ⟨data, some ⟨.PETSC_ERR_ARG_OUTOFRANGE, "Invalid initial size value"⟩⟩
  else ⟨{ data with initialsize := initialsize }, none⟩

/-- The function `EPSDAVIDSONSetFix_DAVIDSON`; `fix` is a `PetscReal`, and the
tests `fix == PETSC_DEFAULT || fix == PETSC_DECIDE` and `fix < 0.0` are the
comparisons of C on doubles, the integer constants being converted. -/
def EPSDAVIDSONSetFix_DAVIDSON (c : PetscConsts) (data : EPS_DAVIDSON) (fix : PetscReal) :
    SetOutcome EPS_DAVIDSON :=
  let fix := if fix.isEq (.num c.PETSC_DEFAULT) || fix.isEq (.num c.PETSC_DECIDE)
    then PetscReal.num (1 / 100) else fix
  if fix.isLt (.num 0) then ⟨data, some ⟨.PETSC_ERR_ARG_OUTOFRANGE, "Invalid fix value"⟩⟩
  else ⟨{ data with fix := fix }, none⟩

/-- The calls of `EPSCreate_DAVIDSON` to routines outside the sources; each
returns only an error code. -/
structure CreateCollab where
  STSetType : Except PetscError Unit
  STPrecondSetKSPHasMat : Except PetscError Unit
  PetscMalloc : Except PetscError Unit
  dvd_prof_init : Except PetscError Unit

/-- The function `EPSCreate_DAVIDSON`, on the private data: `raw` is the content
of the memory that `PetscMalloc` returns; the function pointers stored in
`eps->ops` are not modelled. -/
def EPSCreate_DAVIDSON (c : PetscConsts) (x : CreateCollab) (raw : EPS_DAVIDSON) :
    Except PetscError EPS_DAVIDSON := do
  x.STSetType
  x.STPrecondSetKSPHasMat
  x.PetscMalloc
  let data := { raw with pc := false }
  let data ← (EPSDAVIDSONSetKrylovStart_DAVIDSON data false).chk
  let data ← (EPSDAVIDSONSetBlockSize_DAVIDSON c data 1).chk
  let data ← (EPSDAVIDSONSetRestart_DAVIDSON c data 6 0).chk
  let data ← (EPSDAVIDSONSetInitialSize_DAVIDSON c data 5).chk
  let data ← (EPSDAVIDSONSetFix_DAVIDSON c data (.num (1 / 100))).chk
  x.dvd_prof_init
  pure data

/-- A call to one of the four setters of the numeric parameters. -/
inductive DavidsonCall where
  | SetBlockSize (blocksize : Int)
  | SetRestart (minv plusk : Int)
  | SetInitialSize (initialsize : Int)
  | SetFix (fix : PetscReal)
  deriving DecidableEq, Repr

/-- The outcome of one call on the private data. -/
def DavidsonCall.run (c : PetscConsts) (data : EPS_DAVIDSON) :
    DavidsonCall → SetOutcome EPS_DAVIDSON
  | .SetBlockSize blocksize => EPSDAVIDSONSetBlockSize_DAVIDSON c data blocksize
  | .SetRestart minv plusk => EPSDAVIDSONSetRestart_DAVIDSON c data minv plusk
  | .SetInitialSize initialsize => EPSDAVIDSONSetInitialSize_DAVIDSON c data initialsize
  | .SetFix fix => EPSDAVIDSONSetFix_DAVIDSON c data fix

/-- The private data after a sequence of calls; the error codes are those of
`DavidsonCall.run`, and a call that fails does not stop the sequence. -/
def runCalls (c : PetscConsts) (data : EPS_DAVIDSON) : List DavidsonCall → EPS_DAVIDSON
  | [] => data
  | k :: ks => runCalls c (k.run c data).obj ks

/-- The invariant of the private data: `blocksize >= 1`, `minv >= 1`,
`plusk >= 0`, `initialsize >= 1`, and the test `fix < 0.0` is false. -/
def DavidsonInv (d : EPS_DAVIDSON) : Prop :=
  1 ≤ d.blocksize ∧ 1 ≤ d.minv ∧ 0 ≤ d.plusk ∧ 1 ≤ d.initialsize ∧
    d.fix.isLt (.num 0) = false

/-- An `EPS` of the concrete setting before any call to `EPSSetBalance`. -/
def balance0 : EPS_balance :=
  { balance := EPS_BALANCE_NONE, balance_its := 7, balance_cutoff := 1 / 2 }

/-- An `SVD` of the concrete setting: one singular value, `ncv` left to the
solver, already set up. -/
def svd0 : SVD_dims := { nsv := 1, ncv := -1, setupcalled := 1 }

/-- Collaborators of the concrete setting for `EPSCreate_DAVIDSON`: every call
returns. -/
def collabCreate : CreateCollab :=
  { STSetType := pure (), STPrecondSetKSPHasMat := pure (), PetscMalloc := pure (),
    dvd_prof_init := pure () }

/-- Memory of the concrete setting before `EPSCreate_DAVIDSON` initializes it. -/
def dataRaw : EPS_DAVIDSON :=
  { krylovstart := true, blocksize := -7, minv := 0, plusk := -1, initialsize := 0,
    fix := .num (-1), pc := true }

/-! ## The Arnoldi solver: the loop of `EPSSolve_ARNOLDI` (`arnoldi.c`) -/

/-- The fields of `EPS` that the loop of `EPSSolve_ARNOLDI` reads or writes. -/
structure EPS_arnoldi where
  ncv : Int
  nev : Int
  max_it : Int
  tol : ℚ
  its : Int
  nconv : Int
  errest : Int → ℚ
  reason : EPSConvergedReason

/-- The numerical part of an iteration of `EPSSolve_ARNOLDI` (lines 98-113:
`EPSBasicArnoldi`, `dlaqr3_`, `EPSReverseProjection` and `LAtrevc_`), which is
outside the loop that counts: in the iteration `its`, started with `nconv`
converged pairs, it returns an error code or leaves `beta` and `U`, and
`residual its nconv` is then the value `beta*PetscAbsScalar(U[i*ncv+ncv-1])` for
each `i`. -/
structure ArnoldiCollab where
  residual : Int → Int → Except String (Int → ℚ)

/-- The loop of lines 115-118, `for (i=eps->nconv;i<ncv;i++)`, on the pair
`(eps->nconv, eps->errest)`: `n` passes from the index `i`. -/
def EPSSolve_ARNOLDI_count (tol : ℚ) (rsd : Int → ℚ) :
    Nat → Int → Int × (Int → ℚ) → Int × (Int → ℚ)
  | 0, _, s => s
  | n + 1, i, s =>
    let errest : Int → ℚ := fun k => if k = i then rsd i else s.2 k
    let nconv := if errest i < tol then i + 1 else s.1
    EPSSolve_ARNOLDI_count tol rsd n (i + 1) (nconv, errest)

/-- The loop `while (eps->its<eps->max_it)` of lines 96-121; the fuel bounds the
number of passes, and `max_it - its` passes are always enough. -/
def EPSSolve_ARNOLDI_loop (x : ArnoldiCollab) : Nat → EPS_arnoldi → Except String EPS_arnoldi
  | 0, eps => pure eps
  | fuel + 1, eps =>
    if eps.its < eps.max_it then do
      let eps := { eps with its := eps.its + 1 }
      let rsd ← x.residual eps.its eps.nconv
      let r := EPSSolve_ARNOLDI_count eps.tol rsd (eps.ncv - eps.nconv).toNat eps.nconv
        (eps.nconv, eps.errest)
      let eps := { eps with nconv := r.1, errest := r.2 }
      if eps.nconv ≥ eps.nev then pure eps
      else EPSSolve_ARNOLDI_loop x fuel eps
    else pure eps

/-- Lines 94-124 of `EPSSolve_ARNOLDI`: the counters are reset, the loop runs,
and the reason is set. The allocations and the normalization of the initial
vector (lines 79-92) come before and do not touch these fields. -/
def EPSSolve_ARNOLDI (x : ArnoldiCollab) (eps : EPS_arnoldi) : Except String EPS_arnoldi := do
  let eps := { eps with nconv := 0, its := 0 }
  let eps ← EPSSolve_ARNOLDI_loop x eps.max_it.toNat eps
  pure { eps with reason := if eps.nconv ≥ eps.nev then EPSConvergedReason.EPS_CONVERGED_TOL
                            else EPSConvergedReason.EPS_DIVERGED_ITS }

/-- An `EPS` of the concrete setting for the Arnoldi solver: two eigenpairs are
wanted with a basis of three vectors and the default tolerance `1e-7`. -/
def epsArnoldi : EPS_arnoldi :=
  { ncv := 3, nev := 2, max_it := 100, tol := 1 / 10000000, its := 0, nconv := 0,
    errest := fun _ => 0, reason := EPSConvergedReason.EPS_CONVERGED_ITERATING }

/-- Collaborator of the concrete setting: in every iteration the residual
estimates are `1/2`, `0`, `1/2`: the second Ritz pair has converged and the
first has not. -/
def collabArnoldi : ArnoldiCollab :=
  { residual := fun _ _ => pure (fun i => if i = 1 then 0 else 1 / 2) }

/-- What `EPSSolve_ARNOLDI` leaves on `epsArnoldi`. -/
def epsArnoldi1 : EPS_arnoldi := okOr (EPSSolve_ARNOLDI collabArnoldi epsArnoldi) epsArnoldi

/-! ## Utilities of `slepcutil.c`: `SlepcAbsEigenvalue` and `SlepcVecSetRandom` -/

section AbsEigenvalue

variable {R : Type} [LinearOrderedField R]

/-- The macro `PetscAbsReal`. -/
def PetscAbsReal (a : R) : R := if a < 0 then -a else a

/-- The macro `PetscMax` on real numbers. -/
def PetscMaxReal (a b : R) : R := if a < b then b else a

/-- The macro `PetscMin` on real numbers. -/
def PetscMinReal (a b : R) : R := if a < b then a else b

/-- The function `SlepcAbsEigenvalue` of the real build, over an ordered field
with the square root of the C library as a parameter. A quotient whose divisor
is zero is made an error, so that a result is a run without a division by zero. -/
def SlepcAbsEigenvalue (sqrt : R → R) (x y : R) : Except String R :=
  let xabs := PetscAbsReal x
  let yabs := PetscAbsReal y
  let w := PetscMaxReal xabs yabs
  let z := PetscMinReal xabs yabs
  if z = 0 then pure w
  else do
    let t ← (if w = 0 then throw "division by zero" else pure (z / w))
    pure (w * sqrt (1 + t * t))

end AbsEigenvalue

/-- The square root of a rational number that is the square of a rational
number, and `0` on the other rational numbers. -/
def sqrtQ (q : ℚ) : ℚ := (isqrt q.num.natAbs : ℚ) / (isqrt q.den : ℚ)

/-- The generator behind `SlepcVecSetRandom`: which of `PETSC_HAVE_DRAND48` and
`PETSC_HAVE_RAND` the build defines, and the two library generators as functions
of the generator state `S` of the process (the static `seed` for `erand48`, the
state of the C library for `rand`); `rand` stands for the whole expression
`rand()/(double)((unsigned int)RAND_MAX+1)`, and `half` is the constant `0.5`. -/
structure RandCollab (R S : Type) where
  PETSC_HAVE_DRAND48 : Bool
  PETSC_HAVE_RAND : Bool
  erand48 : S → R × S
  rand : S → R × S
  half : R

section Random

variable {R S : Type}

/-- Lines 46-52 of `SlepcVecSetRandom`: the number `t` of one pass and the
generator state after it. -/
def SlepcVecSetRandom_draw (x : RandCollab R S) (g : S) : R × S :=
  if x.PETSC_HAVE_DRAND48 then x.erand48 g
  else if x.PETSC_HAVE_RAND then x.rand g
  else (x.half, g)

/-- The loop `for (i=0;i<n;i++)` of `SlepcVecSetRandom` on the local array `px`
and the generator state: `k` passes from the index `i`. -/
def SlepcVecSetRandom_loop (x : RandCollab R S) (low high : Int) :
    Nat → Int → (Int → R) × S → (Int → R) × S
  | 0, _, s => s
  | k + 1, i, s =>
    let t := SlepcVecSetRandom_draw x s.2
    let px : Int → R :=
      if low ≤ i ∧ i < high then fun j => if j = i - low then t.1 else s.1 j else s.1
    SlepcVecSetRandom_loop x low high k (i + 1) (px, t.2)

/-- The function `SlepcVecSetRandom` on one process: `n` is the global size of
the vector, `[low,high)` the ownership range of the process, `px` its local
array and `g` the state of its generator; it leaves the local array and the
generator state. -/
def SlepcVecSetRandom (x : RandCollab R S) (n low high : Int) (px : Int → R) (g : S) :
    (Int → R) × S :=
  SlepcVecSetRandom_loop x low high n.toNat 0 (px, g)

/-- The generator state after `k` numbers were drawn from the state `g`. -/
def stateAfter (x : RandCollab R S) (g : S) : Nat → S
  | 0 => g
  | k + 1 => stateAfter x (SlepcVecSetRandom_draw x g).2 k

/-- The number drawn after `k` others from the state `g`, counting from `0`. -/
def drawn (x : RandCollab R S) (g : S) (k : Nat) : R :=
  (SlepcVecSetRandom_draw x (stateAfter x g k)).1

end Random

/-- Generator of the concrete setting: `erand48` is a linear congruential
generator on the integers modulo 16, which returns its state. -/
def randZ : RandCollab ℤ ℤ :=
  { PETSC_HAVE_DRAND48 := true, PETSC_HAVE_RAND := true
    erand48 := fun g => (g, (5 * g + 3) % 16)
    rand := fun g => (0, g)
    half := 0 }

/-! ## The divisions of the phase fix-up

The fix-up of `dvd_calcpairs_selectPairs_qz` and the one of
`EPSComputeVectors_QZ` (`davidson.c`, lines 565-575), with the quotient
`PetscConj(t)/PetscAbsScalar(t)` made an error when the divisor is zero. -/

section PhaseChecked

variable {R E : Type} [CommRing R] [Star R] [Div R] [DecidableEq R] [AddCommGroup E]
  [Module R E]

/-- A quotient of scalars; a zero divisor is made an error. -/
def divChecked (a b : R) : Except String R :=
  if b = 0 then throw "division by zero" else pure (a / b)

/-- The body of the loop of `dvd_calcpairs_selectPairs_qz` for the column `i`,
as `qz_rotate`, with the division checked. -/
def qz_rotate_checked (ops : ScalarOps R) (size_H i : Int) (m : DMat R × DMat R × DMat R) :
    Except String (DMat R × DMat R × DMat R) :=
  if ops.PetscImaginaryPart (m.1 i i) ≠ 0 then do
    let s ← divChecked (star (m.1 i i)) (ops.PetscAbsScalar (m.1 i i))
    pure (fun j c => if c = i ∧ 0 ≤ j ∧ j ≤ i then ops.PetscRealPart (m.1 j c * s) else m.1 j c,
          fun j c => if c = i ∧ 0 ≤ j ∧ j ≤ i then m.2.1 j c * s else m.2.1 j c,
          fun j c => if c = i ∧ 0 ≤ j ∧ j < size_H then m.2.2 j c * s else m.2.2 j c)
  else pure m

/-- Lines 593-603 of `dvd_calcpairs_selectPairs_qz` (complex build) on
`(T, S, pX)`, with the divisions checked. -/
def dvd_calcpairs_selectPairs_qz_checked (ops : ScalarOps R) (size_H : Int)
    (m : DMat R × DMat R × DMat R) : Except String (DMat R × DMat R × DMat R) :=
  forRange (qz_rotate_checked ops size_H) size_H.toNat 0 m

/-- The body of the loop of lines 567-573 of `EPSComputeVectors_QZ` for the
column `i`, on `(cT, cS, cX)`: the phase `s = conj(cT[i][i])/|cT[i][i]|` is computed
for every `i`, rows `0..i` of column `i` of `cT` get the real part of their product
with `s`, rows `0..i` of column `i` of `cS` are multiplied by `s`, and the vector
`cX[i]` is scaled by `s`. -/
def EPSComputeVectors_QZ_rotate (ops : ScalarOps R) (i : Int)
    (m : DMat R × DMat R × Vecs E) : Except String (DMat R × DMat R × Vecs E) := do
  let s ← divChecked (star (m.1 i i)) (ops.PetscAbsScalar (m.1 i i))
  pure (fun j c => if c = i ∧ 0 ≤ j ∧ j ≤ i then ops.PetscRealPart (m.1 j c * s) else m.1 j c,
        fun j c => if c = i ∧ 0 ≤ j ∧ j ≤ i then m.2.1 j c * s else m.2.1 j c,
        fun k => if k = i then s • m.2.2 k else m.2.2 k)

/-- Lines 565-575 of `EPSComputeVectors_QZ`: in the complex build, when `cT`
exists, the loop runs over the `nconv` converged columns. The fields `cS` and
`cX`, which the C code takes to exist, are passed as they are. -/
def EPSComputeVectors_QZ_fix (cfg : Build) (ops : ScalarOps R) (nconv : Int)
    (cT : Option (DMat R)) (cS : DMat R) (cX : Vecs E) :
    Except String (Option (DMat R) × DMat R × Vecs E) :=
  if cfg.PETSC_USE_COMPLEX then
    match cT with
    | some T => do
      let m ← forRange (EPSComputeVectors_QZ_rotate ops) nconv.toNat 0 (T, cS, cX)
      pure (some m.1, m.2.1, m.2.2)
    | none => pure (none, cS, cX)
  else pure (cT, cS, cX)

end PhaseChecked

/-- A factor `cT` of the concrete setting with a zero diagonal entry: upper
triangular with the diagonal `2, 0`. -/
def cTQI : DMat QI := fun i j =>
  if i = 0 ∧ j = 0 then ⟨2, 0⟩ else if i = 0 ∧ j = 1 then ⟨1, 0⟩ else 0

/-! ## The linearization H1 of the quadratic eigenproblem (`qeplin_h1.c`)

The routines are modelled on one process, where the local sizes of a matrix are
its global sizes and the ownership range is the whole range of rows; the PETSc
calls are taken to return without error. -/

/-- A PETSc matrix `Mat`: its global sizes and its entries `a i j`; an entry that
is not stored is zero. -/
structure Mat (R : Type) where
  M : Int
  N : Int
  a : Int → Int → R

/-- The context `QEP_LINEAR` of the shell matrices: the matrices `M`, `C` and `K`
of the quadratic problem. The work vectors `x1`, `x2`, `y1`, `y2` of the context
are views into the arrays of the arguments and appear as such in the routines. -/
structure QEP_LINEAR (R : Type) where
  M : Mat R
  C : Mat R
  K : Mat R

section Linear

variable {R : Type} [CommRing R]

/-- The routine `MatMult(A,x,y)` of PETSc: the vector `y = A*x`. -/
def MatMult (A : Mat R) (x : Int → R) : Int → R :=
  fun i => sumTo A.N (fun c => A.a i c * x c)

/-- The routine `VecAXPY(y,alpha,x)` of PETSc: the vector `y + alpha*x`. -/
def VecAXPY (y : Int → R) (alpha : R) (x : Int → R) : Int → R :=
  fun i => y i + alpha * x i

/-- The routine `VecScale(x,alpha)` of PETSc: the vector `alpha*x`. -/
def VecScale (x : Int → R) (alpha : R) : Int → R := fun i => alpha * x i

/-- The vector placed on the array `p` at the offset `off` (`VecPlaceArray(v,p+off)`),
read. -/
def placed (p : Int → R) (off : Int) : Int → R := fun i => p (off + i)

/-- The array `p` after the vector of `m` entries placed at the offset `off` was
given the value `v`. -/
def placeWrite (p : Int → R) (off m : Int) (v : Int → R) : Int → R :=
  fun i => if off ≤ i ∧ i < off + m then v (i - off) else p i

/-- The function `MatMult_QEPLINEAR_H1A`: `px` and `py` are the arrays of `x` and
`y`; `x1`, `x2` are placed on `px` and `px+m`, and `y1`, `y2` on `py` and `py+m`. It
returns the array of `y`. -/
def MatMult_QEPLINEAR_H1A (ctx : QEP_LINEAR R) (px py : Int → R) : Int → R :=
  let m := ctx.M.M
  let py := placeWrite py 0 m (MatMult ctx.C (placed px 0))
  let py := placeWrite py m m (MatMult ctx.K (placed px m))
  let py := placeWrite py m m (VecAXPY (placed py m) 1 (placed py 0))
  placeWrite py 0 m (MatMult ctx.K (placed px 0))

/-- The function `MatMult_QEPLINEAR_H1B`, as `MatMult_QEPLINEAR_H1A`: line 89 is
`MatMult(ctx->K,ctx->x1,ctx->y1)`. -/
def MatMult_QEPLINEAR_H1B (ctx : QEP_LINEAR R) (px py : Int → R) : Int → R :=
  let m := ctx.M.M
  let py := placeWrite py 0 m (MatMult ctx.K (placed px 0))
  let py := placeWrite py m m (MatMult ctx.M (placed px 0))
  placeWrite py m m (VecScale (placed py m) (-1))

/-- The routine `MatGetRow(A,i,&ncols,&cols,&vals)` of PETSc: the entries of the
row `i` as pairs of a column and a value. Every column of the row is listed; a
sparse format lists the stored ones, and the others are zero. -/
def MatGetRow (A : Mat R) (i : Int) : List (Int × R) :=
  (List.range A.N.toNat).map (fun (c : Nat) => ((c : Int), A.a i (c : Int)))

/-- The routine `MatSetValues(A,1,&row,ncols,cols,vals,INSERT_VALUES)` of PETSc:
the listed entries of the row `row` are set, one after the other. -/
def MatSetValues (A : Mat R) (row : Int) (e : List (Int × R)) : Mat R :=
  e.foldl (fun B p => { B with a := fun r c => if r = row ∧ c = p.1 then p.2 else B.a r c }) A

/-- The routine `MatScale(A,alpha)` of PETSc. -/
def MatScale (A : Mat R) (alpha : R) : Mat R := { A with a := fun r c => alpha * A.a r c }

/-- The routines `MatCreate` and `MatSetSizes`: a matrix without stored entries. -/
def MatCreate (M N : Int) : Mat R := { M := M, N := N, a := fun _ _ => 0 }

/-- The loop `for (j=0;j<ncols;j++) pos[j] = cols[j] + M`. -/
def shiftCols (e : List (Int × R)) (M : Int) : List (Int × R) := e.map (fun p => (p.1 + M, p.2))

/-- A C loop `for (i = i0; i < i0 + n; i++) body(i)`. -/
def rowLoop {σ : Type} (body : Int → σ → σ) : Nat → Int → σ → σ
  | 0, _, s => s
  | n + 1, i, s => rowLoop body n (i + 1) (body i s)

/-- The body of the loop of `MatCreateExplicit_QEPLINEAR_H1A` (lines 154-163). -/
def H1A_row (ctx : QEP_LINEAR R) (M : Int) (i : Int) (A : Mat R) : Mat R :=
  let row := i + M
  let e := MatGetRow ctx.K i
  let A := MatSetValues A i e
  let A := MatSetValues A row (shiftCols e M)
  let e := MatGetRow ctx.C i
  MatSetValues A row e

/-- The function `MatCreateExplicit_QEPLINEAR_H1A`, for the ownership range
`[start, stop)` of `ctx->M`. -/
def MatCreateExplicit_QEPLINEAR_H1A (ctx : QEP_LINEAR R) (start stop : Int) : Mat R :=
  let M := ctx.M.M
  let N := ctx.M.N
  let A : Mat R := MatCreate (M + N) (M + N)
  rowLoop (H1A_row ctx M) (stop - start).toNat start A

/-- The body of the first loop of `MatCreateExplicit_QEPLINEAR_H1B` (lines 189-192). -/
def H1B_row1 (ctx : QEP_LINEAR R) (M : Int) (i : Int) (B : Mat R) : Mat R :=
  let row := i + M
  MatSetValues B row (MatGetRow ctx.M i)

/-- The body of the second loop of `MatCreateExplicit_QEPLINEAR_H1B` (lines 198-202). -/
def H1B_row2 (ctx : QEP_LINEAR R) (M : Int) (i : Int) (B : Mat R) : Mat R :=
  MatSetValues B i (shiftCols (MatGetRow ctx.K i) M)

/-- The function `MatCreateExplicit_QEPLINEAR_H1B`, for the ownership range
`[start, stop)` of `ctx->M`. -/
def MatCreateExplicit_QEPLINEAR_H1B (ctx : QEP_LINEAR R) (start stop : Int) : Mat R :=
  let M := ctx.M.M
  let N := ctx.M.N
  let B : Mat R := MatCreate (M + N) (M + N)
  let B := rowLoop (H1B_row1 ctx M) (stop - start).toNat start B
  let B := MatScale B (-1)
  rowLoop (H1B_row2 ctx M) (stop - start).toNat start B

/-- The vector `[u; v]` whose first `n` entries are those of `u`, followed by the
entries of `v`. -/
def stack (n : Int) (u v : Int → R) : Int → R := fun i => if i < n then u i else v (i - n)

/-- The blocks of `A = [K 0; C K]`, by entries, for matrices of order `n`. -/
def blockA (ctx : QEP_LINEAR R) (n : Int) : Int → Int → R := fun r c =>
  if r < n then (if c < n then ctx.K.a r c else 0)
  else (if c < n then ctx.C.a (r - n) c else ctx.K.a (r - n) (c - n))

/-- The blocks of `B = [0 K; -M 0]`, by entries, for matrices of order `n`. -/
def blockB (ctx : QEP_LINEAR R) (n : Int) : Int → Int → R := fun r c =>
  if r < n then (if c < n then 0 else ctx.K.a r (c - n))
  else (if c < n then -ctx.M.a (r - n) c else 0)

/-- The matrices of the context are of order `n`: the sizes that the routines
read are `n`. -/
def QEP_LINEAR.order (ctx : QEP_LINEAR R) (n : Int) : Prop :=
  0 ≤ n ∧ ctx.M.M = n ∧ ctx.M.N = n ∧ ctx.C.N = n ∧ ctx.K.N = n

end Linear

/-- A matrix of order 1 over the integers. -/
def mat1 (v : ℤ) : Mat ℤ := { M := 1, N := 1, a := fun _ _ => v }

/-- The quadratic problem of order 1 with `M = 1`, `C = -3` and `K = 2`, whose
eigenvalues are `1` and `2`. -/
def ctxZ : QEP_LINEAR ℤ := { M := mat1 1, C := mat1 (-3), K := mat1 2 }

/-- A matrix of order 2 over the integers, by rows. -/
def mat2 (a b c d : ℤ) : Mat ℤ :=
  { M := 2, N := 2
    a := fun i j => if i = 0 then (if j = 0 then a else b) else (if j = 0 then c else d) }

/-- A quadratic problem of order 2 with `M = I`, `C = -3*I` and the matrix
`K = [2 1; 0 2]`. -/
def ctxZ2 : QEP_LINEAR ℤ := { M := mat2 1 0 0 1, C := mat2 (-3) 0 0 (-3), K := mat2 2 1 0 2 }

/-! ## Theorems -/

set_option linter.unusedSectionVars false

/-- C5 (vector part, holds for every flag combination): in the allocation pass
one call of `dvd_calcpairs_qz` advances `free_vecs` by what it adds to `own_vecs`. -/
theorem dvd_calcpairs_qz_vecs (cfg : Build) (d : qzProblem) (b : dvdBlackboard)
    (hconf : cfg.DVD_STATE_CONF ≤ b.state) :
    (dvd_calcpairs_qz cfg d b).1.free_vecs - b.free_vecs
      = (dvd_calcpairs_qz cfg d b).1.own_vecs - b.own_vecs := by
  have hs : cfg.DVD_STATE_CONF ≤ (dvd_calcpairs_qz_declare cfg d b).state := by
    simp only [dvd_calcpairs_qz_declare]; split <;> exact hconf
  simp only [dvd_calcpairs_qz, hs, if_true]
  rcases d with ⟨⟨std, her⟩, nev, hasB, one, nds⟩
  cases std <;> cases her <;> cases hasB <;> cases one <;>
    cases hc : cfg.PETSC_USE_COMPLEX <;>
    simp [dvd_calcpairs_qz_claim, dvd_calcpairs_qz_declare, hc] <;> ring

/-- C5 (scalar part, outside the Hermitian non-standard case): in the allocation
pass one call of `dvd_calcpairs_qz` advances `free_scalars` by what it adds to
`own_scalars`, unless `sEP` has `DVD_EP_HERMITIAN` without `DVD_EP_STD`. -/
theorem dvd_calcpairs_qz_scalars (cfg : Build) (d : qzProblem) (b : dvdBlackboard)
    (hconf : cfg.DVD_STATE_CONF ≤ b.state)
    (hcase : d.sEP.DVD_EP_HERMITIAN = true → d.sEP.DVD_EP_STD = true) :
    (dvd_calcpairs_qz cfg d b).1.free_scalars - b.free_scalars
      = (dvd_calcpairs_qz cfg d b).1.own_scalars - b.own_scalars := by
  have hs : cfg.DVD_STATE_CONF ≤ (dvd_calcpairs_qz_declare cfg d b).state := by
    simp only [dvd_calcpairs_qz_declare]; split <;> exact hconf
  simp only [dvd_calcpairs_qz, hs, if_true]
  rcases d with ⟨⟨std, her⟩, nev, hasB, one, nds⟩
  cases std <;> cases her <;> cases hasB <;> cases one <;>
    cases hc : cfg.PETSC_USE_COMPLEX <;>
    simp_all [dvd_calcpairs_qz_claim, dvd_calcpairs_qz_declare] <;> ring

/-- C5 (failing input): for a Hermitian problem not reduced to standard form, in
the allocation pass `dvd_calcpairs_qz` adds 6 to `own_scalars` and takes 10
scalars from `free_scalars`: the block `cT` of `max_nev*max_nev = 4` scalars is
claimed and not declared. -/
theorem dvd_calcpairs_qz_overclaims :
    (dvd_calcpairs_qz realBuild qzGhep qzBoard).1.own_scalars - qzBoard.own_scalars = 6
    ∧ (dvd_calcpairs_qz realBuild qzGhep qzBoard).1.free_scalars - qzBoard.free_scalars = 10
    ∧ (dvd_calcpairs_qz realBuild qzGhep qzBoard).1.free_vecs - qzBoard.free_vecs
        = (dvd_calcpairs_qz realBuild qzGhep qzBoard).1.own_vecs - qzBoard.own_vecs := by
  decide

section Projection

variable {R E : Type} [CommRing R] [Star R]

/-- C1. Incremental-projection equivalence: with an empty restart range
(`V_tra_e - V_tra_s = 0`, so `cMT = 0`), if the old block of `H` holds the entries
`<W[i], AV[j]>` for `i, j < size_H`, then after `dvd_calcpairs_VtAV_gen` (through
`dvd_calcpairs_WtMatV_gen`) `size_H = size_V` and every entry `H[i][j]` with
`i, j < size_V` is the entry of the from-scratch projection of the same basis. -/
theorem dvd_calcpairs_VtAV_gen_incremental (x : Collab R E) (d : dvdDashboard R E)
    (htra : d.V_tra_e - d.V_tra_s = 0)
    (hold : ∀ i j, 0 ≤ i → i < d.size_H → 0 ≤ j → j < d.size_H →
      d.H i j = fromScratchH x d i j) :
    (dvd_calcpairs_VtAV_gen x d).size_H = d.size_V ∧
    ∀ i j, 0 ≤ i → i < d.size_V → 0 ≤ j → j < d.size_V →
      (dvd_calcpairs_VtAV_gen x d).H i j = fromScratchH x d i j := by
  have key : ∀ (sH : MatType_t) (i j : Int), 0 ≤ i → i < d.size_V → 0 ≤ j → j < d.size_V →
      VecsMultS x.dot d.H sH d.leftBasis
        (if d.V_imm_e - d.V_imm_s = 0 then 0 else d.size_H) d.size_V d.AV
        (if d.V_imm_e - d.V_imm_s = 0 then 0 else d.size_H) d.size_V i j
        = fromScratchH x d i j := by
    intro sH i j hi0 hi hj0 hj
    by_cases himm : d.V_imm_e - d.V_imm_s = 0
    · simp [VecsMultS, himm, hi0, hi, hj0, hj, fromScratchH]
    · by_cases hnew : d.size_H ≤ i ∨ d.size_H ≤ j
      · simp [VecsMultS, himm, hi0, hi, hj0, hj, hnew, fromScratchH]
      · have h1 : i < d.size_H := by omega
        have h2 : j < d.size_H := by omega
        simp [VecsMultS, himm, hi0, hi, hj0, hj, hnew, hold i j hi0 h1 hj0 h2]
  refine ⟨?_, ?_⟩
  · simp [dvd_calcpairs_VtAV_gen, dvd_calcpairs_WtMatV_gen, dvdDashboard.log, htra]
  · intro i j hi0 hi hj0 hj
    have := key (if d.sA.DVD_MAT_HERMITIAN = true then hermitianUpper else d.sH)
      i j hi0 hi hj0 hj
    simpa [dvd_calcpairs_VtAV_gen, dvd_calcpairs_WtMatV_gen, dvdDashboard.log, htra] using this

/-- C1, evaluated: on `dashZ` the retained entry `H[0][0]` is kept and the new
row and column are the inner products of the from-scratch projection. -/
theorem dvd_calcpairs_VtAV_gen_incremental_witness :
    dashZ.V_tra_e - dashZ.V_tra_s = 0 ∧
    ((dvd_calcpairs_VtAV_gen collabZ dashZ).size_H = dashZ.size_V ∧
     ∀ i j, 0 ≤ i → i < dashZ.size_V → 0 ≤ j → j < dashZ.size_V →
      (dvd_calcpairs_VtAV_gen collabZ dashZ).H i j = fromScratchH collabZ dashZ i j) :=
  ⟨by decide, dvd_calcpairs_VtAV_gen_incremental collabZ dashZ (by decide) (by
    intro i j hi0 hi hj0 hj
    have hi1 : i = 0 := by have : dashZ.size_H = 1 := rfl; omega
    have hj1 : j = 0 := by have : dashZ.size_H = 1 := rfl; omega
    subst hi1; subst hj1; decide)⟩

/-- The sum `sumTo n f` only reads `f` on `[0, n)`. -/
theorem sumTo_congr {M : Type} [AddCommMonoid M] (n : Int) (f g : Int → M)
    (h : ∀ k, 0 ≤ k → k < n → f k = g k) : sumTo n f = sumTo n g := by
  unfold sumTo
  refine Finset.sum_congr rfl ?_
  intro k hk
  have hk1 : k < n.toNat := Finset.mem_range.mp hk
  have hk2 : (k : Int) < n := by omega
  exact h k (by omega) hk2

/-- The restart block of `dvd_calcpairs_WtMatV_gen`: with `cMT > 0` and
`rMT = size_H`, the routine calls `VecsMultS` with `size_H = cMT`, returns
`size_H = size_V`, and the leading `cMT`-by-`cMT` block of the returned matrix is
`MTY^H * H * MTX`. -/
theorem dvd_calcpairs_WtMatV_gen_restart (dot : E → E → R) (H : DMat R) (sH : MatType_t)
    (size_H : Int) (MTY MTX : DMat R) (rMT cMT : Int) (W V : Vecs E) (size_V : Int)
    (auxS : DMat R) (hc : 0 < cMT) (hr : rMT = size_H) :
    (dvd_calcpairs_WtMatV_gen dot H sH size_H MTY MTX rMT cMT W V size_V auxS).2.2 = cMT ∧
    (dvd_calcpairs_WtMatV_gen dot H sH size_H MTY MTX rMT cMT W V size_V auxS).2.1 = size_V ∧
    ∀ i j, 0 ≤ i → i < cMT → 0 ≤ j → j < cMT →
      (dvd_calcpairs_WtMatV_gen dot H sH size_H MTY MTX rMT cMT W V size_V auxS).1 i j
        = restartTransform MTY H MTX size_H i j := by
  refine ⟨by simp [dvd_calcpairs_WtMatV_gen, hc], by simp [dvd_calcpairs_WtMatV_gen], ?_⟩
  intro i j hi0 hi hj0 hj
  have hni : ¬ (cMT ≤ i) := by omega
  have hnj : ¬ (cMT ≤ j) := by omega
  subst hr
  simp only [dvd_calcpairs_WtMatV_gen, hc, if_true, VecsMultS, hni, hnj, or_self, and_false,
    if_false, SlepcDenseMatProdTriang, hi0, hi, hj0, hj, and_self, restartTransform,
    Bool.false_eq_true, if_true]
  apply sumTo_congr
  intro k hk0 hk
  simp [hk0, hk, hj0, hj]

/-- C3. Restart invariant: with a pending restart range of `cMT = V_tra_e - V_tra_s
> 0` columns and `rMT = size_MT` equal to the old size of the projected matrix,
`dvd_calcpairs_VtAV_gen` (through `dvd_calcpairs_WtMatV_gen`) replaces the leading
`cMT`-by-`cMT` block of `H` by `MTY^H * H_old * MTX` (`MTY = MTX` without a left
transform) and calls `VecsMultS` with `size_H = cMT`, before any row or column is
appended; `dvd_calcpairs_VtBV_gen` does the same for `G`. -/
theorem dvd_calcpairs_VtAV_VtBV_gen_restart (x : Collab R E) (d : dvdDashboard R E)
    (G : DMat R) (hc : 0 < d.V_tra_e - d.V_tra_s) (hH : d.size_MT = d.size_H)
    (hG : d.G = some G) (hGs : d.size_MT = d.size_G) :
    ((dvd_calcpairs_VtAV_gen x d).trace = d.trace ++
        [Call.VecsMultS (d.V_tra_e - d.V_tra_s) d.size_V (d.V_tra_e - d.V_tra_s) d.size_V] ∧
      (dvd_calcpairs_VtAV_gen x d).size_H = d.size_V ∧
      ∀ i j, 0 ≤ i → i < d.V_tra_e - d.V_tra_s → 0 ≤ j → j < d.V_tra_e - d.V_tra_s →
        (dvd_calcpairs_VtAV_gen x d).H i j
          = restartTransform (d.leftMT.col d.V_tra_s) d.H (d.MTX.col d.V_tra_s) d.size_H i j) ∧
    (∃ d1 G1, dvd_calcpairs_VtBV_gen x d = .ok d1 ∧ d1.G = some G1 ∧
      d1.trace = d.trace ++
        [Call.VecsMultS (d.V_tra_e - d.V_tra_s) d.size_V (d.V_tra_e - d.V_tra_s) d.size_V] ∧
      d1.size_G = d.size_V ∧
      ∀ i j, 0 ≤ i → i < d.V_tra_e - d.V_tra_s → 0 ≤ j → j < d.V_tra_e - d.V_tra_s →
        G1 i j = restartTransform (d.leftMT.col d.V_tra_s) G (d.MTX.col d.V_tra_s) d.size_G i j) := by
  have hne : ¬ (d.V_tra_e - d.V_tra_s = 0) := by omega
  constructor
  · obtain ⟨k1, k2, k3⟩ := dvd_calcpairs_WtMatV_gen_restart x.dot d.H
      (if d.sA.DVD_MAT_HERMITIAN = true then hermitianUpper else d.sH) d.size_H
      (d.leftMT.col d.V_tra_s) (d.MTX.col d.V_tra_s) d.size_MT (d.V_tra_e - d.V_tra_s)
      d.leftBasis d.AV d.size_V d.auxS hc hH
    refine ⟨?_, ?_, ?_⟩
    · simpa [dvd_calcpairs_VtAV_gen, dvdDashboard.log, hne] using k1
    · simpa [dvd_calcpairs_VtAV_gen, dvdDashboard.log, hne] using k2
    · intro i j hi0 hi hj0 hj
      simpa [dvd_calcpairs_VtAV_gen, dvdDashboard.log, hne] using k3 i j hi0 hi hj0 hj
  · obtain ⟨k1, k2, k3⟩ := dvd_calcpairs_WtMatV_gen_restart x.dot G
      (if d.sB.DVD_MAT_HERMITIAN = true then hermitianUpper else d.sG) d.size_G
      (d.leftMT.col d.V_tra_s) (d.MTX.col d.V_tra_s) d.size_MT (d.V_tra_e - d.V_tra_s)
      d.leftBasis (match d.BV with | some BV => BV | none => d.V) d.size_V d.auxS hc hGs
    simp only [dvd_calcpairs_VtBV_gen, hne, hG, and_false, if_false]
    refine ⟨_, _, rfl, rfl, ?_, ?_, ?_⟩
    · simpa [dvdDashboard.log] using k1
    · simpa [dvdDashboard.log] using k2
    · intro i j hi0 hi hj0 hj
      simpa using k3 i j hi0 hi hj0 hj

/-- C3, evaluated: on `dashRestart` (one retained column, coefficients `(1,1)`,
`H_old = [1 2; 3 4]`, `G_old` the identity) the hypotheses hold, and the leading
entries after the restart are `10` for `H` and `2` for `G`. -/
theorem dvd_calcpairs_VtAV_VtBV_gen_restart_witness :
    (0 < dashRestart.V_tra_e - dashRestart.V_tra_s ∧ dashRestart.size_MT = dashRestart.size_H
      ∧ dashRestart.size_MT = dashRestart.size_G) ∧
    ((dvd_calcpairs_VtAV_gen collabZ dashRestart).trace = [Call.VecsMultS 1 1 1 1] ∧
      (dvd_calcpairs_VtAV_gen collabZ dashRestart).size_H = 1 ∧
      (dvd_calcpairs_VtAV_gen collabZ dashRestart).H 0 0 = 10) ∧
    (∃ d1 G1, dvd_calcpairs_VtBV_gen collabZ dashRestart = .ok d1 ∧ d1.G = some G1 ∧
      d1.size_G = 1 ∧ G1 0 0 = 2) := by
  obtain ⟨⟨h1, h2, h3⟩, d1, G1, h4, h5, _, h6, h7⟩ :=
    dvd_calcpairs_VtAV_VtBV_gen_restart collabZ dashRestart (fun i j => if i = j then 1 else 0)
      (by decide) (by decide) rfl (by decide)
  refine ⟨by decide, ⟨h1, h2, ?_⟩, d1, G1, h4, h5, h6, ?_⟩
  · rw [h3 0 0 (by decide) (by decide) (by decide) (by decide)]
    simp [restartTransform, sumTo, dashRestart, dashZ, DMat.col, dvdDashboard.leftMT,
      Finset.sum_range_succ]
  · rw [h7 0 0 (by decide) (by decide) (by decide) (by decide)]
    simp [restartTransform, sumTo, dashRestart, dashZ, DMat.col, dvdDashboard.leftMT,
      Finset.sum_range_succ]
    rfl

end Projection

section Proj

variable {R E : Type} [CommRing R] [Star R] [Div R] [AddCommGroup E] [Module R E]

/-- A successful bind has a successful first step. -/
theorem bind_ok_inv {ε α β : Type} (e : Except ε α) (f : α → Except ε β) (b : β)
    (h : (e >>= f) = .ok b) : ∃ a, e = .ok a ∧ f a = .ok b := by
  cases e with
  | error err => simp [bind, Except.bind] at h
  | ok a => exact ⟨a, rfl, h⟩

/-- What a successful `dvd_calcpairs_projeig_eig` leaves in the dashboard. -/
theorem projeig_eig_ok (x : Collab R E) (d d2 : dvdDashboard R E)
    (h : dvd_calcpairs_projeig_eig x d = .ok d2) :
    ∃ r, x.EPSDenseHEP d.size_H (SlepcDenseCopyTriang d.H d.size_H d.size_H) = .ok r ∧
      d2 = { d with ldS := d.size_H, ldpX := d.size_H,
                    trace := d.trace ++ [Call.EPSDenseHEP d.size_H],
                    S := r.S, pX := r.pX, eigr := writeTo d.eigr d.size_H r.w,
                    pX_type := { DVD_MAT_UNITARY := true },
                    calcpairs_selectPairs := some .dvd_calcpairs_selectPairs_eig } := by
  unfold dvd_calcpairs_projeig_eig at h
  obtain ⟨r, h1, h2⟩ := bind_ok_inv _ _ _ h
  cases h2
  exact ⟨r, h1, rfl⟩

/-- What a successful `dvd_calcpairs_projeig_qz_std` leaves in the dashboard. -/
theorem projeig_qz_std_ok (x : Collab R E) (d d2 : dvdDashboard R E)
    (h : dvd_calcpairs_projeig_qz_std x d = .ok d2) :
    ∃ hs r, x.EPSDenseHessenberg d.size_H (SlepcDenseCopyTriang d.H d.size_H d.size_H) = .ok hs ∧
      x.EPSDenseSchur d.size_H hs.S hs.pX = .ok r ∧
      d2 = { d with ldS := d.size_H, ldpX := d.size_H,
                    trace := d.trace ++ [Call.EPSDenseHessenberg d.size_H] ++
                      [Call.EPSDenseSchur d.size_H],
                    S := r.S, pX := r.pX, eigr := writeTo d.eigr d.size_H r.wr,
                    eigi := writeTo d.eigi d.size_H r.wi,
                    pX_type := { DVD_MAT_UNITARY := true },
                    calcpairs_selectPairs := some .dvd_calcpairs_selectPairs_qz } := by
  unfold dvd_calcpairs_projeig_qz_std at h
  obtain ⟨hs, h1, h2⟩ := bind_ok_inv _ _ _ h
  obtain ⟨r, h3, h4⟩ := bind_ok_inv _ _ _ h2
  cases h4
  exact ⟨hs, r, h1, h3, rfl⟩

/-- What a successful `dvd_calcpairs_projeig_qz_gen` leaves in the dashboard. -/
theorem projeig_qz_gen_ok (cfg : Build) (x : Collab R E) (d d2 : dvdDashboard R E)
    (h : dvd_calcpairs_projeig_qz_gen cfg x d = .ok d2) :
    ∃ G T0 r, d.G = some G ∧ d.T = some T0 ∧ cfg.SLEPC_MISSING_LAPACK_GGES = false ∧
      r = x.LAPACKgges d.pY.isSome d.size_H (SlepcDenseCopyTriang d.H d.size_H d.size_H)
        (SlepcDenseCopyTriang G d.size_H d.size_H) ∧
      r.info = 0 ∧
      d2 = { d with ldS := d.size_H, ldT := d.size_H, ldpX := d.size_H, ldpY := d.size_H,
                    trace := d.trace ++ [Call.LAPACKgges d.size_H],
                    S := r.S, T := some r.T, pX := r.pX,
                    pY := (if d.pY.isSome then some r.pY else none),
                    eigr := writeTo (writeTo d.eigr d.size_H r.alphar) d.size_H
                      (fun i => writeTo d.eigr d.size_H r.alphar i / r.beta i),
                    eigi := writeTo
                      (if cfg.PETSC_USE_COMPLEX then d.eigi else writeTo d.eigi d.size_H r.alphai)
                      d.size_H
                      (fun i => (if cfg.PETSC_USE_COMPLEX then d.eigi
                        else writeTo d.eigi d.size_H r.alphai) i / r.beta i),
                    pX_type := { DVD_MAT_UNITARY := true },
                    pY_type := { DVD_MAT_UNITARY := true },
                    calcpairs_selectPairs := some .dvd_calcpairs_selectPairs_qz } := by
  unfold dvd_calcpairs_projeig_qz_gen at h
  cases hm : cfg.SLEPC_MISSING_LAPACK_GGES
  · rw [hm] at h
    cases hG : d.G with
    | none => simp [hG] at h
    | some G =>
      cases hT : d.T with
      | none => simp [hG, hT] at h
      | some T0 =>
        simp only [hG, hT, Bool.false_eq_true, if_false] at h
        by_cases hi : (x.LAPACKgges d.pY.isSome d.size_H
            (SlepcDenseCopyTriang d.H d.size_H d.size_H)
            (SlepcDenseCopyTriang G d.size_H d.size_H)).info = 0
        · refine ⟨G, T0, _, rfl, rfl, rfl, rfl, hi, ?_⟩
          simp only [dvdDashboard.log, hi, ne_eq, not_true_eq_false, if_false] at h
          cases h
          rfl
        · simp only [dvdDashboard.log, hi, ne_eq, not_false_eq_true, if_true] at h
          cases h
  · rw [hm] at h
    simp at h

/-- A successful `dvd_calcpairs_proj` is a successful update, a successful solve
and a passed consistency check. -/
theorem dvd_calcpairs_proj_ok (cfg : Build) (x : Collab R E) (d d1 : dvdDashboard R E)
    (h : dvd_calcpairs_proj cfg x d = .ok d1) :
    ∃ d0, dvd_calcpairs_proj_update x d = .ok d0 ∧ dvd_calcpairs_proj_solve cfg x d0 = .ok d1
      ∧ consistencyBroken d1 = false := by
  unfold dvd_calcpairs_proj at h
  obtain ⟨d1', h1, h2⟩ := bind_ok_inv _ _ _ h
  unfold dvd_calcpairs_proj_steps at h1
  obtain ⟨d0, h3, h4⟩ := bind_ok_inv _ _ _ h1
  by_cases hc : consistencyBroken d1' = true
  · simp [hc] at h2
  · simp [hc] at h2
    cases h2
    exact ⟨d0, h3, h4, by simpa using hc⟩

/-- The calls and the selection routine of the solve block, by the flags of `sEP`. -/
theorem dvd_calcpairs_proj_solve_calls (cfg : Build) (x : Collab R E)
    (d0 d1 : dvdDashboard R E) (h : dvd_calcpairs_proj_solve cfg x d0 = .ok d1) :
    ∃ evs, d1.trace = d0.trace ++ evs ∧
    (evs = [Call.EPSDenseHEP d0.size_H] ↔
      (d0.sEP.DVD_EP_STD = true ∧ d0.sEP.DVD_EP_HERMITIAN = true)) ∧
    (evs = [Call.EPSDenseHessenberg d0.size_H, Call.EPSDenseSchur d0.size_H] ↔
      (d0.sEP.DVD_EP_STD = true ∧ d0.sEP.DVD_EP_HERMITIAN = false)) ∧
    (evs = [Call.LAPACKgges d0.size_H] ↔ d0.sEP.DVD_EP_STD = false) ∧
    (d1.calcpairs_selectPairs = some .dvd_calcpairs_selectPairs_eig ↔
      (d0.sEP.DVD_EP_STD = true ∧ d0.sEP.DVD_EP_HERMITIAN = true)) ∧
    (d1.calcpairs_selectPairs = some .dvd_calcpairs_selectPairs_qz ↔
      ¬ (d0.sEP.DVD_EP_STD = true ∧ d0.sEP.DVD_EP_HERMITIAN = true)) := by
  unfold dvd_calcpairs_proj_solve at h
  obtain ⟨d2, h1, h2⟩ := bind_ok_inv _ _ _ h
  cases h2
  cases hstd : d0.sEP.DVD_EP_STD <;> cases hher : d0.sEP.DVD_EP_HERMITIAN <;>
    simp only [hstd, hher, if_true, if_false, Bool.false_eq_true] at h1
  · obtain ⟨G, T0, r, -, -, -, -, -, rfl⟩ := projeig_qz_gen_ok cfg x _ _ h1
    exact ⟨[Call.LAPACKgges d0.size_H], rfl, by simp, by simp, by simp, by simp, by simp⟩
  · obtain ⟨G, T0, r, -, -, -, -, -, rfl⟩ := projeig_qz_gen_ok cfg x _ _ h1
    exact ⟨[Call.LAPACKgges d0.size_H], rfl, by simp, by simp, by simp, by simp, by simp⟩
  · obtain ⟨hs, r, -, -, rfl⟩ := projeig_qz_std_ok x _ _ h1
    exact ⟨[Call.EPSDenseHessenberg d0.size_H, Call.EPSDenseSchur d0.size_H], by simp,
      by simp, by simp, by simp, by simp, by simp⟩
  · obtain ⟨r, -, rfl⟩ := projeig_eig_ok x _ _ h1
    exact ⟨[Call.EPSDenseHEP d0.size_H], rfl, by simp, by simp, by simp, by simp, by simp⟩

/-- C4. Once the sub-steps of `dvd_calcpairs_proj` have succeeded, leaving the
dashboard `d1`, the call fails with "Consistency broken!" if and only if
`size_V != V_new_e`, or `size_V != size_H`, or `size_V != size_AV`, or the problem
is not standard and (`size_V != size_G`, or `BV` exists and `size_V != size_BV`);
otherwise it returns success with `d1`. -/
theorem dvd_calcpairs_proj_consistency (cfg : Build) (x : Collab R E)
    (d d1 : dvdDashboard R E) (hsteps : dvd_calcpairs_proj_steps cfg x d = .ok d1) :
    (dvd_calcpairs_proj cfg x d = .error "Consistency broken!" ↔
      (d1.size_V ≠ d1.V_new_e ∨ d1.size_V ≠ d1.size_H ∨ d1.size_V ≠ d1.size_AV ∨
        (d1.sEP.DVD_EP_STD = false ∧
          (d1.size_V ≠ d1.size_G ∨ (d1.BV.isSome = true ∧ d1.size_V ≠ d1.size_BV))))) ∧
    (¬ (d1.size_V ≠ d1.V_new_e ∨ d1.size_V ≠ d1.size_H ∨ d1.size_V ≠ d1.size_AV ∨
        (d1.sEP.DVD_EP_STD = false ∧
          (d1.size_V ≠ d1.size_G ∨ (d1.BV.isSome = true ∧ d1.size_V ≠ d1.size_BV)))) →
      dvd_calcpairs_proj cfg x d = .ok d1) := by
  have hb : consistencyBroken d1 = true ↔
      (d1.size_V ≠ d1.V_new_e ∨ d1.size_V ≠ d1.size_H ∨ d1.size_V ≠ d1.size_AV ∨
        (d1.sEP.DVD_EP_STD = false ∧
          (d1.size_V ≠ d1.size_G ∨ (d1.BV.isSome = true ∧ d1.size_V ≠ d1.size_BV)))) := by
    simp [consistencyBroken, or_assoc]
  have hrun : dvd_calcpairs_proj cfg x d =
      if consistencyBroken d1 = true then .error "Consistency broken!" else .ok d1 := by
    simp only [dvd_calcpairs_proj, hsteps]
    rfl
  rw [hrun, ← hb]
  by_cases h : consistencyBroken d1 = true <;> simp [h]

/-- C4, evaluated: on `dashZ` the sub-steps succeed and leave `dashZ1`, where all
the sizes agree, so the call returns success. -/
theorem dvd_calcpairs_proj_consistency_witness :
    dvd_calcpairs_proj_steps realBuild collabZ dashZ = .ok dashZ1 ∧
    (dashZ1.size_V = 2 ∧ dashZ1.V_new_e = 2 ∧ dashZ1.size_H = 2 ∧ dashZ1.size_AV = 2) ∧
    dvd_calcpairs_proj realBuild collabZ dashZ = .ok dashZ1 :=
  ⟨by unfold dashZ1 dvd_calcpairs_proj; rfl, by decide,
    (dvd_calcpairs_proj_consistency realBuild collabZ dashZ dashZ1
      (by unfold dashZ1 dvd_calcpairs_proj; rfl)).2 (by decide)⟩

/-- The solve block of `dvd_calcpairs_proj`, by the flags of `sEP`: what the
dense solver selected returns on the copy of `H` (and of `G`) is what the
dashboard holds afterwards. -/
theorem dvd_calcpairs_proj_solve_outputs (cfg : Build) (x : Collab R E)
    (d0 d1 : dvdDashboard R E) (h : dvd_calcpairs_proj_solve cfg x d0 = .ok d1) :
    ((d0.sEP.DVD_EP_STD = true ∧ d0.sEP.DVD_EP_HERMITIAN = true) →
      ∃ r, x.EPSDenseHEP d0.size_H (SlepcDenseCopyTriang d0.H d0.size_H d0.size_H) = .ok r ∧
        d1 = { d0 with ldS := d0.size_H, ldpX := d0.size_H,
                       trace := d0.trace ++ [Call.EPSDenseHEP d0.size_H],
                       S := r.S, pX := r.pX, eigr := writeTo d0.eigr d0.size_H r.w,
                       pX_type := { DVD_MAT_UNITARY := true },
                       calcpairs_selectPairs := some .dvd_calcpairs_selectPairs_eig,
                       V_new_s := d0.V_new_e }) ∧
    ((d0.sEP.DVD_EP_STD = true ∧ d0.sEP.DVD_EP_HERMITIAN = false) →
      ∃ hs r,
        x.EPSDenseHessenberg d0.size_H (SlepcDenseCopyTriang d0.H d0.size_H d0.size_H)
          = .ok hs ∧
        x.EPSDenseSchur d0.size_H hs.S hs.pX = .ok r ∧
        d1 = { d0 with ldS := d0.size_H, ldpX := d0.size_H,
                       trace := d0.trace ++ [Call.EPSDenseHessenberg d0.size_H] ++
                         [Call.EPSDenseSchur d0.size_H],
                       S := r.S, pX := r.pX, eigr := writeTo d0.eigr d0.size_H r.wr,
                       eigi := writeTo d0.eigi d0.size_H r.wi,
                       pX_type := { DVD_MAT_UNITARY := true },
                       calcpairs_selectPairs := some .dvd_calcpairs_selectPairs_qz,
                       V_new_s := d0.V_new_e }) ∧
    (d0.sEP.DVD_EP_STD = false →
      ∃ G T0 r, d0.G = some G ∧ d0.T = some T0 ∧
        r = x.LAPACKgges d0.pY.isSome d0.size_H
          (SlepcDenseCopyTriang d0.H d0.size_H d0.size_H)
          (SlepcDenseCopyTriang G d0.size_H d0.size_H) ∧
        r.info = 0 ∧
        d1 = { d0 with ldS := d0.size_H, ldT := d0.size_H, ldpX := d0.size_H,
                       ldpY := d0.size_H,
                       trace := d0.trace ++ [Call.LAPACKgges d0.size_H],
                       S := r.S, T := some r.T, pX := r.pX,
                       pY := (if d0.pY.isSome then some r.pY else none),
                       eigr := writeTo (writeTo d0.eigr d0.size_H r.alphar) d0.size_H
                         (fun i => writeTo d0.eigr d0.size_H r.alphar i / r.beta i),
                       eigi := writeTo
                         (if cfg.PETSC_USE_COMPLEX then d0.eigi
                           else writeTo d0.eigi d0.size_H r.alphai)
                         d0.size_H
                         (fun i => (if cfg.PETSC_USE_COMPLEX then d0.eigi
                           else writeTo d0.eigi d0.size_H r.alphai) i / r.beta i),
                       pX_type := { DVD_MAT_UNITARY := true },
                       pY_type := { DVD_MAT_UNITARY := true },
                       calcpairs_selectPairs := some .dvd_calcpairs_selectPairs_qz,
                       V_new_s := d0.V_new_e }) := by
  unfold dvd_calcpairs_proj_solve at h
  obtain ⟨d2, h1, h2⟩ := bind_ok_inv _ _ _ h
  cases h2
  cases hstd : d0.sEP.DVD_EP_STD <;> cases hher : d0.sEP.DVD_EP_HERMITIAN <;>
    simp only [hstd, hher, if_true, if_false, Bool.false_eq_true] at h1
  · obtain ⟨G, T0, r, hG, hT, -, hr, hi, rfl⟩ := projeig_qz_gen_ok cfg x _ _ h1
    exact ⟨fun c => by simp at c, fun c => by simp at c,
      fun _ => ⟨G, T0, r, hG, hT, hr, hi, rfl⟩⟩
  · obtain ⟨G, T0, r, hG, hT, -, hr, hi, rfl⟩ := projeig_qz_gen_ok cfg x _ _ h1
    exact ⟨fun c => by simp at c, fun c => by simp at c,
      fun _ => ⟨G, T0, r, hG, hT, hr, hi, rfl⟩⟩
  · obtain ⟨hs, r, k1, k2, rfl⟩ := projeig_qz_std_ok x _ _ h1
    exact ⟨fun c => by simp at c, fun _ => ⟨hs, r, k1, k2, rfl⟩, fun c => by simp at c⟩
  · obtain ⟨r, k1, rfl⟩ := projeig_eig_ok x _ _ h1
    exact ⟨fun _ => ⟨r, k1, rfl⟩, fun c => by simp at c, fun c => by simp at c⟩

/-- C7. In a successful call of `dvd_calcpairs_proj`, with `d0` the dashboard
when the projected problem is solved: the only dense-solver calls are
`EPSDenseHEP` (the direct Hermitian eigensolver of `dvd_calcpairs_projeig_eig`)
exactly when `sEP` has the standard and the Hermitian flag, `EPSDenseHessenberg`
then `EPSDenseSchur` (`dvd_calcpairs_projeig_qz_std`) exactly when it is standard
and not Hermitian, and `gges` (`dvd_calcpairs_projeig_qz_gen`) exactly when it is
not standard; the selection routine installed is `dvd_calcpairs_selectPairs_eig`
in the first case and `dvd_calcpairs_selectPairs_qz` in the other two. In each
case the solver is run on the copy of `H` (and of `G`) of size `size_H`, it
returns, and the dashboard left is `d0` with the leading dimensions set to
`size_H`, the factors `S` (`T`), the bases `pX` (`pY`) and the eigenvalues that
the solver returned (for `gges` the quotients `alpha/beta`), the unitary flags,
the selection routine and the closed new range. -/
theorem dvd_calcpairs_proj_dispatch (cfg : Build) (x : Collab R E)
    (d d1 : dvdDashboard R E) (h : dvd_calcpairs_proj cfg x d = .ok d1) :
    ∃ d0 evs, dvd_calcpairs_proj_update x d = .ok d0 ∧ d1.trace = d0.trace ++ evs ∧
    (evs = [Call.EPSDenseHEP d0.size_H] ↔
      (d0.sEP.DVD_EP_STD = true ∧ d0.sEP.DVD_EP_HERMITIAN = true)) ∧
    (evs = [Call.EPSDenseHessenberg d0.size_H, Call.EPSDenseSchur d0.size_H] ↔
      (d0.sEP.DVD_EP_STD = true ∧ d0.sEP.DVD_EP_HERMITIAN = false)) ∧
    (evs = [Call.LAPACKgges d0.size_H] ↔ d0.sEP.DVD_EP_STD = false) ∧
    (d1.calcpairs_selectPairs = some .dvd_calcpairs_selectPairs_eig ↔
      (d0.sEP.DVD_EP_STD = true ∧ d0.sEP.DVD_EP_HERMITIAN = true)) ∧
    (d1.calcpairs_selectPairs = some .dvd_calcpairs_selectPairs_qz ↔
      ¬ (d0.sEP.DVD_EP_STD = true ∧ d0.sEP.DVD_EP_HERMITIAN = true)) ∧
    ((d0.sEP.DVD_EP_STD = true ∧ d0.sEP.DVD_EP_HERMITIAN = true) →
      ∃ r, x.EPSDenseHEP d0.size_H (SlepcDenseCopyTriang d0.H d0.size_H d0.size_H) = .ok r ∧
        d1 = { d0 with ldS := d0.size_H, ldpX := d0.size_H,
                       trace := d0.trace ++ [Call.EPSDenseHEP d0.size_H],
                       S := r.S, pX := r.pX, eigr := writeTo d0.eigr d0.size_H r.w,
                       pX_type := { DVD_MAT_UNITARY := true },
                       calcpairs_selectPairs := some .dvd_calcpairs_selectPairs_eig,
                       V_new_s := d0.V_new_e }) ∧
    ((d0.sEP.DVD_EP_STD = true ∧ d0.sEP.DVD_EP_HERMITIAN = false) →
      ∃ hs r,
        x.EPSDenseHessenberg d0.size_H (SlepcDenseCopyTriang d0.H d0.size_H d0.size_H)
          = .ok hs ∧
        x.EPSDenseSchur d0.size_H hs.S hs.pX = .ok r ∧
        d1 = { d0 with ldS := d0.size_H, ldpX := d0.size_H,
                       trace := d0.trace ++ [Call.EPSDenseHessenberg d0.size_H] ++
                         [Call.EPSDenseSchur d0.size_H],
                       S := r.S, pX := r.pX, eigr := writeTo d0.eigr d0.size_H r.wr,
                       eigi := writeTo d0.eigi d0.size_H r.wi,
                       pX_type := { DVD_MAT_UNITARY := true },
                       calcpairs_selectPairs := some .dvd_calcpairs_selectPairs_qz,
                       V_new_s := d0.V_new_e }) ∧
    (d0.sEP.DVD_EP_STD = false →
      ∃ G T0 r, d0.G = some G ∧ d0.T = some T0 ∧
        r = x.LAPACKgges d0.pY.isSome d0.size_H
          (SlepcDenseCopyTriang d0.H d0.size_H d0.size_H)
          (SlepcDenseCopyTriang G d0.size_H d0.size_H) ∧
        r.info = 0 ∧
        d1 = { d0 with ldS := d0.size_H, ldT := d0.size_H, ldpX := d0.size_H,
                       ldpY := d0.size_H,
                       trace := d0.trace ++ [Call.LAPACKgges d0.size_H],
                       S := r.S, T := some r.T, pX := r.pX,
                       pY := (if d0.pY.isSome then some r.pY else none),
                       eigr := writeTo (writeTo d0.eigr d0.size_H r.alphar) d0.size_H
                         (fun i => writeTo d0.eigr d0.size_H r.alphar i / r.beta i),
                       eigi := writeTo
                         (if cfg.PETSC_USE_COMPLEX then d0.eigi
                           else writeTo d0.eigi d0.size_H r.alphai)
                         d0.size_H
                         (fun i => (if cfg.PETSC_USE_COMPLEX then d0.eigi
                           else writeTo d0.eigi d0.size_H r.alphai) i / r.beta i),
                       pX_type := { DVD_MAT_UNITARY := true },
                       pY_type := { DVD_MAT_UNITARY := true },
                       calcpairs_selectPairs := some .dvd_calcpairs_selectPairs_qz,
                       V_new_s := d0.V_new_e }) := by
  obtain ⟨d0, h1, h2, -⟩ := dvd_calcpairs_proj_ok cfg x d d1 h
  obtain ⟨evs, h3, h4, h5, h6, h7, h8⟩ := dvd_calcpairs_proj_solve_calls cfg x d0 d1 h2
  exact ⟨d0, evs, h1, h3, h4, h5, h6, h7, h8, dvd_calcpairs_proj_solve_outputs cfg x d0 d1 h2⟩

/-- C7, evaluated. The standard Hermitian problem `dashZ` is solved by one call
of `EPSDenseHEP` on the 2-by-2 projected matrix `diag(1, 2)`, which leaves the
eigenvalues `1, 2` and the identity as `pX`, and `dvd_calcpairs_selectPairs_eig`
is installed; the standard non-Hermitian problem `dashDeflNH` is solved by
`EPSDenseHessenberg` then `EPSDenseSchur`, and the generalized problem
`dashRestart` by `gges`, both with `dvd_calcpairs_selectPairs_qz`. -/
theorem dvd_calcpairs_proj_dispatch_witness :
    (dvd_calcpairs_proj realBuild collabZ dashZ = .ok dashZ1 ∧
      dashZ1.trace = [Call.SlepcAllReduceSumBegin 2 8, Call.VecsMultS 1 2 1 2,
        Call.SlepcAllReduceSumEnd, Call.EPSDenseHEP 2] ∧
      dashZ1.calcpairs_selectPairs = some .dvd_calcpairs_selectPairs_eig ∧
      (dashZ1.eigr 0 = 1 ∧ dashZ1.eigr 1 = 2 ∧ dashZ1.S 0 0 = 1 ∧ dashZ1.S 1 1 = 2 ∧
        dashZ1.S 0 1 = 0 ∧ dashZ1.pX 1 1 = 1 ∧ dashZ1.ldS = 2 ∧ dashZ1.V_new_s = 2) ∧
      ∃ d0 evs, dvd_calcpairs_proj_update collabZ dashZ = .ok d0 ∧
        dashZ1.trace = d0.trace ++ evs ∧
        (evs = [Call.EPSDenseHEP d0.size_H] ↔
          (d0.sEP.DVD_EP_STD = true ∧ d0.sEP.DVD_EP_HERMITIAN = true)) ∧
        ((d0.sEP.DVD_EP_STD = true ∧ d0.sEP.DVD_EP_HERMITIAN = true) →
          ∃ r, collabZ.EPSDenseHEP d0.size_H
              (SlepcDenseCopyTriang d0.H d0.size_H d0.size_H) = .ok r ∧
            dashZ1 = { d0 with ldS := d0.size_H, ldpX := d0.size_H,
                               trace := d0.trace ++ [Call.EPSDenseHEP d0.size_H],
                               S := r.S, pX := r.pX,
                               eigr := writeTo d0.eigr d0.size_H r.w,
                               pX_type := { DVD_MAT_UNITARY := true },
                               calcpairs_selectPairs := some .dvd_calcpairs_selectPairs_eig,
                               V_new_s := d0.V_new_e })) ∧
    (∃ d1 d0 evs, dvd_calcpairs_proj realBuild collabZ dashDeflNH = .ok d1 ∧
      dvd_calcpairs_proj_update collabZ dashDeflNH = .ok d0 ∧
      d1.trace = d0.trace ++ evs ∧
      (evs = [Call.EPSDenseHessenberg d0.size_H, Call.EPSDenseSchur d0.size_H] ↔
        (d0.sEP.DVD_EP_STD = true ∧ d0.sEP.DVD_EP_HERMITIAN = false)) ∧
      d1.calcpairs_selectPairs = some .dvd_calcpairs_selectPairs_qz ∧
      d1.eigr 1 = 2) ∧
    (∃ d1 d0 evs, dvd_calcpairs_proj realBuild collabZ dashRestart = .ok d1 ∧
      dvd_calcpairs_proj_update collabZ dashRestart = .ok d0 ∧
      d1.trace = d0.trace ++ evs ∧
      (evs = [Call.LAPACKgges d0.size_H] ↔ d0.sEP.DVD_EP_STD = false) ∧
      d1.calcpairs_selectPairs = some .dvd_calcpairs_selectPairs_qz) := by
  have hrun : dvd_calcpairs_proj realBuild collabZ dashZ = .ok dashZ1 := rfl
  have hrunNH : dvd_calcpairs_proj realBuild collabZ dashDeflNH
      = .ok (okOr (dvd_calcpairs_proj realBuild collabZ dashDeflNH) dashDeflNH) := rfl
  have hrunG : dvd_calcpairs_proj realBuild collabZ dashRestart
      = .ok (okOr (dvd_calcpairs_proj realBuild collabZ dashRestart) dashRestart) := rfl
  refine ⟨?_, ?_, ?_⟩
  · obtain ⟨d0, evs, h1, h2, h3, -, -, -, -, h4, -⟩ :=
      dvd_calcpairs_proj_dispatch realBuild collabZ dashZ dashZ1 hrun
    exact ⟨hrun, by decide, by decide, by decide, d0, evs, h1, h2, h3, h4⟩
  · obtain ⟨d0, evs, h1, h2, -, h3, -, -, -, -⟩ :=
      dvd_calcpairs_proj_dispatch realBuild collabZ dashDeflNH _ hrunNH
    exact ⟨_, d0, evs, hrunNH, h1, h2, h3, by decide, by decide⟩
  · obtain ⟨d0, evs, h1, h2, -, -, h3, -, -, -⟩ :=
      dvd_calcpairs_proj_dispatch realBuild collabZ dashRestart _ hrunG
    exact ⟨_, d0, evs, hrunG, h1, h2, h3, by decide⟩

/-- With an empty restart range the column transform of `dvd_calcpairs_updateMatV`
changes nothing: the routine rebases `AV` by `V_imm_s`, applies the operator to
the new columns, and fails exactly on incompatible dimensions. -/
theorem dvd_calcpairs_updateMatV_no_restart (A : E → E) (AV : Vecs E) (size_AV : Int)
    (doUpdate doNew : Bool) (d : dvdDashboard R E) (htra : d.V_tra_e - d.V_tra_s = 0)
    (r : Vecs E × Int)
    (hok : dvd_calcpairs_updateMatV A AV size_AV doUpdate doNew d = .ok r) :
    d.V_imm_e - d.V_imm_s + d.V_tra_e - d.V_tra_s = d.V_new_s ∧ r.2 = d.V_new_e ∧
    ∀ i, r.1 i = if doNew = true ∧ d.V_new_s ≤ i ∧ i < d.V_new_e then A (d.V i)
      else AV (i + d.V_imm_s) := by
  have hid : ∀ M : DMat R, (SlepcUpdateVectorsZ (AV.shift d.V_imm_e) (0 : R) 1 AV size_AV
      M size_AV (d.V_tra_e - d.V_tra_s)).shift (-d.V_imm_e) = AV := by
    intro M
    funext i
    simp [SlepcUpdateVectorsZ, Vecs.shift, htra]
  have hAV : (if doUpdate = true then
      (match d.MT_type with
      | .DVD_MT_pX =>
        (SlepcUpdateVectorsZ (AV.shift d.V_imm_e) (0 : R) 1 AV size_AV
          (d.pX.col d.V_tra_s) size_AV (d.V_tra_e - d.V_tra_s)).shift (-d.V_imm_e)
      | .DVD_MT_ORTHO =>
        (SlepcUpdateVectorsZ (AV.shift d.V_imm_e) (0 : R) 1 AV size_AV
          (d.MTX.col d.V_tra_s) size_AV (d.V_tra_e - d.V_tra_s)).shift (-d.V_imm_e)
      | .DVD_MT_IDENTITY => AV)
    else AV) = AV := by
    cases doUpdate
    · rfl
    · cases d.MT_type <;> simp [hid]
  unfold dvd_calcpairs_updateMatV at hok
  rw [hAV] at hok
  by_cases hdim : d.V_imm_e - d.V_imm_s + d.V_tra_e - d.V_tra_s = d.V_new_s
  · simp only [hdim, ne_eq, not_true_eq_false, if_false] at hok
    cases hok
    refine ⟨hdim, rfl, ?_⟩
    intro i
    cases doNew <;> simp [Vecs.shift]
  · simp [hdim] at hok

/-- C6 (amended). With an empty restart range, if the retained columns of `AV`,
counted from the start `V_imm_s` of the immutable range, are in sync with `V`
(`AV[V_imm_s + j] = A*V[j]` for `j < V_new_s`), then after a successful
`dvd_calcpairs_updateAV` `size_AV = V_new_e` and `AV[i] = A*V[i]` for every
`i < size_AV`; `dvd_calcpairs_updateBV` gives the same for `B` and `BV` when `B`
exists and `ipV_oneMV` is off. -/
theorem dvd_calcpairs_updateAV_sync (d : dvdDashboard R E)
    (htra : d.V_tra_e - d.V_tra_s = 0) :
    (∀ d1, (∀ j, 0 ≤ j → j < d.V_new_s → d.AV (d.V_imm_s + j) = d.A (d.V j)) →
      dvd_calcpairs_updateAV d = .ok d1 →
      d1.size_AV = d.V_new_e ∧ ∀ i, 0 ≤ i → i < d1.size_AV → d1.AV i = d.A (d.V i)) ∧
    (∀ d1 B BV, d.B = some B → d.BV = some BV → d.ipV_oneMV = false →
      (∀ j, 0 ≤ j → j < d.V_new_s → BV (d.V_imm_s + j) = B (d.V j)) →
      dvd_calcpairs_updateBV d = .ok d1 →
      d1.size_BV = d.V_new_e ∧ ∃ BV1, d1.BV = some BV1 ∧
        ∀ i, 0 ≤ i → i < d1.size_BV → BV1 i = B (d.V i)) := by
  constructor
  · intro d1 hret hok
    unfold dvd_calcpairs_updateAV at hok
    obtain ⟨r, h1, h2⟩ := bind_ok_inv _ _ _ hok
    cases h2
    obtain ⟨-, hs, hv⟩ := dvd_calcpairs_updateMatV_no_restart d.A d.AV d.size_AV true true d
      htra r h1
    refine ⟨hs, ?_⟩
    intro i hi0 hi
    simp only [hs] at hi
    show r.1 i = d.A (d.V i)
    rw [hv i]
    by_cases hn : d.V_new_s ≤ i
    · simp [hn, hi]
    · have := hret i hi0 (by omega)
      simp [hn, add_comm i, this]
  · intro d1 B BV hB hBV hone hret hok
    unfold dvd_calcpairs_updateBV at hok
    simp only [hB, hBV] at hok
    obtain ⟨r, h1, h2⟩ := bind_ok_inv _ _ _ hok
    cases h2
    obtain ⟨-, hs, hv⟩ := dvd_calcpairs_updateMatV_no_restart B BV d.size_BV
      (!d.doNotUpdateBV) (!d.ipV_oneMV) d htra r h1
    refine ⟨hs, r.1, rfl, ?_⟩
    intro i hi0 hi
    simp only [hs] at hi
    show r.1 i = B (d.V i)
    rw [hv i]
    by_cases hn : d.V_new_s ≤ i
    · simp [hn, hi, hone]
    · have := hret i hi0 (by omega)
      simp [hn, add_comm i, this]

/-- C6, evaluated: on `dashGen` (retained column `0`, new column `1`, no rebasing)
both updates succeed and leave `AV[i] = A*V[i]` and `BV[i] = B*V[i]` for `i < 2`. -/
theorem dvd_calcpairs_updateAV_sync_witness :
    dashGen.V_tra_e - dashGen.V_tra_s = 0 ∧
    (∃ d1, dvd_calcpairs_updateAV dashGen = .ok d1 ∧ d1.size_AV = 2 ∧
      d1.AV 0 = opA (basisV 0) ∧ d1.AV 1 = opA (basisV 1)) ∧
    (∃ d1 BV1, dvd_calcpairs_updateBV dashGen = .ok d1 ∧ d1.size_BV = 2 ∧
      d1.BV = some BV1 ∧ BV1 0 = opA (basisV 0) ∧ BV1 1 = opA (basisV 1)) := by
  have hret : ∀ j : Int, 0 ≤ j → j < dashGen.V_new_s →
      (if dashGen.V_imm_s + j = 0 then ((1 : ℤ), (0 : ℤ)) else (5, 5)) = opA (basisV j) := by
    intro j h0 h1
    have : j = 0 := by have : dashGen.V_new_s = 1 := rfl; omega
    subst this; decide
  have hretB : ∀ j : Int, 0 ≤ j → j < dashGen.V_new_s →
      (if dashGen.V_imm_s + j = 0 then ((1 : ℤ), (0 : ℤ)) else (7, 7)) = opA (basisV j) := by
    intro j h0 h1
    have : j = 0 := by have : dashGen.V_new_s = 1 := rfl; omega
    subst this; decide
  obtain ⟨hA, hB⟩ := dvd_calcpairs_updateAV_sync dashGen (by decide)
  refine ⟨by decide, ⟨okOr (dvd_calcpairs_updateAV dashGen) dashGen, rfl, ?_⟩, ?_⟩
  · obtain ⟨h1, h2⟩ := hA (okOr (dvd_calcpairs_updateAV dashGen) dashGen) hret rfl
    exact ⟨h1, h2 0 (by decide) (by decide), h2 1 (by decide) (by decide)⟩
  · obtain ⟨h1, BV1, h2, h3⟩ := hB (okOr (dvd_calcpairs_updateBV dashGen) dashGen) opA _
      rfl rfl rfl hretB rfl
    exact ⟨_, BV1, rfl, h1, h2, h3 0 (by decide) (by decide), h3 1 (by decide) (by decide)⟩

/-- C6 (counterexample). On `dashLocked` no restart is pending and `AV[j] = A*V[j]`
holds for every column `j`; `dvd_calcpairs_updateAV` succeeds with
`size_AV = V_new_e = 1`, and yet `AV[0]` is then the old `AV[1] = (0,2)`, not
`A*V[0] = (1,0)`: the routine rebased `AV` by `V_imm_s = 1`. -/
theorem dvd_calcpairs_updateAV_rebases :
    (dashLocked.V_tra_e - dashLocked.V_tra_s = 0 ∧
      dashLocked.MT_type = MT_type_t.DVD_MT_IDENTITY) ∧
    (∀ j, dashLocked.AV j = dashLocked.A (dashLocked.V j)) ∧
    ∃ d1, dvd_calcpairs_updateAV dashLocked = .ok d1 ∧ d1.size_AV = dashLocked.V_new_e ∧
      (0 : Int) < d1.size_AV ∧ d1.AV 0 = (0, 2) ∧ dashLocked.A (dashLocked.V 0) = (1, 0) ∧
      d1.AV 0 ≠ dashLocked.A (dashLocked.V 0) :=
  ⟨by decide, fun _ => rfl, okOr (dvd_calcpairs_updateAV dashLocked) dashLocked, rfl,
    by decide, by decide, by decide, by decide, by decide⟩

/-- Scaling a sum scales its terms. -/
theorem sumTo_smul (c : R) (n : Int) (f : Int → E) :
    c • sumTo n f = sumTo n (fun k => c • f k) := by
  simp [sumTo, Finset.smul_sum]

/-- The value of `SlepcUpdateVectorsZ` on one of the `cM` columns it writes. -/
theorem SlepcUpdateVectorsZ_apply (Y : Vecs E) (beta alpha : R) (X : Vecs E) (cX : Int)
    (M : DMat R) (rM cM : Int) (j : Int) (h0 : 0 ≤ j) (h1 : j < cM) :
    SlepcUpdateVectorsZ Y beta alpha X cX M rM cM j
      = beta • Y j + alpha • sumTo rM (fun k => M k j • X k) := by
  simp [SlepcUpdateVectorsZ, h0, h1]

/-- The two updates of the non-reduced branch of `dvd_calcpairs_res_0`, on one column. -/
theorem res_step (d : dvdDashboard R E) (r_s r_e : Int) (Rv X : Vecs E) (UL : DMat R)
    (cX : Int) (i : Int) (hi : r_s ≤ i) (hi' : i < r_e) :
    SlepcUpdateVectorsZ
      (SlepcUpdateVectorsZ Rv (0 : R) 1 X cX
        (fun j c => if (0 ≤ c ∧ c < r_e - r_s) ∧ (0 ≤ j ∧ j < d.size_H) then
          d.pX j (c + r_s) * d.eigr (c + r_s) else UL j c) d.size_H (r_e - r_s))
      (-1 : R) 1 d.AV d.size_AV (d.pX.col r_s) d.size_H (r_e - r_s) (i - r_s)
    = specResidual d.AV X d.pX d.eigr d.size_H i := by
  have h0 : 0 ≤ i - r_s := by omega
  have h1 : i - r_s < r_e - r_s := by omega
  rw [SlepcUpdateVectorsZ_apply _ _ _ _ _ _ _ _ _ h0 h1,
    SlepcUpdateVectorsZ_apply _ _ _ _ _ _ _ _ _ h0 h1]
  have hs : sumTo d.size_H (fun k =>
      (fun j c => if (0 ≤ c ∧ c < r_e - r_s) ∧ (0 ≤ j ∧ j < d.size_H) then
          d.pX j (c + r_s) * d.eigr (c + r_s) else UL j c) k (i - r_s) • X k)
      = sumTo d.size_H (fun k => d.eigr i • (d.pX k i • X k)) := by
    apply sumTo_congr
    intro k hk0 hk
    simp [h0, h1, hk0, hk, smul_smul, mul_comm]
  have hp : sumTo d.size_H (fun k => d.pX.col r_s k (i - r_s) • d.AV k)
      = sumTo d.size_H (fun k => d.pX k i • d.AV k) := by
    apply sumTo_congr
    intro k _ _
    simp [DMat.col]
  rw [hs, hp]
  simp only [specResidual, zero_smul, zero_add, one_smul, neg_smul, ← sumTo_smul]
  abel

/-- C8. For every `i` with `r_s <= i < r_e`, before the final projection step
`dvd_calcpairs_res_0` leaves in `R[i-r_s]` the vector
`AV*pX[:,i] - eigr[i]*(BV*pX[:,i])` when the problem is not reduced to standard
form, with `V` in place of `BV` when there is no `B`, and
`AV*pX[:,i] - eigr[i]*R_in[i-r_s]` when it was reduced to standard form (`B`
present and `DVD_EP_STD`). -/
theorem dvd_calcpairs_res_0_residual (d : dvdDashboard R E) (r_s r_e : Int) (Rv : Vecs E)
    (UL : DMat R) :
    (d.B = none → ∃ R1, dvd_calcpairs_res_0_R d r_s r_e Rv UL = .ok R1 ∧
      ∀ i, r_s ≤ i → i < r_e →
        R1 (i - r_s) = specResidual d.AV d.V d.pX d.eigr d.size_H i) ∧
    (∀ B BV, d.B = some B → d.BV = some BV → d.sEP.DVD_EP_STD = false →
      ∃ R1, dvd_calcpairs_res_0_R d r_s r_e Rv UL = .ok R1 ∧
      ∀ i, r_s ≤ i → i < r_e →
        R1 (i - r_s) = specResidual d.AV BV d.pX d.eigr d.size_H i) ∧
    (∀ B, d.B = some B → d.sEP.DVD_EP_STD = true →
      ∃ R1, dvd_calcpairs_res_0_R d r_s r_e Rv UL = .ok R1 ∧
      ∀ i, r_s ≤ i → i < r_e →
        R1 (i - r_s) = sumTo d.size_H (fun k => d.pX k i • d.AV k)
          - d.eigr i • Rv (i - r_s)) := by
  refine ⟨?_, ?_, ?_⟩
  · intro hB
    refine ⟨_, by simp [dvd_calcpairs_res_0_R, hB, Except.map]; rfl, ?_⟩
    intro i hi hi'
    exact res_step d r_s r_e Rv d.V UL d.size_V i hi hi'
  · intro B BV hB hBV hstd
    refine ⟨_, by simp [dvd_calcpairs_res_0_R, hB, hBV, hstd, Except.map]; rfl, ?_⟩
    intro i hi hi'
    exact res_step d r_s r_e Rv BV UL d.size_BV i hi hi'
  · intro B hB hstd
    refine ⟨_, by simp [dvd_calcpairs_res_0_R, hB, hstd]; rfl, ?_⟩
    intro i hi hi'
    have h0 : 0 ≤ i - r_s := by omega
    have h1 : i - r_s < r_e - r_s := by omega
    rw [SlepcUpdateVectorsZ_apply _ _ _ _ _ _ _ _ _ h0 h1]
    have hp : sumTo d.size_H (fun k => d.pX.col r_s k (i - r_s) • d.AV k)
        = sumTo d.size_H (fun k => d.pX k i • d.AV k) := by
      apply sumTo_congr
      intro k _ _
      simp [DMat.col]
    rw [hp]
    simp only [h0, h1, and_self, if_true, sub_add_cancel, one_smul, neg_smul]
    abel

/-- C8, evaluated: on `dashZ1` (no `B`, `pX` the identity, `eigr = (1, 2)`,
`AV = A*V` with `A = diag(1,2)`) the residuals of the two exact eigenpairs are
zero, and `R[2]`, outside the range, keeps its value. -/
theorem dvd_calcpairs_res_0_residual_witness :
    dashZ1.B = none ∧
    ∃ R1, dvd_calcpairs_res_0_R dashZ1 0 2 (fun _ => (3, 3)) (fun _ _ => 0) = .ok R1 ∧
      R1 0 = (0, 0) ∧ R1 1 = (0, 0) ∧ R1 2 = (3, 3) := by
  obtain ⟨R1, h1, h2⟩ := (dvd_calcpairs_res_0_residual dashZ1 0 2 (fun _ => (3, 3))
    (fun _ _ => 0)).1 rfl
  have h3 : dvd_calcpairs_res_0_R dashZ1 0 2 (fun _ => (3, 3)) (fun _ _ => 0)
      = .ok (okOr (dvd_calcpairs_res_0_R dashZ1 0 2 (fun _ => (3, 3)) (fun _ _ => 0))
          (fun _ => (0, 0))) := rfl
  have h4 : R1 = okOr (dvd_calcpairs_res_0_R dashZ1 0 2 (fun _ => (3, 3)) (fun _ _ => 0))
      (fun _ => (0, 0)) := by
    rw [h3] at h1
    cases h1
    rfl
  refine ⟨rfl, R1, h1, ?_, ?_, ?_⟩
  · have := h2 0 (by decide) (by decide)
    simp only [sub_zero] at this
    rw [this]
    decide
  · have := h2 1 (by decide) (by decide)
    simp only [sub_zero] at this
    rw [this]
    decide
  · rw [h4]
    decide

/-- Invariant of the orthogonalizing loop of `dvd_calcpairs_proj_res`: the
processed residuals are orthogonal to the basis, their norms are stored, and the
entries before the loop range are untouched. -/
theorem forRange_orth (x : Collab R E) (cX : Vecs E) (r_s : Int) (N : Int)
    (hc : ∀ v o, x.IPOrthogonalize N cX v = .ok o →
      (∀ k, 0 ≤ k → k < N → x.dot (cX k) o.v = 0) ∧ o.norm = x.VecNorm o.v) :
    ∀ (n : Nat) (i0 : Int) (s s1 : dvdDashboard R E × Vecs E),
      forRange (proj_res_orth x cX r_s) n i0 s = .ok s1 → s.1.size_cX = N →
      s1.1.size_cX = N ∧
      (∀ i, i < i0 → s1.2 i = s.2 i ∧ s1.1.nR (r_s + i) = s.1.nR (r_s + i)) ∧
      (∀ i, i0 ≤ i → i < i0 + n →
        (∀ k, 0 ≤ k → k < N → x.dot (cX k) (s1.2 i) = 0) ∧
        s1.1.nR (r_s + i) = x.VecNorm (s1.2 i)) := by
  intro n
  induction n with
  | zero =>
    intro i0 s s1 h hN
    simp only [forRange] at h
    cases h
    exact ⟨hN, fun i _ => ⟨rfl, rfl⟩, fun i h1 h2 => by omega⟩
  | succ n ih =>
    intro i0 s s1 h hN
    simp only [forRange] at h
    obtain ⟨s2, h1, h2⟩ := bind_ok_inv _ _ _ h
    unfold proj_res_orth at h1
    obtain ⟨o, h3, h4⟩ := bind_ok_inv _ _ _ h1
    rw [hN] at h3
    obtain ⟨ho, hn⟩ := hc _ _ h3
    have hs2 : s2.1.size_cX = N ∧ s2.2 = Function.update s.2 i0 o.v ∧
        s2.1.nR = Function.update s.1.nR (r_s + i0) o.norm := by
      obtain ⟨d2, h5, h6⟩ := bind_ok_inv _ _ _ h4
      cases h6
      split at h5
      · obtain ⟨u, -, h7⟩ := bind_ok_inv _ _ _ h5
        cases h7
        exact ⟨hN, rfl, rfl⟩
      · cases h5
        exact ⟨hN, rfl, rfl⟩
    obtain ⟨hsz, hv, hnr⟩ := hs2
    obtain ⟨k1, k2, k3⟩ := ih (i0 + 1) s2 s1 h2 hsz
    refine ⟨k1, ?_, ?_⟩
    · intro i hi
      obtain ⟨a, b⟩ := k2 i (by omega)
      rw [a, b, hv, hnr]
      have h5 : i ≠ i0 := by omega
      have h6 : r_s + i ≠ r_s + i0 := by omega
      simp [Function.update, h5, h6]
    · intro i hi hi'
      by_cases he : i = i0
      · subst he
        obtain ⟨a, b⟩ := k2 i (by omega)
        rw [a, b, hv, hnr]
        simp only [Function.update_same]
        exact ⟨ho, hn⟩
      · exact k3 i (by omega) (by omega)

/-- Invariant of the norm loop of `dvd_calcpairs_proj_res`. -/
theorem forRange_norm (x : Collab R E) (r_s : Int) :
    ∀ (n : Nat) (i0 : Int) (s s1 : dvdDashboard R E × Vecs E),
      forRange (proj_res_norm x r_s) n i0 s = .ok s1 →
      s1.2 = s.2 ∧
      (∀ i, i < i0 → s1.1.nR (r_s + i) = s.1.nR (r_s + i)) ∧
      (∀ i, i0 ≤ i → i < i0 + n → s1.1.nR (r_s + i) = x.VecNorm (s.2 i)) := by
  intro n
  induction n with
  | zero =>
    intro i0 s s1 h
    simp only [forRange] at h
    cases h
    exact ⟨rfl, fun i _ => rfl, fun i h1 h2 => by omega⟩
  | succ n ih =>
    intro i0 s s1 h
    simp only [forRange] at h
    obtain ⟨s2, h1, h2⟩ := bind_ok_inv _ _ _ h
    unfold proj_res_norm at h1
    cases h1
    obtain ⟨k1, k2, k3⟩ := ih (i0 + 1) _ s1 h2
    refine ⟨k1, ?_, ?_⟩
    · intro i hi
      rw [k2 i (by omega)]
      have h6 : r_s + i ≠ r_s + i0 := by omega
      simp [Function.update, h6]
    · intro i hi hi'
      by_cases he : i = i0
      · subst he
        rw [k2 i (by omega)]
        simp
      · exact k3 i (by omega) (by omega)

/-- C9 (amended). After a successful `dvd_calcpairs_proj_res`, each residual
`R[i]`, `0 <= i < r_e - r_s`, is orthogonal to the first `size_cX` vectors of the
basis that the routine selects, and `nR[r_s+i]` is the norm of that orthogonalized
residual (`IPOrthogonalize` taken to return a vector orthogonal to the basis it
is given, with its norm). The selected basis is `BcX` when it exists, else `cY`
when it exists, else `cX` unless the problem is both standard and Hermitian; in
that last case the residuals are left as given and `nR[r_s+i]` is their norm. -/
theorem dvd_calcpairs_proj_res_deflation (x : Collab R E) (d d1 : dvdDashboard R E)
    (r_s r_e : Int) (Rv R1 : Vecs E)
    (hok : dvd_calcpairs_proj_res x d r_s r_e Rv = .ok (d1, R1)) :
    (∀ cX, proj_res_cX d = some cX →
      (∀ v o, x.IPOrthogonalize d.size_cX cX v = .ok o →
        (∀ k, 0 ≤ k → k < d.size_cX → x.dot (cX k) o.v = 0) ∧ o.norm = x.VecNorm o.v) →
      ∀ i, 0 ≤ i → i < r_e - r_s →
        (∀ k, 0 ≤ k → k < d.size_cX → x.dot (cX k) (R1 i) = 0) ∧
        d1.nR (r_s + i) = x.VecNorm (R1 i)) ∧
    (proj_res_cX d = none →
      R1 = Rv ∧ ∀ i, 0 ≤ i → i < r_e - r_s → d1.nR (r_s + i) = x.VecNorm (Rv i)) ∧
    ((∀ b, d.BcX = some b → proj_res_cX d = some b) ∧
     (d.BcX = none → ∀ c, d.cY = some c → proj_res_cX d = some c) ∧
     (d.BcX = none → d.cY = none →
        ¬ (d.sEP.DVD_EP_STD = true ∧ d.sEP.DVD_EP_HERMITIAN = true) →
        proj_res_cX d = d.cX) ∧
     (d.BcX = none → d.cY = none → d.sEP.DVD_EP_STD = true →
        d.sEP.DVD_EP_HERMITIAN = true → proj_res_cX d = none)) := by
  refine ⟨?_, ?_, ?_, ?_, ?_, ?_⟩
  · intro cX hsel hc i hi0 hi
    simp only [dvd_calcpairs_proj_res, hsel] at hok
    obtain ⟨-, -, h3⟩ := forRange_orth x cX r_s d.size_cX hc _ 0 (d, Rv) (d1, R1) hok rfl
    exact h3 i hi0 (by omega)
  · intro hsel
    simp only [dvd_calcpairs_proj_res, hsel] at hok
    obtain ⟨h1, -, h3⟩ := forRange_norm x r_s _ 0 (d, Rv) (d1, R1) hok
    exact ⟨h1, fun i hi0 hi => h3 i hi0 (by omega)⟩
  · intro b hb
    simp [proj_res_cX, hb]
  · intro hb c hc
    simp [proj_res_cX, hb, hc]
  · intro hb hc hn
    cases hstd : d.sEP.DVD_EP_STD <;> cases hher : d.sEP.DVD_EP_HERMITIAN <;>
      simp_all [proj_res_cX]
  · intro hb hc hstd hher
    simp [proj_res_cX, hb, hc, hstd, hher]

/-- C9, evaluated: for the standard non-Hermitian dashboard `dashDeflNH` with the
locked vector `e1`, the residual `(1,1)` becomes `(0,1)`, orthogonal to `e1`, and
`nR[0]` is its norm `1`. -/
theorem dvd_calcpairs_proj_res_deflation_witness :
    ∃ d1 R1, dvd_calcpairs_proj_res collabZ dashDeflNH 0 1 (fun _ => (1, 1)) = .ok (d1, R1) ∧
      R1 0 = (0, 1) ∧ collabZ.dot (lockedE1 0) (R1 0) = 0 ∧
      d1.nR 0 = collabZ.VecNorm (R1 0) ∧ d1.nR 0 = 1 := by
  have hrun : dvd_calcpairs_proj_res collabZ dashDeflNH 0 1 (fun _ => (1, 1))
      = .ok (okOr (dvd_calcpairs_proj_res collabZ dashDeflNH 0 1 (fun _ => (1, 1)))
          (dashDeflNH, fun _ => (1, 1))) := rfl
  obtain ⟨h1, -, -⟩ := dvd_calcpairs_proj_res_deflation collabZ dashDeflNH _ 0 1 _ _ hrun
  have h2 := h1 lockedE1 rfl (by
    intro v o ho
    cases ho
    refine ⟨?_, by simp [collabZ]⟩
    intro k _ _
    simp [collabZ, lockedE1]) 0 (by decide) (by decide)
  exact ⟨_, _, hrun, by decide, h2.1 0 (by decide) (by decide), h2.2, by decide⟩

/-- C9 (counterexample). For the standard Hermitian dashboard `dashDefl`, with one
locked pair (`size_cX = 1`, `cX[0] = e1`), `dvd_calcpairs_proj_res` succeeds and
leaves the residual `R[0] = (1,1)` as it is: its inner product with the locked
vector is `1`, not `0`. -/
theorem dvd_calcpairs_proj_res_not_deflated :
    (0 < dashDefl.size_cX ∧ dashDefl.cX = some lockedE1) ∧
    ∃ d1 R1, dvd_calcpairs_proj_res collabZ dashDefl 0 1 (fun _ => (1, 1)) = .ok (d1, R1) ∧
      R1 0 = (1, 1) ∧ collabZ.dot (lockedE1 0) (R1 0) = 1 ∧
      collabZ.dot (lockedE1 0) (R1 0) ≠ 0 :=
  ⟨⟨by decide, rfl⟩, _, _, rfl, by decide, by decide, by decide⟩

/-- When the new block is empty `VecsMultS` leaves the matrix as it is. -/
theorem VecsMultS_nothing (dot : E → E → R) (M : DMat R) (sM : MatType_t) (U V : Vecs E)
    (s e : Int) (h : e ≤ s ∨ e ≤ 0) : VecsMultS dot M sM U s e V s e = M := by
  funext i j
  simp only [VecsMultS]
  split
  · omega
  · rfl

/-- With nothing to project `dvd_calcpairs_VtAV_gen` keeps `H` and `size_H`. -/
theorem VtAV_gen_noop (x : Collab R E) (d : dvdDashboard R E)
    (htra : d.V_tra_e - d.V_tra_s = 0)
    (hdim : d.V_imm_e - d.V_imm_s + d.V_tra_e - d.V_tra_s = d.V_new_s)
    (hV : d.size_V = d.V_new_e) (hnew : d.V_new_s = d.V_new_e) (hH : d.size_H = d.size_V) :
    (dvd_calcpairs_VtAV_gen x d).H = d.H ∧ (dvd_calcpairs_VtAV_gen x d).size_H = d.size_H := by
  constructor
  · simp only [dvd_calcpairs_VtAV_gen, dvd_calcpairs_WtMatV_gen, dvdDashboard.log, htra,
      lt_self_iff_false, if_false, and_true]
    apply VecsMultS_nothing
    by_cases himm : d.V_imm_e - d.V_imm_s = 0
    · right; omega
    · left; simp [himm, hH]
  · simp [dvd_calcpairs_VtAV_gen, dvd_calcpairs_WtMatV_gen, dvdDashboard.log, hH]

/-- What a passed consistency check says. -/
theorem consistency_ok (d : dvdDashboard R E) (h : consistencyBroken d = false) :
    d.size_V = d.V_new_e ∧ d.size_H = d.size_V ∧ d.size_AV = d.size_V ∧
    (d.sEP.DVD_EP_STD = false → d.size_G = d.size_V ∧
      (d.BV.isSome = true → d.size_BV = d.size_V)) := by
  simp only [consistencyBroken, Bool.or_eq_false_iff, Bool.and_eq_false_imp,
    decide_eq_false_iff_not, ne_eq, not_not, Bool.not_eq_true'] at h
  obtain ⟨⟨⟨h1, h2⟩, h3⟩, h4⟩ := h
  refine ⟨h1, h2.symm, h3.symm, ?_⟩
  intro hstd
  have := h4 hstd
  exact ⟨this.1.symm, fun hb => (this.2 hb).symm⟩

end Proj

section Solve

variable {R E : Type}

/-- Invariant of the loop of `EPSSolve_DAVIDSON`, entered with enough iterations
left: `new` lists `nconv` after each executed iteration. -/
theorem EPSSolve_loop_inv (st : dvdSteps R E) (nev max_it : Int) :
    ∀ (fuel : Nat) (s s1 : LoopState R E),
      EPSSolve_loop st nev max_it fuel s = .ok s1 → max_it - s.its ≤ fuel →
      ∃ new : List Int, s1.hist = s.hist ++ new ∧
        (∀ v ∈ new.dropLast, v < nev) ∧
        (new.getLast? = some s1.nconv ∨ (new = [] ∧ s1.nconv = s.nconv ∧ ¬ s.its < max_it)) ∧
        ((new.length : Int) ≤ max_it - s.its ∨ new = []) ∧
        (s1.nconv < nev → new ≠ [] → (new.length : Int) = max_it - s.its) := by
  intro fuel
  induction fuel with
  | zero =>
    intro s s1 h hf
    simp only [EPSSolve_loop] at h
    cases h
    refine ⟨[], by simp, by simp, Or.inr ⟨rfl, rfl, ?_⟩, Or.inr rfl, by simp⟩
    simp at hf
    omega
  | succ fuel ih =>
    intro s s1 h hf
    simp only [EPSSolve_loop] at h
    by_cases hlt : s.its < max_it
    · simp only [hlt, if_true] at h
      obtain ⟨d1, h1, h⟩ := bind_ok_inv _ _ _ h
      obtain ⟨d2, h2, h⟩ := bind_ok_inv _ _ _ h
      obtain ⟨d3, h3, h⟩ := bind_ok_inv _ _ _ h
      by_cases hc : nev ≤ d3.nconv
      · simp only [hc, if_true] at h
        cases h
        refine ⟨[d3.nconv], rfl, by simp, Or.inl (by simp), Or.inl (by simp; omega), ?_⟩
        intro hdiv
        simp at hdiv
        omega
      · simp only [hc, if_false] at h
        obtain ⟨new, k1, k2, k3, k4, k5⟩ := ih _ s1 h (by simp; push_cast at hf ⊢; omega)
        simp only at k1 k3 k4 k5
        refine ⟨d3.nconv :: new, by simp [k1], ?_, ?_, ?_, ?_⟩
        · intro v hv
          cases new with
          | nil => simp at hv
          | cons a t =>
            simp only [List.dropLast_cons₂, List.mem_cons] at hv
            rcases hv with rfl | hv
            · omega
            · exact k2 v hv
        · cases new with
          | nil =>
            rcases k3 with k3 | ⟨-, k3, -⟩
            · simp at k3
            · left; simp [k3]
          | cons a t =>
            rcases k3 with k3 | ⟨k3, -, -⟩
            · left; simpa using k3
            · simp at k3
        · left
          rcases k4 with k4 | k4
          · simp only [List.length_cons]; push_cast; omega
          · subst k4; simp; omega
        · intro hdiv _
          cases new with
          | nil =>
            rcases k3 with k3 | ⟨-, -, k3⟩
            · simp at k3
            · simp; omega
          | cons a t =>
            have := k5 hdiv (by simp)
            simp only [List.length_cons] at this ⊢
            push_cast at this ⊢
            omega
    · simp only [hlt, if_false] at h
      cases h
      exact ⟨[], by simp, by simp, Or.inr ⟨rfl, rfl, hlt⟩, Or.inr rfl, by simp⟩

/-- C10. In a run of `EPSSolve_DAVIDSON` whose steps succeed, with `hist` the value
of `nconv` after each executed iteration: at most `max_it` iterations are
executed; `nconv < nev` after every iteration but the last, so the loop stops at
the first iteration after which `nconv >= nev`; the reason is `EPS_CONVERGED_TOL`
if and only if `nconv >= nev` at exit and `EPS_DIVERGED_ITS` otherwise; and when
the reason is `EPS_DIVERGED_ITS` and the loop was entered, exactly `max_it`
iterations were executed. -/
theorem EPSSolve_DAVIDSON_terminal (st : dvdSteps R E) (eps eps1 : EPS_t)
    (d : dvdDashboard R E) (s1 : LoopState R E)
    (hok : EPSSolve_DAVIDSON st eps d = .ok (eps1, s1)) :
    ((s1.hist.length : Int) ≤ eps.max_it ∨ s1.hist = []) ∧
    (∀ v ∈ s1.hist.dropLast, v < eps.nev) ∧
    (s1.hist.getLast? = some eps1.nconv ∨ (s1.hist = [] ∧ eps1.nconv = eps.nconv)) ∧
    (eps1.reason = EPSConvergedReason.EPS_CONVERGED_TOL ↔ eps.nev ≤ eps1.nconv) ∧
    (eps1.reason = EPSConvergedReason.EPS_DIVERGED_ITS ↔ ¬ eps.nev ≤ eps1.nconv) ∧
    (eps1.reason = EPSConvergedReason.EPS_DIVERGED_ITS → s1.hist ≠ [] →
      (s1.hist.length : Int) = eps.max_it) := by
  unfold EPSSolve_DAVIDSON at hok
  obtain ⟨d1, -, hok⟩ := bind_ok_inv _ _ _ hok
  obtain ⟨s2, h2, hok⟩ := bind_ok_inv _ _ _ hok
  obtain ⟨d3, -, hok⟩ := bind_ok_inv _ _ _ hok
  cases hok
  obtain ⟨new, k1, k2, k3, k4, k5⟩ := EPSSolve_loop_inv st eps.nev eps.max_it _ _ s2 h2
    (by simp only [sub_zero]; omega)
  simp only [List.nil_append, sub_zero] at k1 k3 k4 k5
  subst k1
  have hr : (if eps.nev ≤ s2.nconv then EPSConvergedReason.EPS_CONVERGED_TOL
      else EPSConvergedReason.EPS_DIVERGED_ITS) = EPSConvergedReason.EPS_DIVERGED_ITS ↔
      ¬ eps.nev ≤ s2.nconv := by
    by_cases hc : eps.nev ≤ s2.nconv <;> simp [hc]
  have hr2 : (if eps.nev ≤ s2.nconv then EPSConvergedReason.EPS_CONVERGED_TOL
      else EPSConvergedReason.EPS_DIVERGED_ITS) = EPSConvergedReason.EPS_CONVERGED_TOL ↔
      eps.nev ≤ s2.nconv := by
    by_cases hc : eps.nev ≤ s2.nconv <;> simp [hc]
  refine ⟨k4, k2, ?_, hr2, hr, ?_⟩
  · rcases k3 with k3 | ⟨k3, k3', -⟩
    · exact Or.inl k3
    · exact Or.inr ⟨k3, k3'⟩
  · intro hdiv hne
    exact k5 (by have := hr.mp hdiv; omega) hne

/-- The loop of `EPSSolve_DAVIDSON` returns when every step does. -/
theorem EPSSolve_loop_total (st : dvdSteps R E) (nev max_it : Int)
    (hinit : ∀ d, ∃ d1, st.initV d = .ok d1) (hcalc : ∀ d, ∃ d1, st.calcPairs d = .ok d1)
    (hupd : ∀ d, ∃ d1, st.updateV d = .ok d1) :
    ∀ (fuel : Nat) (s : LoopState R E), ∃ s1, EPSSolve_loop st nev max_it fuel s = .ok s1 := by
  intro fuel
  induction fuel with
  | zero => intro s; exact ⟨s, rfl⟩
  | succ fuel ih =>
    intro s
    simp only [EPSSolve_loop]
    by_cases hlt : s.its < max_it
    · simp only [hlt, if_true]
      have h1 : ∃ d1, (if s.d.size_V = 0 then st.initV s.d else pure s.d) = .ok d1 := by
        by_cases hz : s.d.size_V = 0
        · simpa [hz] using hinit s.d
        · exact ⟨s.d, by simp [hz]; rfl⟩
      obtain ⟨d1, h1⟩ := h1
      obtain ⟨d2, h2⟩ := hcalc d1
      obtain ⟨d3, h3⟩ := hupd d2
      rw [h1]
      simp only [bind, Except.bind, h2, h3]
      by_cases hc : nev ≤ d3.nconv
      · simp only [hc, if_true]
        exact ⟨_, rfl⟩
      · simp only [hc, if_false]
        exact ih _
    · simp only [hlt, if_false]
      exact ⟨s, rfl⟩

/-- C10, evaluated: with one pair locked per iteration, `nev = 2` and `max_it = 5`
the solve stops after two iterations with `EPS_CONVERGED_TOL`. -/
theorem EPSSolve_DAVIDSON_terminal_witness :
    ∃ eps1 s1, EPSSolve_DAVIDSON stepsZ (epsZ 2 5) dashZ = .ok (eps1, s1) ∧
      s1.hist = [1, 2] ∧ eps1.its = 1 ∧ eps1.nconv = 2 ∧
      eps1.reason = EPSConvergedReason.EPS_CONVERGED_TOL ∧
      (eps1.reason = EPSConvergedReason.EPS_CONVERGED_TOL ↔ (epsZ 2 5).nev ≤ eps1.nconv) := by
  have hrun : EPSSolve_DAVIDSON stepsZ (epsZ 2 5) dashZ
      = .ok (okOr (EPSSolve_DAVIDSON stepsZ (epsZ 2 5) dashZ)
          (epsZ 2 5, { its := 0, nconv := 0, d := dashZ, hist := [] })) := rfl
  have h := EPSSolve_DAVIDSON_terminal stepsZ (epsZ 2 5) _ dashZ _ hrun
  exact ⟨_, _, hrun, by decide, by decide, by decide, by decide, h.2.2.2.1⟩

/-- C10, evaluated on a run that does not converge: with `nev = 4` and
`max_it = 3` the solve executes exactly three iterations and ends with
`EPS_DIVERGED_ITS`. -/
theorem EPSSolve_DAVIDSON_diverged_run :
    ∃ eps1 s1, EPSSolve_DAVIDSON stepsZ (epsZ 4 3) dashZ = .ok (eps1, s1) ∧
      s1.hist = [1, 2, 3] ∧ eps1.its = 3 ∧ eps1.nconv = 3 ∧
      eps1.reason = EPSConvergedReason.EPS_DIVERGED_ITS :=
  ⟨_, _, rfl, by decide, by decide, by decide, by decide⟩

end Solve

section Solve2

variable {R E : Type}

end Solve2

section Res

variable {R E : Type} [CommRing R] [Star R] [Div R] [AddCommGroup E] [Module R E]

end Res

section Steps

variable {R E : Type} [CommRing R] [Star R] [Div R] [AddCommGroup E] [Module R E]

/-- What a successful `dvd_calcpairs_updateV` writes: `V` and `BV`. -/
theorem updateV_ok (x : Collab R E) (d d1 : dvdDashboard R E)
    (h : dvd_calcpairs_updateV x d = .ok d1) : ∃ V BV, d1 = { d with V := V, BV := BV } := by
  unfold dvd_calcpairs_updateV at h
  by_cases ho : d.ipV_oneMV = true
  · rw [if_pos ho] at h
    obtain ⟨r, -, h2⟩ := bind_ok_inv _ _ _ h
    cases h2
    exact ⟨_, _, rfl⟩
  · rw [if_neg ho] at h
    obtain ⟨r, -, h2⟩ := bind_ok_inv _ _ _ h
    cases h2
    exact ⟨_, _, rfl⟩

/-- What a successful `dvd_calcpairs_updateAV` writes: `AV` and `size_AV`. -/
theorem updateAV_ok (d d1 : dvdDashboard R E) (h : dvd_calcpairs_updateAV d = .ok d1) :
    ∃ AV n, d1 = { d with AV := AV, size_AV := n } := by
  unfold dvd_calcpairs_updateAV at h
  obtain ⟨r, -, h2⟩ := bind_ok_inv _ _ _ h
  cases h2
  exact ⟨_, _, rfl⟩

/-- What a successful `dvd_calcpairs_updateBV` writes: `BV`, `size_BV` and
`doNotUpdateBV`. -/
theorem updateBV_ok (d d1 : dvdDashboard R E) (h : dvd_calcpairs_updateBV d = .ok d1) :
    ∃ BV n, d1 = { d with BV := some BV, size_BV := n, doNotUpdateBV := false } := by
  unfold dvd_calcpairs_updateBV at h
  cases hB : d.B with
  | none => simp [hB] at h
  | some B =>
    cases hBV : d.BV with
    | none => simp [hB, hBV] at h
    | some BV =>
      simp only [hB, hBV] at h
      obtain ⟨r, -, h2⟩ := bind_ok_inv _ _ _ h
      cases h2
      exact ⟨_, _, rfl⟩

/-- What a successful `dvd_calcpairs_updateW` writes: what the callback
`calcpairs_W` does, and `W`. -/
theorem updateW_ok (x : Collab R E) (d d1 : dvdDashboard R E)
    (h : dvd_calcpairs_updateW x d = .ok d1) :
    ∃ dW W, x.calcpairs_W d = .ok dW ∧ d1 = { dW with W := some W } := by
  unfold dvd_calcpairs_updateW at h
  obtain ⟨dW, h1, h2⟩ := bind_ok_inv _ _ _ h
  cases hW : dW.W with
  | none => simp [hW] at h2
  | some W =>
    simp only [hW] at h2
    obtain ⟨W1, -, h3⟩ := bind_ok_inv _ _ _ h2
    cases h3
    exact ⟨dW, W1, h1, rfl⟩

/-- What `dvd_calcpairs_VtAV_gen` writes: `sH`, `size_H`, `H`, and one call of
`VecsMultS` in the ghost log. -/
theorem VtAV_gen_form (x : Collab R E) (d : dvdDashboard R E) :
    ∃ sH n H a b, dvd_calcpairs_VtAV_gen x d =
      { d with sH := sH, size_H := n, H := H, trace := d.trace ++ [Call.VecsMultS a b a b] } :=
  ⟨_, _, _, _, _, rfl⟩

/-- What a successful `dvd_calcpairs_VtBV_gen` writes: `sG`, `size_G`, `G`, and one
call of `VecsMultS` in the ghost log. -/
theorem VtBV_gen_ok (x : Collab R E) (d d1 : dvdDashboard R E)
    (h : dvd_calcpairs_VtBV_gen x d = .ok d1) :
    ∃ sG n G a b, d1 =
      { d with sG := sG, size_G := n, G := some G,
               trace := d.trace ++ [Call.VecsMultS a b a b] } := by
  unfold dvd_calcpairs_VtBV_gen at h
  cases hG : d.G with
  | none => simp [hG] at h
  | some G =>
    simp only [hG] at h
    cases h
    exact ⟨_, _, _, _, _, rfl⟩

/-- The steps of a successful `dvd_calcpairs_proj_update`, in program order. -/
theorem proj_update_inv (x : Collab R E) (d d0 : dvdDashboard R E)
    (h : dvd_calcpairs_proj_update x d = .ok d0) :
    ∃ d1 d2 d3 d4 d5,
      dvd_calcpairs_updateV x
        (d.log (.SlepcAllReduceSumBegin 2 (2 * d.size_V * d.size_V))) = .ok d1 ∧
      dvd_calcpairs_updateAV d1 = .ok d2 ∧
      ((d2.W.isNone = true ∧ (d3 = dvd_calcpairs_VtAV_gen x d2 ∨
          dvd_calcpairs_updateBV (dvd_calcpairs_VtAV_gen x d2) = .ok d3)) ∨
       (∃ dB dW, (dB = d2 ∨ dvd_calcpairs_updateBV d2 = .ok dB) ∧
          dvd_calcpairs_updateW x dB = .ok dW ∧ d3 = dvd_calcpairs_VtAV_gen x dW)) ∧
      ((d3.sEP.DVD_EP_STD = true ∧ d4 = d3) ∨
       (d3.sEP.DVD_EP_STD = false ∧ dvd_calcpairs_VtBV_gen x d3 = .ok d4)) ∧
      ((x.calcpairs_proj_trans = none ∧ d5 = d4.log .SlepcAllReduceSumEnd) ∨
       (∃ f, x.calcpairs_proj_trans = some f ∧ f (d4.log .SlepcAllReduceSumEnd) = .ok d5)) ∧
      d0 = { d5 with
        MT_type := if d5.MT_type ≠ .DVD_MT_IDENTITY then .DVD_MT_IDENTITY else d5.MT_type
        V_tra_s := if d5.MT_type ≠ .DVD_MT_IDENTITY then 0 else d5.V_tra_s
        V_tra_e := if d5.MT_type ≠ .DVD_MT_IDENTITY then 0 else d5.V_tra_e } := by
  unfold dvd_calcpairs_proj_update at h
  obtain ⟨d1, h1, h⟩ := bind_ok_inv _ _ _ h
  obtain ⟨d2, h2, h⟩ := bind_ok_inv _ _ _ h
  obtain ⟨d3, h3, h⟩ := bind_ok_inv _ _ _ h
  obtain ⟨d4, h4, h⟩ := bind_ok_inv _ _ _ h
  obtain ⟨d5, h5, h⟩ := bind_ok_inv _ _ _ h
  cases h
  refine ⟨d1, d2, d3, d4, d5, h1, h2, ?_, ?_, ?_, rfl⟩
  · by_cases hW : d2.W.isNone = true
    · left
      refine ⟨hW, ?_⟩
      rw [if_pos hW] at h3
      by_cases hBV : (dvd_calcpairs_VtAV_gen x d2).BV.isSome = true
      · rw [if_pos hBV] at h3
        exact Or.inr h3
      · rw [if_neg hBV] at h3
        cases h3
        exact Or.inl rfl
    · right
      rw [if_neg hW] at h3
      obtain ⟨dB, h6, h3⟩ := bind_ok_inv _ _ _ h3
      obtain ⟨dW, h7, h3⟩ := bind_ok_inv _ _ _ h3
      cases h3
      refine ⟨dB, dW, ?_, h7, rfl⟩
      by_cases hBV : d2.BV.isSome = true
      · rw [if_pos hBV] at h6
        exact Or.inr h6
      · rw [if_neg hBV] at h6
        cases h6
        exact Or.inl rfl
  · cases hstd : d3.sEP.DVD_EP_STD
    · right
      simp only [hstd, Bool.not_false, if_true] at h4
      exact ⟨rfl, h4⟩
    · left
      simp only [hstd, Bool.not_true, Bool.false_eq_true, if_false] at h4
      cases h4
      exact ⟨rfl, rfl⟩
  · cases hT : x.calcpairs_proj_trans with
    | none =>
      left
      simp only [hT] at h5
      cases h5
      exact ⟨rfl, rfl⟩
    | some f =>
      right
      simp only [hT] at h5
      exact ⟨f, rfl, h5⟩


/-- The ghost log of a successful `dvd_calcpairs_proj_update`: the reduction is
opened, `H` is projected, `G` is projected when the problem is not standard, and
the reduction is closed. The callbacks are taken to leave the log and the problem
type as they are. -/
theorem proj_update_logged (x : Collab R E) (d d0 : dvdDashboard R E)
    (h : dvd_calcpairs_proj_update x d = .ok d0)
    (hW : ∀ a b, x.calcpairs_W a = .ok b → logged a b [])
    (hT : ∀ f, x.calcpairs_proj_trans = some f → ∀ a b, f a = .ok b → logged a b []) :
    ∃ ops, logged d d0 (Call.SlepcAllReduceSumBegin 2 (2 * d.size_V * d.size_V) :: ops ++
        [Call.SlepcAllReduceSumEnd]) ∧
      (∀ c ∈ ops, c.isVecsMultS = true) ∧
      (d.sEP.DVD_EP_STD = true → ops.length = 1) ∧
      (d.sEP.DVD_EP_STD = false → ops.length = 2) := by
  obtain ⟨d1, d2, d3, d4, d5, h1, h2, h3, h4, h5, rfl⟩ := proj_update_inv x d d0 h
  have t1 : logged d d1 [Call.SlepcAllReduceSumBegin 2 (2 * d.size_V * d.size_V)] := by
    obtain ⟨V, BV, rfl⟩ := updateV_ok x _ _ h1
    exact ⟨rfl, rfl⟩
  have t2 : logged d1 d2 [] := by
    obtain ⟨AV, n, rfl⟩ := updateAV_ok _ _ h2
    exact ⟨by simp, rfl⟩
  have t3 : ∃ a b, logged d2 d3 [Call.VecsMultS a b a b] := by
    rcases h3 with ⟨-, h3 | h3⟩ | ⟨dB, dW, h6, h7, h3⟩
    · obtain ⟨sH, n, H, a, b, hf⟩ := VtAV_gen_form x d2
      rw [hf] at h3
      subst h3
      exact ⟨a, b, rfl, rfl⟩
    · obtain ⟨sH, n, H, a, b, hf⟩ := VtAV_gen_form x d2
      rw [hf] at h3
      obtain ⟨BV, m, rfl⟩ := updateBV_ok _ _ h3
      exact ⟨a, b, rfl, rfl⟩
    · have tB : logged d2 dB [] := by
        rcases h6 with rfl | h6
        · exact ⟨by simp, rfl⟩
        · obtain ⟨BV, m, rfl⟩ := updateBV_ok _ _ h6
          exact ⟨by simp, rfl⟩
      obtain ⟨dW1, W, h8, rfl⟩ := updateW_ok x _ _ h7
      obtain ⟨w1, w2⟩ := hW _ _ h8
      obtain ⟨sH, n, H, a, b, hf⟩ := VtAV_gen_form x { dW1 with W := some W }
      rw [hf] at h3
      subst h3
      refine ⟨a, b, ?_, ?_⟩
      · show dW1.trace ++ [Call.VecsMultS a b a b] = d2.trace ++ [Call.VecsMultS a b a b]
        rw [w1, tB.1]
        simp
      · show dW1.sEP = d2.sEP
        rw [w2, tB.2]
  obtain ⟨a, b, t3⟩ := t3
  have e3 : d3.sEP = d.sEP := by rw [t3.2, t2.2, t1.2]
  have t4 : ∃ ops, logged d3 d4 ops ∧ (∀ c ∈ ops, c.isVecsMultS = true) ∧
      (d.sEP.DVD_EP_STD = true → ops.length = 0) ∧
      (d.sEP.DVD_EP_STD = false → ops.length = 1) := by
    rcases h4 with ⟨hs, rfl⟩ | ⟨hs, h4⟩
    · refine ⟨[], ⟨by simp, rfl⟩, by simp, fun _ => rfl, ?_⟩
      intro hn
      rw [e3, hn] at hs
      cases hs
    · obtain ⟨sG, n, G, a1, b1, rfl⟩ := VtBV_gen_ok x _ _ h4
      refine ⟨[Call.VecsMultS a1 b1 a1 b1], ⟨rfl, rfl⟩, by simp [Call.isVecsMultS], ?_,
        fun _ => rfl⟩
      intro hn
      rw [e3, hn] at hs
      cases hs
  obtain ⟨ops, t4, o1, o2, o3⟩ := t4
  have t5 : logged d4 d5 [Call.SlepcAllReduceSumEnd] := by
    rcases h5 with ⟨-, rfl⟩ | ⟨f, hf, h5⟩
    · exact ⟨rfl, rfl⟩
    · obtain ⟨w1, w2⟩ := hT f hf _ _ h5
      exact ⟨by rw [w1]; simp [dvdDashboard.log], by rw [w2]; rfl⟩
  refine ⟨Call.VecsMultS a b a b :: ops, ⟨?_, ?_⟩, ?_, ?_, ?_⟩
  · show d5.trace = _
    rw [t5.1, t4.1, t3.1, t2.1, t1.1]
    simp
  · show d5.sEP = _
    rw [t5.2, t4.2, t3.2, t2.2, t1.2]
  · intro c hc
    rcases List.mem_cons.mp hc with rfl | hc
    · rfl
    · exact o1 c hc
  · intro hs
    simp [o2 hs]
  · intro hs
    simp [o3 hs]

/-- A successful `dvd_calcpairs_proj_update` keeps `ldH`, `max_size_proj` and
`max_size_V`, when
the callbacks do. -/
theorem proj_update_sameLd (x : Collab R E) (d d0 : dvdDashboard R E)
    (h : dvd_calcpairs_proj_update x d = .ok d0)
    (hW : ∀ a b, x.calcpairs_W a = .ok b → sameLd a b)
    (hT : ∀ f, x.calcpairs_proj_trans = some f → ∀ a b, f a = .ok b → sameLd a b) :
    sameLd d d0 := by
  obtain ⟨d1, d2, d3, d4, d5, h1, h2, h3, h4, h5, rfl⟩ := proj_update_inv x d d0 h
  have t1 : sameLd d d1 := by
    obtain ⟨V, BV, rfl⟩ := updateV_ok x _ _ h1
    exact ⟨rfl, rfl, rfl⟩
  have t2 : sameLd d1 d2 := by
    obtain ⟨AV, n, rfl⟩ := updateAV_ok _ _ h2
    exact ⟨rfl, rfl, rfl⟩
  have t3 : sameLd d2 d3 := by
    rcases h3 with ⟨-, h3 | h3⟩ | ⟨dB, dW, h6, h7, h3⟩
    · subst h3
      exact ⟨rfl, rfl, rfl⟩
    · obtain ⟨BV, m, rfl⟩ := updateBV_ok _ _ h3
      exact ⟨rfl, rfl, rfl⟩
    · have tB : sameLd d2 dB := by
        rcases h6 with rfl | h6
        · exact ⟨rfl, rfl, rfl⟩
        · obtain ⟨BV, m, rfl⟩ := updateBV_ok _ _ h6
          exact ⟨rfl, rfl, rfl⟩
      obtain ⟨dW1, W, h8, rfl⟩ := updateW_ok x _ _ h7
      obtain ⟨w1, w2, w3⟩ := hW _ _ h8
      subst h3
      exact ⟨w1.trans tB.1, w2.trans tB.2.1, w3.trans tB.2.2⟩
  have t4 : sameLd d3 d4 := by
    rcases h4 with ⟨-, rfl⟩ | ⟨-, h4⟩
    · exact ⟨rfl, rfl, rfl⟩
    · obtain ⟨sG, n, G, a1, b1, rfl⟩ := VtBV_gen_ok x _ _ h4
      exact ⟨rfl, rfl, rfl⟩
  have t5 : sameLd d4 d5 := by
    rcases h5 with ⟨-, rfl⟩ | ⟨f, hf, h5⟩
    · exact ⟨rfl, rfl, rfl⟩
    · exact hT f hf (d4.log .SlepcAllReduceSumEnd) d5 h5
  exact ⟨(t5.1.trans (t4.1.trans (t3.1.trans (t2.1.trans t1.1)))),
    (t5.2.1.trans (t4.2.1.trans (t3.2.1.trans (t2.2.1.trans t1.2.1)))),
    (t5.2.2.trans (t4.2.2.trans (t3.2.2.trans (t2.2.2.trans t1.2.2))))⟩


/-- The bound `max_size_proj` that `dvd_calcpairs_qz` stores is `b->max_size_V`. -/
theorem qz_max_size_proj (cfg : Build) (p : qzProblem) (b : dvdBlackboard) (s : qzSetup)
    (hs : (dvd_calcpairs_qz cfg p b).2 = some s) : s.max_size_proj = b.max_size_V := by
  have h1 : (dvd_calcpairs_qz_declare cfg p b).max_size_V = b.max_size_V := by
    simp only [dvd_calcpairs_qz_declare]
    split <;> rfl
  have h2 : ∀ b1, (dvd_calcpairs_qz_claim p b1).2.max_size_proj = b1.max_size_V := by
    intro b1
    rcases p with ⟨⟨std, her⟩, nev, hasB, one, nds⟩
    cases std <;> cases her <;> cases hasB <;> cases one <;> rfl
  unfold dvd_calcpairs_qz at hs
  simp only [] at hs
  split at hs
  · simp only [Option.some.injEq] at hs
    rw [← hs, h2, h1]
  · cases hs

/-- The routine `dvd_calcpairs_qz_start` sets `ldH` to `max_size_proj`, which it keeps
as it keeps `max_size_V`. -/
theorem qz_start_ldH (d d0 : dvdDashboard R E) (h : dvd_calcpairs_qz_start d = .ok d0) :
    d0.ldH = d.max_size_proj ∧ d0.max_size_proj = d.max_size_proj ∧
    d0.max_size_V = d.max_size_V := by
  unfold dvd_calcpairs_qz_start at h
  obtain ⟨cS, -, h⟩ := bind_ok_inv _ _ _ h
  by_cases hB : d.B.isSome = true
  · cases hstd : d.sEP.DVD_EP_STD
    · simp only [hB, hstd, if_true, Bool.not_false] at h
      obtain ⟨cT, -, h⟩ := bind_ok_inv _ _ _ h
      split at h <;> cases h <;> exact ⟨rfl, rfl, rfl⟩
    · simp only [hB, hstd, if_true, Bool.not_true, Bool.false_eq_true, if_false] at h
      cases h
      exact ⟨rfl, rfl, rfl⟩
  · cases hstd : d.sEP.DVD_EP_STD
    · simp only [hB, hstd, if_true, Bool.not_false, if_false] at h
      obtain ⟨cT, -, h⟩ := bind_ok_inv _ _ _ h
      split at h <;> cases h <;> exact ⟨rfl, rfl, rfl⟩
    · simp only [hB, hstd, Bool.not_true, Bool.false_eq_true, if_false] at h
      cases h
      exact ⟨rfl, rfl, rfl⟩

/-- C17. In a successful call of `dvd_calcpairs_proj` the ghost log grows by: one
`SlepcAllReduceSumBegin` with 2 slots and `size_in = 2*size_V*size_V`; then the
registered projections `ops`, which are calls of `VecsMultS` only, one (the
extension of `H`) for a standard problem and two (`H`, then `G`) for a
non-standard one, so never more than the 2 slots; then one
`SlepcAllReduceSumEnd`; then the calls `solve` of the dense solver, none of which
comes before the `SlepcAllReduceSumEnd`. The callbacks `calcpairs_W` and
`calcpairs_proj_trans` are taken to leave the log and the problem type alone. -/
theorem dvd_calcpairs_proj_batched (cfg : Build) (x : Collab R E) (d d1 : dvdDashboard R E)
    (h : dvd_calcpairs_proj cfg x d = .ok d1)
    (hW : ∀ a b, x.calcpairs_W a = .ok b → logged a b [])
    (hT : ∀ f, x.calcpairs_proj_trans = some f → ∀ a b, f a = .ok b → logged a b []) :
    ∃ ops solve,
      d1.trace = d.trace ++ (Call.SlepcAllReduceSumBegin 2 (2 * d.size_V * d.size_V) :: ops ++
        Call.SlepcAllReduceSumEnd :: solve) ∧
      (∀ c ∈ ops, c.isVecsMultS = true) ∧
      (d.sEP.DVD_EP_STD = true → ops.length = 1) ∧
      (d.sEP.DVD_EP_STD = false → ops.length = 2) ∧
      ops.length ≤ 2 ∧
      solve ≠ [] ∧ (∀ c ∈ solve, c.isDenseSolve = true) ∧
      (∀ c ∈ ops ++ solve, c ≠ Call.SlepcAllReduceSumEnd ∧
        ∀ m n, c ≠ Call.SlepcAllReduceSumBegin m n) := by
  obtain ⟨d0, h1, h2, -⟩ := dvd_calcpairs_proj_ok cfg x d d1 h
  obtain ⟨ops, ⟨t1, -⟩, o1, o2, o3⟩ := proj_update_logged x d d0 h1 hW hT
  obtain ⟨solve, s1, s2, s3, s4, -, -⟩ := dvd_calcpairs_proj_solve_calls cfg x d0 d1 h2
  have hsolve : solve ≠ [] ∧ ∀ c ∈ solve, c.isDenseSolve = true := by
    cases hstd : d0.sEP.DVD_EP_STD
    · rw [s4.mpr hstd]
      simp [Call.isDenseSolve]
    · cases hher : d0.sEP.DVD_EP_HERMITIAN
      · rw [s3.mpr ⟨hstd, hher⟩]
        simp [Call.isDenseSolve]
      · rw [s2.mpr ⟨hstd, hher⟩]
        simp [Call.isDenseSolve]
  refine ⟨ops, solve, ?_, o1, o2, o3, ?_, hsolve.1, hsolve.2, ?_⟩
  · rw [s1, t1]
    simp
  · cases hstd : d.sEP.DVD_EP_STD
    · rw [o3 hstd]
    · rw [o2 hstd]
      decide
  · intro c hc
    have hk : c.isVecsMultS = true ∨ c.isDenseSolve = true := by
      rcases List.mem_append.mp hc with hc | hc
      · exact Or.inl (o1 c hc)
      · exact Or.inr (hsolve.2 c hc)
    refine ⟨?_, ?_⟩
    · rintro rfl
      rcases hk with hk | hk <;> cases hk
    · rintro m n rfl
      rcases hk with hk | hk <;> cases hk

end Steps

/-- C17, evaluated on the non-standard dashboard `dashRestart`: the call logs one
`SlepcAllReduceSumBegin`, the projections of `H` and of `G`, one
`SlepcAllReduceSumEnd`, and then the call of `gges`. -/
theorem dvd_calcpairs_proj_batched_witness :
    dvd_calcpairs_proj realBuild collabZ dashRestart = .ok dashRestart1 ∧
    dashRestart1.trace = [Call.SlepcAllReduceSumBegin 2 2, Call.VecsMultS 1 1 1 1,
      Call.VecsMultS 1 1 1 1, Call.SlepcAllReduceSumEnd, Call.LAPACKgges 1] ∧
    ∃ ops solve,
      dashRestart1.trace = dashRestart.trace ++
        (Call.SlepcAllReduceSumBegin 2 (2 * dashRestart.size_V * dashRestart.size_V) :: ops ++
          Call.SlepcAllReduceSumEnd :: solve) ∧
      (dashRestart.sEP.DVD_EP_STD = false → ops.length = 2) ∧ ops.length ≤ 2 := by
  have hrun : dvd_calcpairs_proj realBuild collabZ dashRestart = .ok dashRestart1 := rfl
  obtain ⟨ops, solve, h1, -, -, h2, h3, -⟩ :=
    dvd_calcpairs_proj_batched realBuild collabZ dashRestart dashRestart1 hrun
      (by intro a b hab; cases hab; exact ⟨by simp, rfl⟩)
      (by intro f hf; cases hf)
  exact ⟨hrun, by decide, ops, solve, h1, h2, h3⟩

/-- C19 (counterexample). From `dashStart`, whose maximum subspace size is
`max_size_V = max_size_proj = 3`, `dvd_calcpairs_qz_start` followed by
`dvd_calcpairs_proj` leaves `ldH = 3` and the leading dimension of `S` equal to
the current size `2`, less than the maximum subspace size. -/
theorem dvd_calcpairs_proj_ldS_current :
    dvd_calcpairs_qz_start dashStart = .ok dashStart0 ∧
    dvd_calcpairs_proj realBuild collabZ dashStart0 = .ok dashStart1 ∧
    dashStart1.max_size_V = 3 ∧ dashStart1.max_size_proj = 3 ∧ dashStart1.ldH = 3 ∧
    dashStart1.size_V = 2 ∧ dashStart1.ldS = 2 ∧ dashStart1.ldS < dashStart1.max_size_V ∧
    dashStart1.ldS ≠ dashStart1.max_size_proj :=
  ⟨rfl, rfl, by decide, by decide, by decide, by decide, by decide, by decide, by decide⟩

/-- The Hermitian flag that `EPSSetUp_DAVIDSON` puts into `sEP` is the local
`ispositive`: `eps->ispositive`, or a standard Hermitian problem. -/
theorem EPSSetUp_DAVIDSON_spec_hermitian (eps : EPS_conf) (hasB : Bool) :
    (EPSSetUp_DAVIDSON_spec eps hasB).1.sEP.DVD_EP_HERMITIAN =
      (eps.ispositive || (!eps.isgeneralized && eps.ishermitian)) := by
  unfold EPSSetUp_DAVIDSON_spec
  cases eps.ispositive <;> cases eps.isgeneralized <;> cases eps.ishermitian <;> rfl

/-- C13 (the cases that hold). For the problem types `EPS_HEP`, `EPS_NHEP`,
`EPS_GHEP`, `EPS_GNHEP` and `EPS_GHIEP` set by `EPSSetProblemType`, and for every
flag combination in which `ispositive` comes with `ishermitian`,
`EPSSetUp_DAVIDSON` puts `DVD_EP_HERMITIAN` into `sEP` only if `eps->ishermitian`. -/
theorem EPSSetUp_DAVIDSON_hermitian_flag (eps eps1 : EPS_conf) (hasB : Bool) (type : Int) :
    ((eps.ispositive = true → eps.ishermitian = true) →
      (EPSSetUp_DAVIDSON_spec eps hasB).1.sEP.DVD_EP_HERMITIAN = true →
      eps.ishermitian = true) ∧
    (EPSSetProblemType eps type = .ok eps1 → type ≠ EPS_PGNHEP →
      (EPSSetUp_DAVIDSON_spec eps1 hasB).1.sEP.DVD_EP_HERMITIAN = true →
      eps1.ishermitian = true) := by
  have key : ∀ e : EPS_conf, (e.ispositive = true → e.ishermitian = true) →
      (EPSSetUp_DAVIDSON_spec e hasB).1.sEP.DVD_EP_HERMITIAN = true →
      e.ishermitian = true := by
    intro e hp hf
    rw [EPSSetUp_DAVIDSON_spec_hermitian] at hf
    cases h1 : e.ispositive <;> cases h2 : e.isgeneralized <;> cases h3 : e.ishermitian <;>
      simp_all
  refine ⟨key eps, ?_⟩
  intro hset hne
  apply key
  unfold EPSSetProblemType at hset
  split at hset
  · cases hset; intro h; rfl
  split at hset
  · cases hset; intro h; cases h
  split at hset
  · cases hset; intro h; rfl
  split at hset
  · cases hset; intro h; cases h
  split at hset
  · cases hset; intro h; cases h
  · cases hset

/-- C13 (failing input). `EPSSetProblemType(eps, EPS_PGNHEP)` gives a generalized
problem that is not Hermitian (`ishermitian = false`) with `ispositive = true`.
For it `EPSSetUp_DAVIDSON` returns success with `sEP = DVD_EP_STD |
DVD_EP_HERMITIAN`, and with that `sEP` the solve block of `dvd_calcpairs_proj`
calls the Hermitian eigensolver `EPSDenseHEP`. -/
theorem EPSSetUp_DAVIDSON_pgnhep_hermitian :
    ∃ eps, EPSSetProblemType (epsConf 100) EPS_PGNHEP = .ok eps ∧
      (eps.isgeneralized = true ∧ eps.ishermitian = false ∧ eps.ispositive = true) ∧
      (EPSSetUp_DAVIDSON_spec eps true).1.sEP =
        { DVD_EP_STD := true, DVD_EP_HERMITIAN := true } ∧
      (∃ r, EPSSetUp_DAVIDSON collabSetup eps dataDefault = .ok r ∧
        r.eps.ishermitian = false ∧ r.dvd.sEP.DVD_EP_HERMITIAN = true ∧
        r.dvd.sEP.DVD_EP_STD = true) ∧
      (∃ d1, dvd_calcpairs_proj_solve realBuild collabZ
          { dashZ with sEP := (EPSSetUp_DAVIDSON_spec eps true).1.sEP } = .ok d1 ∧
        d1.trace = [Call.EPSDenseHEP 1] ∧
        d1.calcpairs_selectPairs = some .dvd_calcpairs_selectPairs_eig) :=
  ⟨_, rfl, by decide, by decide, ⟨_, rfl, by decide, by decide, by decide⟩,
    ⟨_, rfl, by decide, by decide⟩⟩

/-- A successful bind in `Except PetscError` has a successful first step. -/
theorem bindE_ok_inv {α β : Type} (e : Except PetscError α) (f : α → Except PetscError β)
    (b : β) (h : (e >>= f) = .ok b) : ∃ a, e = .ok a ∧ f a = .ok b := by
  cases e with
  | error err => simp [bind, Except.bind] at h
  | ok a => exact ⟨a, rfl, h⟩

/-- Lines 72-92 of `EPSSetUp_DAVIDSON` do not write `eps->extraction`. -/
theorem EPSSetUp_DAVIDSON_dims_extraction (eps : EPS_conf) (data : EPS_DAVIDSON)
    (s : SetupDims) (h : EPSSetUp_DAVIDSON_dims eps data = .ok s) :
    s.eps.extraction = eps.extraction := by
  unfold EPSSetUp_DAVIDSON_dims at h
  obtain ⟨e1, h1, h⟩ := bindE_ok_inv _ _ _ h
  obtain ⟨e2, h2, h⟩ := bindE_ok_inv _ _ _ h
  have a1 : e1.extraction = eps.extraction := by
    unfold EPSSetUp_DAVIDSON_ncv at h1
    repeat' split at h1
    all_goals first
      | (cases h1; rfl)
      | cases h1
  have a2 : e2.extraction = e1.extraction := by
    unfold EPSSetUp_DAVIDSON_max_it at h2
    repeat' split at h2
    all_goals first
      | (cases h2; rfl)
      | cases h2
  simp only [] at h
  repeat' split at h
  all_goals first
    | (cases h; exact a2.trans a1)
    | cases h

/-- The lines before the switch on the extraction do not write `eps->extraction`. -/
theorem EPSSetUp_DAVIDSON_begin_extraction (x : SetupCollab) (eps : EPS_conf)
    (data : EPS_DAVIDSON) (s : SetupSpec) (h : EPSSetUp_DAVIDSON_begin x eps data = .ok s) :
    s.dims.eps.extraction = eps.extraction := by
  unfold EPSSetUp_DAVIDSON_begin at h
  obtain ⟨dims, h1, h⟩ := bindE_ok_inv _ _ _ h
  obtain ⟨r, -, h⟩ := bindE_ok_inv _ _ _ h
  obtain ⟨u1, -, h⟩ := bindE_ok_inv _ _ _ h
  obtain ⟨u2, -, h⟩ := bindE_ok_inv _ _ _ h
  cases h
  exact EPSSetUp_DAVIDSON_dims_extraction eps data dims h1

/-- C20. In a call of `EPSSetUp_DAVIDSON` that reaches the switch on
`eps->extraction` (lines 72-170 succeed, leaving `s`): the harmonic type passed to
the configuration is `DVD_HARM_NONE` for an unset extraction or `EPS_RITZ`,
`DVD_HARM_RR` for `EPS_HARMONIC`, `DVD_HARM_RRR` for `EPS_HARMONIC_RELATIVE`,
`DVD_HARM_REIGS` for `EPS_HARMONIC_RIGHT` and `DVD_HARM_LEIGS` for
`EPS_HARMONIC_LARGEST`; for every other value, among them `EPS_REFINED` and
`EPS_REFINED_HARMONIC`, the call returns the error `PETSC_ERR_SUP`, whatever the
problem flags and whatever the configuration routines are, which are not
reached. -/
theorem EPSSetUp_DAVIDSON_extraction (x : SetupCollab) (eps : EPS_conf) (data : EPS_DAVIDSON)
    (s : SetupSpec) (hbegin : EPSSetUp_DAVIDSON_begin x eps data = .ok s) :
    (∀ r, EPSSetUp_DAVIDSON x eps data = .ok r →
      ((eps.extraction = 0 ∨ eps.extraction = EPS_RITZ) → r.args.harm = .DVD_HARM_NONE) ∧
      (eps.extraction = EPS_HARMONIC → r.args.harm = .DVD_HARM_RR) ∧
      (eps.extraction = EPS_HARMONIC_RELATIVE → r.args.harm = .DVD_HARM_RRR) ∧
      (eps.extraction = EPS_HARMONIC_RIGHT → r.args.harm = .DVD_HARM_REIGS) ∧
      (eps.extraction = EPS_HARMONIC_LARGEST → r.args.harm = .DVD_HARM_LEIGS)) ∧
    (EPSSetUp_DAVIDSON_harm 0 = .ok .DVD_HARM_NONE ∧
      EPSSetUp_DAVIDSON_harm EPS_RITZ = .ok .DVD_HARM_NONE ∧
      EPSSetUp_DAVIDSON_harm EPS_HARMONIC = .ok .DVD_HARM_RR ∧
      EPSSetUp_DAVIDSON_harm EPS_HARMONIC_RELATIVE = .ok .DVD_HARM_RRR ∧
      EPSSetUp_DAVIDSON_harm EPS_HARMONIC_RIGHT = .ok .DVD_HARM_REIGS ∧
      EPSSetUp_DAVIDSON_harm EPS_HARMONIC_LARGEST = .ok .DVD_HARM_LEIGS) ∧
    ((eps.extraction < 0 ∨ EPS_HARMONIC_LARGEST < eps.extraction) →
      EPSSetUp_DAVIDSON x eps data =
        .error ⟨.PETSC_ERR_SUP, "Unsupported extraction type"⟩) ∧
    ((eps.extraction = EPS_REFINED ∨ eps.extraction = EPS_REFINED_HARMONIC) →
      EPSSetUp_DAVIDSON x eps data =
        .error ⟨.PETSC_ERR_SUP, "Unsupported extraction type"⟩) := by
  have hext := EPSSetUp_DAVIDSON_begin_extraction x eps data s hbegin
  have hbad : (eps.extraction < 0 ∨ EPS_HARMONIC_LARGEST < eps.extraction) →
      EPSSetUp_DAVIDSON x eps data =
        .error ⟨.PETSC_ERR_SUP, "Unsupported extraction type"⟩ := by
    intro hv
    have hh : EPSSetUp_DAVIDSON_harm s.dims.eps.extraction =
        .error ⟨.PETSC_ERR_SUP, "Unsupported extraction type"⟩ := by
      rw [hext]
      unfold EPSSetUp_DAVIDSON_harm EPS_RITZ EPS_HARMONIC EPS_HARMONIC_RELATIVE
        EPS_HARMONIC_RIGHT EPS_HARMONIC_LARGEST
      unfold EPS_HARMONIC_LARGEST at hv
      rw [if_neg (by omega), if_neg (by omega), if_neg (by omega), if_neg (by omega),
        if_neg (by omega)]
      rfl
    simp [EPSSetUp_DAVIDSON, hbegin, hh, bind, Except.bind]
  refine ⟨?_, ⟨rfl, rfl, rfl, rfl, rfl, rfl⟩, hbad, ?_⟩
  · intro r hr
    unfold EPSSetUp_DAVIDSON at hr
    rw [hbegin] at hr
    obtain ⟨s1, hs1, hr⟩ := bindE_ok_inv _ _ _ hr
    cases hs1
    obtain ⟨harm, h1, hr⟩ := bindE_ok_inv _ _ _ hr
    obtain ⟨u1, -, hr⟩ := bindE_ok_inv _ _ _ hr
    obtain ⟨u2, -, hr⟩ := bindE_ok_inv _ _ _ hr
    obtain ⟨u3, -, hr⟩ := bindE_ok_inv _ _ _ hr
    obtain ⟨u4, -, hr⟩ := bindE_ok_inv _ _ _ hr
    obtain ⟨b, -, hr⟩ := bindE_ok_inv _ _ _ hr
    obtain ⟨u5, -, hr⟩ := bindE_ok_inv _ _ _ hr
    obtain ⟨u6, -, hr⟩ := bindE_ok_inv _ _ _ hr
    obtain ⟨u7, -, hr⟩ := bindE_ok_inv _ _ _ hr
    obtain ⟨b2, -, hr⟩ := bindE_ok_inv _ _ _ hr
    cases hr
    rw [hext] at h1
    simp only
    unfold EPSSetUp_DAVIDSON_harm EPS_RITZ EPS_HARMONIC EPS_HARMONIC_RELATIVE
      EPS_HARMONIC_RIGHT EPS_HARMONIC_LARGEST at h1
    unfold EPS_RITZ EPS_HARMONIC EPS_HARMONIC_RELATIVE EPS_HARMONIC_RIGHT EPS_HARMONIC_LARGEST
    refine ⟨?_, ?_, ?_, ?_, ?_⟩
    · intro hv
      rw [if_pos hv] at h1
      cases h1
      rfl
    · intro hv
      rw [if_neg (by omega), if_pos hv] at h1
      cases h1
      rfl
    · intro hv
      rw [if_neg (by omega), if_neg (by omega), if_pos hv] at h1
      cases h1
      rfl
    · intro hv
      rw [if_neg (by omega), if_neg (by omega), if_neg (by omega), if_pos hv] at h1
      cases h1
      rfl
    · intro hv
      rw [if_neg (by omega), if_neg (by omega), if_neg (by omega), if_neg (by omega),
        if_pos hv] at h1
      cases h1
      rfl
  · intro hv
    apply hbad
    unfold EPS_REFINED EPS_REFINED_HARMONIC at hv
    unfold EPS_HARMONIC_LARGEST
    omega

/-- C20, evaluated: with `EPS_REFINED` the setup of a problem of dimension 100
passes lines 72-170 and returns `PETSC_ERR_SUP`; with `EPS_HARMONIC` it returns
success and configures with `DVD_HARM_RR`. -/
theorem EPSSetUp_DAVIDSON_extraction_witness :
    (∃ s, EPSSetUp_DAVIDSON_begin collabSetup { epsConf 100 with extraction := EPS_REFINED }
        dataDefault = .ok s) ∧
    EPSSetUp_DAVIDSON collabSetup { epsConf 100 with extraction := EPS_REFINED } dataDefault =
      .error ⟨.PETSC_ERR_SUP, "Unsupported extraction type"⟩ ∧
    (∃ r, EPSSetUp_DAVIDSON collabSetup { epsConf 100 with extraction := EPS_HARMONIC }
        dataDefault = .ok r ∧ r.args.harm = .DVD_HARM_RR) :=
  ⟨⟨_, rfl⟩,
    (EPSSetUp_DAVIDSON_extraction collabSetup { epsConf 100 with extraction := EPS_REFINED }
      dataDefault _ rfl).2.2.2 (Or.inl rfl),
    ⟨_, rfl, by decide⟩⟩

section SelectPairsThms

variable {R E : Type} [Field R] [StarRing R] [DecidableEq R]

/-- One pass of the body of the loop of lines 595-602, by entries: only the
column `i` changes, and only when its diagonal entry has an imaginary part. -/
theorem qz_rotate_entries (ops : ScalarOps R) (size_H i : Int) (m : DMat R × DMat R × DMat R) :
    (∀ j c, (qz_rotate ops size_H i m).1 j c =
      if c = i ∧ ops.PetscImaginaryPart (m.1 c c) ≠ 0 ∧ 0 ≤ j ∧ j ≤ c then
        ops.PetscRealPart (m.1 j c * phase ops (m.1 c c)) else m.1 j c) ∧
    (∀ j c, (qz_rotate ops size_H i m).2.1 j c =
      if c = i ∧ ops.PetscImaginaryPart (m.1 c c) ≠ 0 ∧ 0 ≤ j ∧ j ≤ c then
        m.2.1 j c * phase ops (m.1 c c) else m.2.1 j c) ∧
    (∀ j c, (qz_rotate ops size_H i m).2.2 j c =
      if c = i ∧ ops.PetscImaginaryPart (m.1 c c) ≠ 0 ∧ 0 ≤ j ∧ j < size_H then
        m.2.2 j c * phase ops (m.1 c c) else m.2.2 j c) := by
  unfold qz_rotate phase
  by_cases h : ops.PetscImaginaryPart (m.1 i i) ≠ 0
  · rw [if_pos h]
    refine ⟨?_, ?_, ?_⟩ <;> intro j c <;> by_cases hc : c = i
    · subst hc
      exact if_congr ⟨fun hh => ⟨rfl, h, hh.2⟩, fun hh => ⟨rfl, hh.2.2⟩⟩ rfl rfl
    · rw [if_neg (fun hh => hc hh.1)]
      exact if_neg (fun hh => hc hh.1)
    · subst hc
      exact if_congr ⟨fun hh => ⟨rfl, h, hh.2⟩, fun hh => ⟨rfl, hh.2.2⟩⟩ rfl rfl
    · rw [if_neg (fun hh => hc hh.1)]
      exact if_neg (fun hh => hc hh.1)
    · subst hc
      exact if_congr ⟨fun hh => ⟨rfl, h, hh.2⟩, fun hh => ⟨rfl, hh.2.2⟩⟩ rfl rfl
    · rw [if_neg (fun hh => hc hh.1)]
      exact if_neg (fun hh => hc hh.1)
  · rw [if_neg h]
    refine ⟨?_, ?_, ?_⟩ <;> intro j c <;> by_cases hc : c = i
    · subst hc
      rw [if_neg (fun hh => h hh.2.1)]
    · rw [if_neg (fun hh => hc hh.1)]
    · subst hc
      rw [if_neg (fun hh => h hh.2.1)]
    · rw [if_neg (fun hh => hc hh.1)]
    · subst hc
      rw [if_neg (fun hh => h hh.2.1)]
    · rw [if_neg (fun hh => hc hh.1)]

/-- The loop of lines 595-602 over the columns `i0 .. i0+n-1`, by entries: a
column in that range whose diagonal entry `t` has an imaginary part gets, with
`s = conj(t)/|t|`, the real part of `T*s` in its rows `0..c` of `T`, `S*s` in its
rows `0..c` of `S`, and `pX*s` in its rows `0..size_H-1` of `pX`; every other
entry is left as it was. -/
theorem qz_rotate_all_entries (ops : ScalarOps R) (size_H : Int) :
    ∀ (n : Nat) (i0 : Int) (m : DMat R × DMat R × DMat R),
    (∀ j c, (qz_rotate_all ops size_H n i0 m).1 j c =
      if (i0 ≤ c ∧ c < i0 + n) ∧ ops.PetscImaginaryPart (m.1 c c) ≠ 0 ∧ 0 ≤ j ∧ j ≤ c then
        ops.PetscRealPart (m.1 j c * phase ops (m.1 c c)) else m.1 j c) ∧
    (∀ j c, (qz_rotate_all ops size_H n i0 m).2.1 j c =
      if (i0 ≤ c ∧ c < i0 + n) ∧ ops.PetscImaginaryPart (m.1 c c) ≠ 0 ∧ 0 ≤ j ∧ j ≤ c then
        m.2.1 j c * phase ops (m.1 c c) else m.2.1 j c) ∧
    (∀ j c, (qz_rotate_all ops size_H n i0 m).2.2 j c =
      if (i0 ≤ c ∧ c < i0 + n) ∧ ops.PetscImaginaryPart (m.1 c c) ≠ 0 ∧ 0 ≤ j ∧ j < size_H then
        m.2.2 j c * phase ops (m.1 c c) else m.2.2 j c) := by
  intro n
  induction n with
  | zero =>
    intro i0 m
    have hno : ∀ c : Int, ¬ (i0 ≤ c ∧ c < i0 + ((0 : Nat) : Int)) := by
      intro c hh
      have := hh.2
      simp only [Nat.cast_zero, add_zero] at this
      omega
    refine ⟨?_, ?_, ?_⟩ <;> intro j c <;> rw [if_neg (fun hh => hno c hh.1)] <;> rfl
  | succ n ih =>
    intro i0 m
    obtain ⟨ih1, ih2, ih3⟩ := ih (i0 + 1) (qz_rotate ops size_H i0 m)
    obtain ⟨st1, st2, st3⟩ := qz_rotate_entries ops size_H i0 m
    have hsame : ∀ c : Int, c ≠ i0 →
        (∀ j, (qz_rotate ops size_H i0 m).1 j c = m.1 j c) ∧
        (∀ j, (qz_rotate ops size_H i0 m).2.1 j c = m.2.1 j c) ∧
        (∀ j, (qz_rotate ops size_H i0 m).2.2 j c = m.2.2 j c) := by
      intro c hc
      refine ⟨?_, ?_, ?_⟩ <;> intro j
      · rw [st1, if_neg (fun hh => hc hh.1)]
      · rw [st2, if_neg (fun hh => hc hh.1)]
      · rw [st3, if_neg (fun hh => hc hh.1)]
    have hrange : ∀ c : Int, c ≠ i0 →
        ((i0 + 1 ≤ c ∧ c < i0 + 1 + (n : Int)) ↔ (i0 ≤ c ∧ c < i0 + ((n + 1 : Nat) : Int))) := by
      intro c hc
      push_cast
      omega
    have hnot : ¬ (i0 + 1 ≤ i0 ∧ i0 < i0 + 1 + (n : Int)) := by omega
    have hin : i0 ≤ i0 ∧ i0 < i0 + ((n + 1 : Nat) : Int) := by
      push_cast
      omega
    refine ⟨?_, ?_, ?_⟩ <;> intro j c <;> by_cases hc : c = i0
    · subst hc
      show (qz_rotate_all ops size_H n (c + 1) (qz_rotate ops size_H c m)).1 j c = _
      rw [ih1, if_neg (fun hh => hnot hh.1), st1]
      exact if_congr ⟨fun hh => ⟨hin, hh.2⟩, fun hh => ⟨rfl, hh.2⟩⟩ rfl rfl
    · obtain ⟨e1, e2, e3⟩ := hsame c hc
      show (qz_rotate_all ops size_H n (i0 + 1) (qz_rotate ops size_H i0 m)).1 j c = _
      rw [ih1, e1, e1]
      exact if_congr ⟨fun hh => ⟨(hrange c hc).1 hh.1, hh.2⟩,
        fun hh => ⟨(hrange c hc).2 hh.1, hh.2⟩⟩ rfl rfl
    · subst hc
      show (qz_rotate_all ops size_H n (c + 1) (qz_rotate ops size_H c m)).2.1 j c = _
      rw [ih2, if_neg (fun hh => hnot hh.1), st2]
      exact if_congr ⟨fun hh => ⟨hin, hh.2⟩, fun hh => ⟨rfl, hh.2⟩⟩ rfl rfl
    · obtain ⟨e1, e2, e3⟩ := hsame c hc
      show (qz_rotate_all ops size_H n (i0 + 1) (qz_rotate ops size_H i0 m)).2.1 j c = _
      rw [ih2, e1, e2]
      exact if_congr ⟨fun hh => ⟨(hrange c hc).1 hh.1, hh.2⟩,
        fun hh => ⟨(hrange c hc).2 hh.1, hh.2⟩⟩ rfl rfl
    · subst hc
      show (qz_rotate_all ops size_H n (c + 1) (qz_rotate ops size_H c m)).2.2 j c = _
      rw [ih3, if_neg (fun hh => hnot hh.1), st3]
      exact if_congr ⟨fun hh => ⟨hin, hh.2⟩, fun hh => ⟨rfl, hh.2⟩⟩ rfl rfl
    · obtain ⟨e1, e2, e3⟩ := hsame c hc
      show (qz_rotate_all ops size_H n (i0 + 1) (qz_rotate ops size_H i0 m)).2.2 j c = _
      rw [ih3, e1, e3]
      exact if_congr ⟨fun hh => ⟨(hrange c hc).1 hh.1, hh.2⟩,
        fun hh => ⟨(hrange c hc).2 hh.1, hh.2⟩⟩ rfl rfl

/-- The fix-up pass of lines 593-603 on a dashboard that holds `T`, by entries;
the size of the projected problem is not changed. -/
theorem dvd_calcpairs_selectPairs_qz_real_entries (ops : ScalarOps R) (d0 : dvdDashboard R E)
    (T0 : DMat R) (hT : d0.T = some T0) :
    ∃ T1, (dvd_calcpairs_selectPairs_qz_real ops d0).T = some T1 ∧
      (∀ j c, T1 j c =
        if (0 ≤ c ∧ c < d0.size_H) ∧ ops.PetscImaginaryPart (T0 c c) ≠ 0 ∧ 0 ≤ j ∧ j ≤ c then
          ops.PetscRealPart (T0 j c * phase ops (T0 c c)) else T0 j c) ∧
      (∀ j c, (dvd_calcpairs_selectPairs_qz_real ops d0).S j c =
        if (0 ≤ c ∧ c < d0.size_H) ∧ ops.PetscImaginaryPart (T0 c c) ≠ 0 ∧ 0 ≤ j ∧ j ≤ c then
          d0.S j c * phase ops (T0 c c) else d0.S j c) ∧
      (∀ j c, (dvd_calcpairs_selectPairs_qz_real ops d0).pX j c =
        if (0 ≤ c ∧ c < d0.size_H) ∧ ops.PetscImaginaryPart (T0 c c) ≠ 0 ∧ 0 ≤ j ∧
            j < d0.size_H then
          d0.pX j c * phase ops (T0 c c) else d0.pX j c) := by
  obtain ⟨a1, a2, a3⟩ := qz_rotate_all_entries ops d0.size_H d0.size_H.toNat 0 (T0, d0.S, d0.pX)
  have hrange : ∀ c : Int, ((0 ≤ c ∧ c < 0 + (d0.size_H.toNat : Int)) ↔ (0 ≤ c ∧ c < d0.size_H)) := by
    intro c
    omega
  unfold dvd_calcpairs_selectPairs_qz_real
  rw [hT]
  refine ⟨_, rfl, ?_, ?_, ?_⟩ <;> intro j c
  · rw [a1]
    exact if_congr ⟨fun hh => ⟨(hrange c).1 hh.1, hh.2⟩, fun hh => ⟨(hrange c).2 hh.1, hh.2⟩⟩
      rfl rfl
  · show (qz_rotate_all ops d0.size_H d0.size_H.toNat 0 (T0, d0.S, d0.pX)).2.1 j c = _
    rw [a2]
    exact if_congr ⟨fun hh => ⟨(hrange c).1 hh.1, hh.2⟩, fun hh => ⟨(hrange c).2 hh.1, hh.2⟩⟩
      rfl rfl
  · show (qz_rotate_all ops d0.size_H d0.size_H.toNat 0 (T0, d0.S, d0.pX)).2.2 j c = _
    rw [a3]
    exact if_congr ⟨fun hh => ⟨(hrange c).1 hh.1, hh.2⟩, fun hh => ⟨(hrange c).2 hh.1, hh.2⟩⟩
      rfl rfl

/-- Where `PetscAbsScalar` is the modulus of `t`, the product of `t` and its phase
`conj(t)/|t|` is `|t|`, and the phase has modulus one. -/
theorem phase_mul (ops : ScalarOps R) (t : R) (h : modulusAt ops t) :
    t * phase ops t = ops.PetscAbsScalar t ∧ phase ops t * star (phase ops t) = 1 := by
  obtain ⟨h1, h2, -, h4⟩ := h
  unfold phase
  constructor
  · rw [← mul_div_assoc, h1, mul_div_assoc, div_self h2, mul_one]
  · rw [star_div₀, star_star, h4, div_mul_div_comm, mul_comm (star t) t, h1, div_self]
    exact mul_ne_zero h2 h2

/-- The complex build runs the fix-up pass on what the sorting leaves. -/
theorem dvd_calcpairs_selectPairs_qz_complex (cfg : Build) (ops : ScalarOps R)
    (y : SortCollab R E) (d d0 : dvdDashboard R E) (n : Int)
    (hc : cfg.PETSC_USE_COMPLEX = true)
    (hsort : dvd_calcpairs_selectPairs_qz_sort y d n = .ok d0) :
    dvd_calcpairs_selectPairs_qz cfg ops y d n = .ok (dvd_calcpairs_selectPairs_qz_real ops d0) := by
  unfold dvd_calcpairs_selectPairs_qz
  rw [hsort, hc]
  rfl

/-- C14. In the complex build, let the sorting of `dvd_calcpairs_selectPairs_qz`
(lines 573-591) leave the dashboard `d0` with the factor `T0` (a generalized
problem), and let the real and the imaginary part obey `realPartLaws`. Then the
call succeeds and leaves a factor `T1` in which every diagonal entry `T1[i][i]`,
`0 <= i < size_H`, has zero imaginary part: an entry of `T0` without imaginary part
is left as it was, and an entry `t` with an imaginary part is replaced by the real
part of `t*s` with `s = conj(t)/|t|`, which is `|t|` where `PetscAbsScalar` is the
modulus of `t`, and then `s` has modulus one. -/
theorem dvd_calcpairs_selectPairs_qz_diag_real (cfg : Build) (ops : ScalarOps R)
    (y : SortCollab R E) (d d0 : dvdDashboard R E) (n : Int) (T0 : DMat R)
    (hc : cfg.PETSC_USE_COMPLEX = true) (hlaws : realPartLaws ops)
    (hsort : dvd_calcpairs_selectPairs_qz_sort y d n = .ok d0) (hT : d0.T = some T0) :
    ∃ d1 T1, dvd_calcpairs_selectPairs_qz cfg ops y d n = .ok d1 ∧ d1.T = some T1 ∧
      ∀ i, 0 ≤ i → i < d0.size_H →
        ops.PetscImaginaryPart (T1 i i) = 0 ∧
        (ops.PetscImaginaryPart (T0 i i) = 0 → T1 i i = T0 i i) ∧
        (ops.PetscImaginaryPart (T0 i i) ≠ 0 →
          T1 i i = ops.PetscRealPart (T0 i i * phase ops (T0 i i)) ∧
          (modulusAt ops (T0 i i) →
            T1 i i = ops.PetscAbsScalar (T0 i i) ∧
            phase ops (T0 i i) * star (phase ops (T0 i i)) = 1)) := by
  obtain ⟨T1, hT1, e1, -, -⟩ := dvd_calcpairs_selectPairs_qz_real_entries ops d0 T0 hT
  refine ⟨_, T1, dvd_calcpairs_selectPairs_qz_complex cfg ops y d d0 n hc hsort, hT1, ?_⟩
  intro i hi0 hi1
  by_cases him : ops.PetscImaginaryPart (T0 i i) = 0
  · have e : T1 i i = T0 i i := by
      rw [e1, if_neg (fun hh => hh.2.1 him)]
    exact ⟨by rw [e]; exact him, fun _ => e, fun hne => absurd him hne⟩
  · have e : T1 i i = ops.PetscRealPart (T0 i i * phase ops (T0 i i)) := by
      rw [e1, if_pos ⟨⟨hi0, hi1⟩, him, hi0, le_refl i⟩]
    refine ⟨by rw [e]; exact hlaws.1 _, fun h0 => absurd h0 him, fun _ => ⟨e, ?_⟩⟩
    intro hmod
    obtain ⟨p1, p2⟩ := phase_mul ops (T0 i i) hmod
    refine ⟨?_, p2⟩
    rw [e, p1]
    exact hlaws.2 _ hmod.2.2.1

/-- C15 (amended). In the complex build, let the sorting of
`dvd_calcpairs_selectPairs_qz` leave the dashboard `d0` with the factor `T0`. Then
the call succeeds, and for every column `i`, `0 <= i < size_H`, whose diagonal
entry `T0[i][i]` has an imaginary part, with `s = conj(T0[i][i])/|T0[i][i]|`: rows
`0..i` of column `i` of `S` and rows `0..size_H-1` of column `i` of `pX` are the
original entries multiplied by `s`, and rows `0..i` of column `i` of `T` are the
real parts of the original entries multiplied by `s`. -/
theorem dvd_calcpairs_selectPairs_qz_rotation (cfg : Build) (ops : ScalarOps R)
    (y : SortCollab R E) (d d0 : dvdDashboard R E) (n : Int) (T0 : DMat R)
    (hc : cfg.PETSC_USE_COMPLEX = true)
    (hsort : dvd_calcpairs_selectPairs_qz_sort y d n = .ok d0) (hT : d0.T = some T0) :
    ∃ d1 T1, dvd_calcpairs_selectPairs_qz cfg ops y d n = .ok d1 ∧ d1.T = some T1 ∧
      ∀ i, 0 ≤ i → i < d0.size_H → ops.PetscImaginaryPart (T0 i i) ≠ 0 →
        (∀ j, 0 ≤ j → j ≤ i →
          T1 j i = ops.PetscRealPart (T0 j i * phase ops (T0 i i)) ∧
          d1.S j i = d0.S j i * phase ops (T0 i i)) ∧
        (∀ j, 0 ≤ j → j < d0.size_H → d1.pX j i = d0.pX j i * phase ops (T0 i i)) := by
  obtain ⟨T1, hT1, e1, e2, e3⟩ := dvd_calcpairs_selectPairs_qz_real_entries ops d0 T0 hT
  refine ⟨_, T1, dvd_calcpairs_selectPairs_qz_complex cfg ops y d d0 n hc hsort, hT1, ?_⟩
  intro i hi0 hi1 him
  refine ⟨fun j hj0 hj1 => ⟨?_, ?_⟩, fun j hj0 hj1 => ?_⟩
  · rw [e1, if_pos ⟨⟨hi0, hi1⟩, him, hj0, hj1⟩]
  · rw [e2, if_pos ⟨⟨hi0, hi1⟩, him, hj0, hj1⟩]
  · rw [e3, if_pos ⟨⟨hi0, hi1⟩, him, hj0, hj1⟩]

end SelectPairsThms

/-- The operations `opsQI` obey the laws of the real and the imaginary part. -/
theorem opsQI_realPartLaws : realPartLaws opsQI := by
  refine ⟨fun z => rfl, fun z h => ?_⟩
  have him : z.im = 0 := congrArg QI.re h
  exact QI.ext rfl him.symm

/-- C14, evaluated on `dashQI`: the call leaves the real diagonal entry `2` as it
was and replaces `3+4i`, whose modulus `PetscAbsScalar` gives as `5`, by `5`. -/
theorem dvd_calcpairs_selectPairs_qz_diag_real_witness :
    complexBuild.PETSC_USE_COMPLEX = true ∧ realPartLaws opsQI ∧
    dvd_calcpairs_selectPairs_qz_sort sortQI dashQI 2 = .ok dashQI ∧ dashQI.T = some TQI ∧
    dvd_calcpairs_selectPairs_qz complexBuild opsQI sortQI dashQI 2 = .ok dashQI1 ∧
    dashQI1.T = some TQI1 ∧ modulusAt opsQI (TQI 1 1) ∧
    TQI 0 0 = ⟨2, 0⟩ ∧ TQI1 0 0 = ⟨2, 0⟩ ∧ TQI 1 1 = ⟨3, 4⟩ ∧ TQI1 1 1 = ⟨5, 0⟩ ∧
    (∃ d1 T1, dvd_calcpairs_selectPairs_qz complexBuild opsQI sortQI dashQI 2 = .ok d1 ∧
      d1.T = some T1 ∧
      ∀ i, 0 ≤ i → i < dashQI.size_H →
        opsQI.PetscImaginaryPart (T1 i i) = 0 ∧
        (opsQI.PetscImaginaryPart (TQI i i) = 0 → T1 i i = TQI i i) ∧
        (opsQI.PetscImaginaryPart (TQI i i) ≠ 0 →
          T1 i i = opsQI.PetscRealPart (TQI i i * phase opsQI (TQI i i)) ∧
          (modulusAt opsQI (TQI i i) →
            T1 i i = opsQI.PetscAbsScalar (TQI i i) ∧
            phase opsQI (TQI i i) * star (phase opsQI (TQI i i)) = 1))) :=
  ⟨rfl, opsQI_realPartLaws, rfl, rfl, by with_unfolding_all rfl, by with_unfolding_all rfl,
    by unfold modulusAt; with_unfolding_all decide,
    by with_unfolding_all decide, by with_unfolding_all decide, by with_unfolding_all decide,
    by with_unfolding_all decide,
    dvd_calcpairs_selectPairs_qz_diag_real complexBuild opsQI sortQI dashQI dashQI 2 TQI rfl
      opsQI_realPartLaws rfl rfl⟩

/-- C15, evaluated on `dashQI`: the column `1`, whose diagonal entry is `3+4i`, is
rotated by `s = (3-4i)/5`. -/
theorem dvd_calcpairs_selectPairs_qz_rotation_witness :
    complexBuild.PETSC_USE_COMPLEX = true ∧
    dvd_calcpairs_selectPairs_qz_sort sortQI dashQI 2 = .ok dashQI ∧ dashQI.T = some TQI ∧
    phase opsQI (TQI 1 1) = ⟨3 / 5, -4 / 5⟩ ∧
    (∃ d1 T1, dvd_calcpairs_selectPairs_qz complexBuild opsQI sortQI dashQI 2 = .ok d1 ∧
      d1.T = some T1 ∧
      ∀ i, 0 ≤ i → i < dashQI.size_H → opsQI.PetscImaginaryPart (TQI i i) ≠ 0 →
        (∀ j, 0 ≤ j → j ≤ i →
          T1 j i = opsQI.PetscRealPart (TQI j i * phase opsQI (TQI i i)) ∧
          d1.S j i = dashQI.S j i * phase opsQI (TQI i i)) ∧
        (∀ j, 0 ≤ j → j < dashQI.size_H →
          d1.pX j i = dashQI.pX j i * phase opsQI (TQI i i))) :=
  ⟨rfl, rfl, rfl, by with_unfolding_all decide,
    dvd_calcpairs_selectPairs_qz_rotation complexBuild opsQI sortQI dashQI dashQI 2 TQI rfl
      rfl rfl⟩

/-- C15 (counterexample). On `dashQI` the column `1` is rotated: its diagonal
entry `3+4i` has an imaginary part and `s = (3-4i)/5`. The entry `T[0][1] = 1` of
that column becomes `3/5`, the real part of `1*s`, and not `1*s = (3-4i)/5`; the
entry `S[0][1] = i` becomes `i*s = (4+3i)/5`. -/
theorem dvd_calcpairs_selectPairs_qz_T_real_part :
    dvd_calcpairs_selectPairs_qz_sort sortQI dashQI 2 = .ok dashQI ∧ dashQI.T = some TQI ∧
    dvd_calcpairs_selectPairs_qz complexBuild opsQI sortQI dashQI 2 = .ok dashQI1 ∧
    dashQI1.T = some TQI1 ∧
    opsQI.PetscImaginaryPart (TQI 1 1) ≠ 0 ∧ phase opsQI (TQI 1 1) = ⟨3 / 5, -4 / 5⟩ ∧
    TQI 0 1 * phase opsQI (TQI 1 1) = ⟨3 / 5, -4 / 5⟩ ∧ TQI1 0 1 = ⟨3 / 5, 0⟩ ∧
    TQI1 0 1 ≠ TQI 0 1 * phase opsQI (TQI 1 1) ∧
    dashQI1.S 0 1 = dashQI.S 0 1 * phase opsQI (TQI 1 1) :=
  ⟨rfl, rfl, by with_unfolding_all rfl, by with_unfolding_all rfl,
    by with_unfolding_all decide, by with_unfolding_all decide, by with_unfolding_all decide,
    by with_unfolding_all decide, by with_unfolding_all decide, by with_unfolding_all decide⟩

/-- The second and the third block of `EPSSetBalance`: an argument other than
`PETSC_IGNORE` is stored as it is, also when it is `PETSC_DECIDE` or
`PETSC_DEFAULT`, and `PETSC_IGNORE` leaves the stored value. -/
theorem EPSSetBalance_its_cutoff (c : PetscConsts) (eps : EPS_balance) (its : Int)
    (cutoff : ℚ) :
    (its ≠ c.PETSC_IGNORE → (EPSSetBalance_its c eps its).balance_its = its) ∧
    (its = c.PETSC_IGNORE → EPSSetBalance_its c eps its = eps) ∧
    (cutoff ≠ (c.PETSC_IGNORE : ℚ) →
      (EPSSetBalance_cutoff c eps cutoff).balance_cutoff = cutoff) ∧
    (cutoff = (c.PETSC_IGNORE : ℚ) → EPSSetBalance_cutoff c eps cutoff = eps) := by
  refine ⟨fun h => ?_, fun h => ?_, fun h => ?_, fun h => ?_⟩
  · unfold EPSSetBalance_its
    rw [if_pos h]
  · unfold EPSSetBalance_its
    rw [if_neg (fun hh => hh h)]
  · unfold EPSSetBalance_cutoff
    rw [if_pos h]
  · unfold EPSSetBalance_cutoff
    rw [if_neg (fun hh => hh h)]

/-- C23 (failing input). On `balance0` (7 iterations, cutoff 1/2),
`EPSSetBalance(eps,PETSC_IGNORE,PETSC_DECIDE,PETSC_DECIDE)` returns 0 and
`EPSGetBalance` then returns `its = -1` and `cutoff = -1`, the value of
`PETSC_DECIDE`, not `5` and `1e-8`; with `PETSC_DEFAULT` it returns `-2` and `-2`.
With `PETSC_IGNORE` the stored values are kept. -/
theorem EPSSetBalance_decide_overwritten :
    (EPSSetBalance petscConsts balance0 petscConsts.PETSC_IGNORE petscConsts.PETSC_DECIDE
      (petscConsts.PETSC_DECIDE : ℚ)).ierr = none ∧
    EPSGetBalance (EPSSetBalance petscConsts balance0 petscConsts.PETSC_IGNORE
      petscConsts.PETSC_DECIDE (petscConsts.PETSC_DECIDE : ℚ)).obj
      = (EPS_BALANCE_NONE, -1, -1) ∧
    (EPSGetBalance (EPSSetBalance petscConsts balance0 petscConsts.PETSC_IGNORE
      petscConsts.PETSC_DECIDE (petscConsts.PETSC_DECIDE : ℚ)).obj).2.1 ≠ 5 ∧
    (EPSGetBalance (EPSSetBalance petscConsts balance0 petscConsts.PETSC_IGNORE
      petscConsts.PETSC_DECIDE (petscConsts.PETSC_DECIDE : ℚ)).obj).2.2 ≠ 1 / 100000000 ∧
    EPSGetBalance (EPSSetBalance petscConsts balance0 petscConsts.PETSC_IGNORE
      petscConsts.PETSC_DEFAULT (petscConsts.PETSC_DEFAULT : ℚ)).obj
      = (EPS_BALANCE_NONE, -2, -2) ∧
    EPSGetBalance (EPSSetBalance petscConsts balance0 petscConsts.PETSC_IGNORE
      petscConsts.PETSC_IGNORE (petscConsts.PETSC_IGNORE : ℚ)).obj
      = (EPS_BALANCE_NONE, 7, 1 / 2) := by
  refine ⟨?_, ?_, ?_, ?_, ?_, ?_⟩ <;> with_unfolding_all decide

/-- The error code of `SVDSetDimensions`, and what it stores: the call fails when
`nsv` is not `PETSC_IGNORE` and is below 1, or when `ncv` is neither
`PETSC_IGNORE` nor `PETSC_DECIDE` and is below 1; `PETSC_IGNORE` keeps the stored
value, and a call that returns 0 stores every other argument. -/
theorem SVDSetDimensions_outcome (c : PetscConsts) (svd : SVD_dims) (nsv ncv : Int) :
    ((SVDSetDimensions c svd nsv ncv).ierr ≠ none ↔
      ((nsv ≠ c.PETSC_IGNORE ∧ nsv < 1) ∨
        (ncv ≠ c.PETSC_IGNORE ∧ ncv < 1 ∧ ncv ≠ c.PETSC_DECIDE))) ∧
    (∀ e, (SVDSetDimensions c svd nsv ncv).ierr = some e →
      e.code = ErrCode.PETSC_ERR_ARG_OUTOFRANGE) ∧
    ((SVDSetDimensions c svd nsv ncv).ierr = none →
      (SVDGetDimensions (SVDSetDimensions c svd nsv ncv).obj).1
        = (if nsv = c.PETSC_IGNORE then svd.nsv else nsv) ∧
      (SVDGetDimensions (SVDSetDimensions c svd nsv ncv).obj).2
        = (if ncv = c.PETSC_IGNORE then svd.ncv else ncv)) := by
  unfold SVDSetDimensions SVDGetDimensions
  by_cases h5 : ncv = c.PETSC_DECIDE
  · subst h5
    by_cases h1 : nsv = c.PETSC_IGNORE <;> by_cases h2 : nsv < 1 <;>
      by_cases h3 : c.PETSC_DECIDE = c.PETSC_IGNORE <;>
      by_cases h4 : c.PETSC_DECIDE < 1 <;> simp [h1, h2, h3, h4]
  · by_cases h1 : nsv = c.PETSC_IGNORE <;> by_cases h2 : nsv < 1 <;>
      by_cases h3 : ncv = c.PETSC_IGNORE <;> by_cases h4 : ncv < 1 <;>
      simp [h1, h2, h3, h4, h5]

/-- C24 (failing input). On `svd0`, `SVDSetDimensions(svd,1,PETSC_DEFAULT)` with
`PETSC_DEFAULT = -2` returns `PETSC_ERR_ARG_OUTOFRANGE` (it has stored `nsv` and
reset `setupcalled` before, and leaves `ncv`); only `PETSC_DECIDE = -1` is
accepted as a request for a solver-chosen `ncv`. -/
theorem SVDSetDimensions_default_refused :
    (1 : Int) ≥ 1 ∧ petscConsts.PETSC_DEFAULT = -2 ∧
    (SVDSetDimensions petscConsts svd0 1 petscConsts.PETSC_DEFAULT).ierr =
      some ⟨.PETSC_ERR_ARG_OUTOFRANGE, "Illegal value of ncv. Must be > 0"⟩ ∧
    (SVDSetDimensions petscConsts svd0 1 petscConsts.PETSC_DEFAULT).obj =
      { nsv := 1, ncv := -1, setupcalled := 0 } ∧
    (SVDSetDimensions petscConsts svd0 1 petscConsts.PETSC_DECIDE).ierr = none ∧
    SVDGetDimensions (SVDSetDimensions petscConsts svd0 1 petscConsts.PETSC_DECIDE).obj
      = (1, -1) := by
  refine ⟨?_, ?_, ?_, ?_, ?_, ?_⟩ <;> decide

/-- Each of the four setters keeps the invariant `DavidsonInv`, and a call that
returns an error leaves the private data as it was. -/
theorem DavidsonCall_run_inv (c : PetscConsts) (data : EPS_DAVIDSON) (k : DavidsonCall) :
    (DavidsonInv data → DavidsonInv (k.run c data).obj) ∧
    (∀ e, (k.run c data).ierr = some e → (k.run c data).obj = data) := by
  unfold DavidsonInv
  cases k with
  | SetBlockSize blocksize =>
    unfold DavidsonCall.run EPSDAVIDSONSetBlockSize_DAVIDSON
    by_cases h1 : blocksize = c.PETSC_DEFAULT ∨ blocksize = c.PETSC_DECIDE
    · simp only [if_pos h1]
      rw [if_neg (by decide)]
      exact ⟨fun h => ⟨le_refl 1, h.2⟩, fun e he => by cases he⟩
    · simp only [if_neg h1]
      by_cases h2 : blocksize ≤ 0
      · rw [if_pos h2]
        exact ⟨fun h => h, fun _ _ => rfl⟩
      · rw [if_neg h2]
        exact ⟨fun h => ⟨by show 1 ≤ blocksize; omega, h.2⟩, fun e he => by cases he⟩
  | SetRestart minv plusk =>
    unfold DavidsonCall.run EPSDAVIDSONSetRestart_DAVIDSON
    simp only []
    by_cases h2 : (if minv = c.PETSC_DEFAULT ∨ minv = c.PETSC_DECIDE then 5 else minv) ≤ 0
    · rw [if_pos h2]
      exact ⟨fun h => h, fun _ _ => rfl⟩
    · rw [if_neg h2]
      by_cases h3 : (if plusk = c.PETSC_DEFAULT ∨ plusk = c.PETSC_DECIDE then 5 else plusk) < 0
      · rw [if_pos h3]
        exact ⟨fun h => h, fun _ _ => rfl⟩
      · rw [if_neg h3]
        refine ⟨fun h => ⟨h.1, ?_, ?_, h.2.2.2⟩, fun e he => by cases he⟩
        · show 1 ≤ (if minv = c.PETSC_DEFAULT ∨ minv = c.PETSC_DECIDE then 5 else minv)
          omega
        · show 0 ≤ (if plusk = c.PETSC_DEFAULT ∨ plusk = c.PETSC_DECIDE then 5 else plusk)
          omega
  | SetInitialSize initialsize =>
    unfold DavidsonCall.run EPSDAVIDSONSetInitialSize_DAVIDSON
    simp only []
    by_cases h2 : (if initialsize = c.PETSC_DEFAULT ∨ initialsize = c.PETSC_DECIDE then 5
        else initialsize) ≤ 0
    · rw [if_pos h2]
      exact ⟨fun h => h, fun _ _ => rfl⟩
    · rw [if_neg h2]
      refine ⟨fun h => ⟨h.1, h.2.1, h.2.2.1, ?_, h.2.2.2.2⟩, fun e he => by cases he⟩
      show 1 ≤ (if initialsize = c.PETSC_DEFAULT ∨ initialsize = c.PETSC_DECIDE then 5
        else initialsize)
      omega
  | SetFix fix =>
    unfold DavidsonCall.run EPSDAVIDSONSetFix_DAVIDSON
    simp only []
    by_cases h2 : (if (fix.isEq (.num c.PETSC_DEFAULT) || fix.isEq (.num c.PETSC_DECIDE)) = true
        then PetscReal.num (1 / 100) else fix).isLt (.num 0) = true
    · rw [if_pos h2]
      exact ⟨fun h => h, fun _ _ => rfl⟩
    · rw [if_neg h2]
      exact ⟨fun h => ⟨h.1, h.2.1, h.2.2.1, h.2.2.2.1, Bool.eq_false_iff.mpr h2⟩,
        fun e he => by cases he⟩

/-- On numbers the comparisons of `PetscReal` are the ones of the rationals, and
every comparison with a NaN is false. -/
theorem PetscReal_compare (a b : ℚ) (r : PetscReal) :
    ((PetscReal.num a).isEq (.num b) = true ↔ a = b) ∧
    ((PetscReal.num a).isLt (.num b) = true ↔ a < b) ∧
    ((PetscReal.num a).isGe (.num b) = true ↔ b ≤ a) ∧
    PetscReal.nan.isEq r = false ∧ PetscReal.nan.isLt r = false ∧
    PetscReal.nan.isGe r = false ∧ r.isGe .nan = false := by
  refine ⟨by simp [PetscReal.isEq], by simp [PetscReal.isLt], ?_, ?_, ?_, ?_, ?_⟩
  · simp only [PetscReal.isGe, PetscReal.isLt, PetscReal.isEq, Bool.or_eq_true,
      decide_eq_true_eq]
    constructor
    · rintro (h | h)
      · exact h.le
      · exact h.ge
    · intro h
      rcases h.lt_or_eq with h | h
      · exact Or.inl h
      · exact Or.inr h.symm
  · cases r <;> rfl
  · cases r <;> rfl
  · cases r <;> rfl
  · cases r <;> rfl

/-- A stored `fix` that is not a NaN and for which `fix < 0.0` is false
satisfies `fix >= 0.0`. -/
theorem PetscReal_isGe_zero (a : PetscReal) (hn : a ≠ .nan) (h : a.isLt (.num 0) = false) :
    a.isGe (.num 0) = true := by
  cases a with
  | num q =>
    have hq : ¬ q < 0 := by simpa [PetscReal.isLt] using h
    exact (PetscReal_compare q 0 .nan).2.2.1.mpr (not_lt.mp hq)
  | inf s =>
    cases s
    · rfl
    · cases h
  | nan => exact absurd rfl hn

/-- A call that is not `EPSDAVIDSONSetFix_DAVIDSON` with a NaN does not store a
NaN in `fix`. -/
theorem DavidsonCall_run_fix (c : PetscConsts) (data : EPS_DAVIDSON) (k : DavidsonCall)
    (hk : k ≠ .SetFix .nan) (hd : data.fix ≠ .nan) : (k.run c data).obj.fix ≠ .nan := by
  cases k with
  | SetBlockSize blocksize =>
    unfold DavidsonCall.run EPSDAVIDSONSetBlockSize_DAVIDSON
    simp only []
    split_ifs <;> exact hd
  | SetRestart minv plusk =>
    unfold DavidsonCall.run EPSDAVIDSONSetRestart_DAVIDSON
    simp only []
    split_ifs <;> exact hd
  | SetInitialSize initialsize =>
    unfold DavidsonCall.run EPSDAVIDSONSetInitialSize_DAVIDSON
    simp only []
    split_ifs <;> exact hd
  | SetFix fix =>
    unfold DavidsonCall.run EPSDAVIDSONSetFix_DAVIDSON
    simp only []
    have hf : fix ≠ .nan := fun e => hk (by rw [e])
    split_ifs
    · exact hd
    · exact fun e => by cases e
    · exact hd
    · exact hf

/-- A sequence of calls none of which passes a NaN to
`EPSDAVIDSONSetFix_DAVIDSON` does not store a NaN in `fix`. -/
theorem runCalls_fix (c : PetscConsts) :
    ∀ (calls : List DavidsonCall) (data : EPS_DAVIDSON),
      (∀ k ∈ calls, k ≠ DavidsonCall.SetFix .nan) → data.fix ≠ .nan →
      (runCalls c data calls).fix ≠ .nan := by
  intro calls
  induction calls with
  | nil => exact fun _ _ h => h
  | cons k ks ih =>
    intro data hk hd
    exact ih _ (fun j hj => hk j (List.mem_cons_of_mem _ hj))
      (DavidsonCall_run_fix c data k (hk k (List.mem_cons_self _ _)) hd)

/-- The invariant holds after any sequence of calls that starts where it holds. -/
theorem runCalls_inv (c : PetscConsts) :
    ∀ (calls : List DavidsonCall) (data : EPS_DAVIDSON),
      DavidsonInv data → DavidsonInv (runCalls c data calls) := by
  intro calls
  induction calls with
  | nil => exact fun _ h => h
  | cons k ks ih => exact fun data h => ih _ ((DavidsonCall_run_inv c data k).1 h)

/-- On `CHKERRQ`, a setter that returns 0 hands over its object. -/
theorem SetOutcome_chk_ok {σ : Type} (r : SetOutcome σ) (a : σ) (h : r.chk = .ok a) :
    r.ierr = none ∧ r.obj = a := by
  unfold SetOutcome.chk at h
  split at h
  · cases h
  · next hn => exact ⟨hn, by cases h; rfl⟩

/-- What `EPSCreate_DAVIDSON` leaves satisfies the invariant, whatever the
memory held before and whatever the values of the PETSc constants. -/
theorem EPSCreate_DAVIDSON_inv (c : PetscConsts) (x : CreateCollab) (raw data0 : EPS_DAVIDSON)
    (h : EPSCreate_DAVIDSON c x raw = .ok data0) : DavidsonInv data0 := by
  unfold EPSCreate_DAVIDSON at h
  obtain ⟨_, -, h⟩ := bindE_ok_inv _ _ _ h
  obtain ⟨_, -, h⟩ := bindE_ok_inv _ _ _ h
  obtain ⟨_, -, h⟩ := bindE_ok_inv _ _ _ h
  simp only [] at h
  obtain ⟨d1, -, h⟩ := bindE_ok_inv _ _ _ h
  obtain ⟨d2, h2, h⟩ := bindE_ok_inv _ _ _ h
  obtain ⟨d3, h3, h⟩ := bindE_ok_inv _ _ _ h
  obtain ⟨d4, h4, h⟩ := bindE_ok_inv _ _ _ h
  obtain ⟨d5, h5, h⟩ := bindE_ok_inv _ _ _ h
  obtain ⟨_, -, h⟩ := bindE_ok_inv _ _ _ h
  have hd : d5 = data0 := by
    cases h
    rfl
  subst hd
  obtain ⟨-, e2⟩ := SetOutcome_chk_ok _ _ h2
  obtain ⟨n3, e3⟩ := SetOutcome_chk_ok _ _ h3
  obtain ⟨n4, e4⟩ := SetOutcome_chk_ok _ _ h4
  obtain ⟨n5, e5⟩ := SetOutcome_chk_ok _ _ h5
  have b2 : 1 ≤ d2.blocksize := by
    rw [← e2]
    unfold EPSDAVIDSONSetBlockSize_DAVIDSON
    by_cases hc : (1 : Int) = c.PETSC_DEFAULT ∨ (1 : Int) = c.PETSC_DECIDE
    · simp only [if_pos hc]
      rw [if_neg (by decide)]
    · simp only [if_neg hc]
      rw [if_neg (by decide)]
  have b3 : 1 ≤ d3.blocksize ∧ 1 ≤ d3.minv ∧ 0 ≤ d3.plusk := by
    rw [← e3]
    unfold EPSDAVIDSONSetRestart_DAVIDSON at n3 ⊢
    simp only [] at n3 ⊢
    by_cases g2 : (if (6 : Int) = c.PETSC_DEFAULT ∨ (6 : Int) = c.PETSC_DECIDE then 5
        else (6 : Int)) ≤ 0
    · rw [if_pos g2] at n3
      cases n3
    · rw [if_neg g2] at n3 ⊢
      by_cases g3 : (if (0 : Int) = c.PETSC_DEFAULT ∨ (0 : Int) = c.PETSC_DECIDE then 5
          else (0 : Int)) < 0
      · rw [if_pos g3] at n3
        cases n3
      · rw [if_neg g3]
        refine ⟨b2, ?_, ?_⟩
        · show 1 ≤ (if (6 : Int) = c.PETSC_DEFAULT ∨ (6 : Int) = c.PETSC_DECIDE then 5
            else (6 : Int))
          omega
        · show 0 ≤ (if (0 : Int) = c.PETSC_DEFAULT ∨ (0 : Int) = c.PETSC_DECIDE then 5
            else (0 : Int))
          omega
  have i3 : DavidsonInv { d3 with initialsize := 1, fix := .num 0 } :=
    ⟨b3.1, b3.2.1, b3.2.2, le_refl 1, by simp [PetscReal.isLt]⟩
  have s4 := DavidsonCall_run_inv c { d3 with initialsize := 1, fix := .num 0 }
    (.SetInitialSize 5)
  have hsame4 : (DavidsonCall.run c { d3 with initialsize := 1, fix := .num 0 }
      (.SetInitialSize 5)).obj = { d4 with fix := .num 0 } := by
    rw [← e4]
    unfold DavidsonCall.run EPSDAVIDSONSetInitialSize_DAVIDSON at *
    simp only [] at n4 ⊢
    by_cases g : (if (5 : Int) = c.PETSC_DEFAULT ∨ (5 : Int) = c.PETSC_DECIDE then 5
        else (5 : Int)) ≤ 0
    · rw [if_pos g] at n4
      cases n4
    · rw [if_neg g, if_neg g]
  have i4 : DavidsonInv { d4 with fix := .num 0 } := hsame4 ▸ s4.1 i3
  have s5 := DavidsonCall_run_inv c { d4 with fix := .num 0 } (.SetFix (.num (1 / 100)))
  have hsame5 : (DavidsonCall.run c { d4 with fix := .num 0 }
      (.SetFix (.num (1 / 100)))).obj = d5 := by
    rw [← e5]
    unfold DavidsonCall.run EPSDAVIDSONSetFix_DAVIDSON at *
    simp only [] at n5 ⊢
    by_cases g : (if ((PetscReal.num (1 / 100)).isEq (.num c.PETSC_DEFAULT) ||
        (PetscReal.num (1 / 100)).isEq (.num c.PETSC_DECIDE)) = true
        then PetscReal.num (1 / 100) else PetscReal.num (1 / 100)).isLt (.num 0) = true
    · rw [if_pos g] at n5
      cases n5
    · rw [if_neg g, if_neg g]
  exact hsame5 ▸ s5.1 i4

/-- What `EPSCreate_DAVIDSON` leaves has `fix = 0.01`, whatever the memory held
before and whatever the values of the PETSc constants. -/
theorem EPSCreate_DAVIDSON_fix (c : PetscConsts) (x : CreateCollab) (raw data0 : EPS_DAVIDSON)
    (h : EPSCreate_DAVIDSON c x raw = .ok data0) : data0.fix = .num (1 / 100) := by
  unfold EPSCreate_DAVIDSON at h
  obtain ⟨_, -, h⟩ := bindE_ok_inv _ _ _ h
  obtain ⟨_, -, h⟩ := bindE_ok_inv _ _ _ h
  obtain ⟨_, -, h⟩ := bindE_ok_inv _ _ _ h
  simp only [] at h
  obtain ⟨d1, -, h⟩ := bindE_ok_inv _ _ _ h
  obtain ⟨d2, -, h⟩ := bindE_ok_inv _ _ _ h
  obtain ⟨d3, -, h⟩ := bindE_ok_inv _ _ _ h
  obtain ⟨d4, -, h⟩ := bindE_ok_inv _ _ _ h
  obtain ⟨d5, h5, h⟩ := bindE_ok_inv _ _ _ h
  obtain ⟨_, -, h⟩ := bindE_ok_inv _ _ _ h
  have hd : d5 = data0 := by
    cases h
    rfl
  subst hd
  obtain ⟨n5, e5⟩ := SetOutcome_chk_ok _ _ h5
  rw [← e5]
  unfold EPSDAVIDSONSetFix_DAVIDSON at n5 ⊢
  simp only [] at n5 ⊢
  by_cases g : (if ((PetscReal.num (1 / 100)).isEq (.num c.PETSC_DEFAULT) ||
      (PetscReal.num (1 / 100)).isEq (.num c.PETSC_DECIDE)) = true
      then PetscReal.num (1 / 100) else PetscReal.num (1 / 100)).isLt (.num 0) = true
  · rw [if_pos g] at n5
    cases n5
  · rw [if_neg g]
    show (if _ then PetscReal.num (1 / 100) else PetscReal.num (1 / 100)) = _
    rw [ite_self]

/-- The locals `bs` and `min_size_V` that lines 82-91 of `EPSSetUp_DAVIDSON` leave. -/
theorem EPSSetUp_DAVIDSON_dims_bs (eps : EPS_conf) (data : EPS_DAVIDSON)
    (s : SetupDims) (h : EPSSetUp_DAVIDSON_dims eps data = .ok s) :
    s.bs = (if data.blocksize ≤ 0 then 1 else data.blocksize) ∧
    s.min_size_V = (if data.minv = 0 then (if data.blocksize ≤ 0 then 1 else data.blocksize)
      else data.minv) := by
  unfold EPSSetUp_DAVIDSON_dims at h
  obtain ⟨e1, -, h⟩ := bindE_ok_inv _ _ _ h
  obtain ⟨e2, -, h⟩ := bindE_ok_inv _ _ _ h
  simp only [] at h
  repeat' split at h
  all_goals first
    | (cases h; constructor <;> split_ifs <;> rfl)
    | cases h

/-- C29 (counterexample). From the defaults of `EPSCreate_DAVIDSON`, the call
`EPSDAVIDSONSetFix_DAVIDSON(eps, NaN)` returns 0 and stores the NaN: neither
`fix == PETSC_DEFAULT || fix == PETSC_DECIDE` nor `fix < 0.0` holds for it, and
`fix >= 0` is false afterwards. -/
theorem EPSDAVIDSONSetFix_stores_nan :
    EPSCreate_DAVIDSON petscConsts collabCreate dataRaw = .ok dataDefault ∧
    (DavidsonCall.run petscConsts dataDefault (.SetFix .nan)).ierr = none ∧
    (runCalls petscConsts dataDefault [.SetFix .nan]).fix = .nan ∧
    (runCalls petscConsts dataDefault [.SetFix .nan]).fix.isGe (.num 0) = false :=
  ⟨by with_unfolding_all rfl, by with_unfolding_all rfl, by with_unfolding_all rfl,
    by with_unfolding_all rfl⟩

/-- C29 (amended). Let `EPSCreate_DAVIDSON` return the private data `data0`. After
any sequence of calls to the setters of the block size, of the restart parameters,
of the initial size and of `fix`, the stored parameters satisfy `blocksize >= 1`,
`minv >= 1`, `plusk >= 0` and `initialsize >= 1`, the test `fix < 0.0` is false,
and `fix >= 0` holds when no call passed a NaN to `EPSDAVIDSONSetFix_DAVIDSON`; a
call that returns an error leaves every stored parameter as it was; and
`EPSSetUp_DAVIDSON` then takes `bs = blocksize` and `min_size_V = minv`, not the
fallbacks. -/
theorem EPSDAVIDSON_setters_invariant (c : PetscConsts) (x : CreateCollab)
    (raw data0 : EPS_DAVIDSON) (h : EPSCreate_DAVIDSON c x raw = .ok data0) :
    (∀ calls : List DavidsonCall,
      1 ≤ (runCalls c data0 calls).blocksize ∧ 1 ≤ (runCalls c data0 calls).minv ∧
      0 ≤ (runCalls c data0 calls).plusk ∧ 1 ≤ (runCalls c data0 calls).initialsize ∧
      (runCalls c data0 calls).fix.isLt (.num 0) = false ∧
      ((∀ k ∈ calls, k ≠ DavidsonCall.SetFix .nan) →
        (runCalls c data0 calls).fix.isGe (.num 0) = true)) ∧
    (∀ (data : EPS_DAVIDSON) (k : DavidsonCall) (e : PetscError),
      (k.run c data).ierr = some e → (k.run c data).obj = data) ∧
    (∀ (calls : List DavidsonCall) (eps : EPS_conf) (s : SetupDims),
      EPSSetUp_DAVIDSON_dims eps (runCalls c data0 calls) = .ok s →
      s.bs = (runCalls c data0 calls).blocksize ∧
      s.min_size_V = (runCalls c data0 calls).minv) := by
  have hinv : ∀ calls, DavidsonInv (runCalls c data0 calls) :=
    fun calls => runCalls_inv c calls data0 (EPSCreate_DAVIDSON_inv c x raw data0 h)
  have hfix : data0.fix ≠ .nan := by
    rw [EPSCreate_DAVIDSON_fix c x raw data0 h]
    exact fun e => by cases e
  refine ⟨fun calls => ?_, fun data k e => (DavidsonCall_run_inv c data k).2 e, ?_⟩
  · obtain ⟨i1, i2, i3, i4, i5⟩ := hinv calls
    exact ⟨i1, i2, i3, i4, i5, fun hk =>
      PetscReal_isGe_zero _ (runCalls_fix c calls data0 hk hfix) i5⟩
  · intro calls eps s hs
    obtain ⟨b1, b2⟩ := EPSSetUp_DAVIDSON_dims_bs eps _ s hs
    obtain ⟨i1, i2, -⟩ := hinv calls
    rw [if_neg (by omega)] at b1
    rw [if_neg (by omega)] at b2
    exact ⟨b1, b2⟩

/-- C29, evaluated: `EPSCreate_DAVIDSON` leaves `dataDefault`; the refused calls
`SetBlockSize(0)`, `SetRestart(4,-3)` and `SetFix(-3)` change nothing,
`SetRestart(PETSC_DEFAULT,2)` stores `minv = 5` and `plusk = 2`, and
`SetFix(PETSC_DEFAULT)` followed by `SetFix(1/2)` stores `fix = 1/2`. -/
theorem EPSDAVIDSON_setters_invariant_witness :
    EPSCreate_DAVIDSON petscConsts collabCreate dataRaw = .ok dataDefault ∧
    runCalls petscConsts dataDefault [.SetBlockSize 0, .SetRestart 4 (-3), .SetFix (.num (-3))]
      = dataDefault ∧
    (DavidsonCall.run petscConsts dataDefault (.SetRestart 4 (-3))).ierr =
      some ⟨.PETSC_ERR_ARG_OUTOFRANGE, "Invalid plusk value"⟩ ∧
    (DavidsonCall.run petscConsts dataDefault (.SetFix (.num (-3)))).ierr =
      some ⟨.PETSC_ERR_ARG_OUTOFRANGE, "Invalid fix value"⟩ ∧
    runCalls petscConsts dataDefault [.SetRestart (-2) 2] =
      { dataDefault with minv := 5, plusk := 2 } ∧
    runCalls petscConsts dataDefault [.SetFix (.num (-2)), .SetFix (.num (1 / 2))] =
      { dataDefault with fix := .num (1 / 2) } ∧
    ((∀ calls : List DavidsonCall,
      1 ≤ (runCalls petscConsts dataDefault calls).blocksize ∧
      1 ≤ (runCalls petscConsts dataDefault calls).minv ∧
      0 ≤ (runCalls petscConsts dataDefault calls).plusk ∧
      1 ≤ (runCalls petscConsts dataDefault calls).initialsize ∧
      (runCalls petscConsts dataDefault calls).fix.isLt (.num 0) = false ∧
      ((∀ k ∈ calls, k ≠ DavidsonCall.SetFix .nan) →
        (runCalls petscConsts dataDefault calls).fix.isGe (.num 0) = true)) ∧
    (∀ (data : EPS_DAVIDSON) (k : DavidsonCall) (e : PetscError),
      (k.run petscConsts data).ierr = some e → (k.run petscConsts data).obj = data) ∧
    (∀ (calls : List DavidsonCall) (eps : EPS_conf) (s : SetupDims),
      EPSSetUp_DAVIDSON_dims eps (runCalls petscConsts dataDefault calls) = .ok s →
      s.bs = (runCalls petscConsts dataDefault calls).blocksize ∧
      s.min_size_V = (runCalls petscConsts dataDefault calls).minv)) :=
  ⟨by with_unfolding_all rfl, by with_unfolding_all decide, by with_unfolding_all decide,
    by with_unfolding_all decide, by with_unfolding_all decide, by with_unfolding_all decide,
    EPSDAVIDSON_setters_invariant petscConsts collabCreate dataRaw dataDefault
      (by with_unfolding_all rfl)⟩

/-- C27 (failing input). On `epsArnoldi` with the residual estimates `1/2`, `0`,
`1/2`, `EPSSolve_ARNOLDI` stops after one iteration with `nconv = 2` and
`EPS_CONVERGED_TOL`, and the index `0 < nconv` has `errest[0] = 1/2`, which is not
below the tolerance. -/
theorem EPSSolve_ARNOLDI_counts_unconverged :
    EPSSolve_ARNOLDI collabArnoldi epsArnoldi = .ok epsArnoldi1 ∧
    epsArnoldi1.its = 1 ∧ epsArnoldi1.nconv = 2 ∧
    epsArnoldi1.reason = EPSConvergedReason.EPS_CONVERGED_TOL ∧
    (0 : Int) < epsArnoldi1.nconv ∧ epsArnoldi1.errest 0 = 1 / 2 ∧
    ¬ (epsArnoldi1.errest 0 < epsArnoldi1.tol) ∧ epsArnoldi1.errest 1 < epsArnoldi1.tol :=
  ⟨by with_unfolding_all rfl, by with_unfolding_all decide, by with_unfolding_all decide,
    by with_unfolding_all decide, by with_unfolding_all decide, by with_unfolding_all decide,
    by with_unfolding_all decide, by with_unfolding_all decide⟩

/-- `PetscAbsReal` is the absolute value. -/
theorem PetscAbsReal_eq {R : Type} [LinearOrderedField R] (a : R) : PetscAbsReal a = |a| := by
  unfold PetscAbsReal
  split_ifs with h
  · exact (abs_of_neg h).symm
  · exact (abs_of_nonneg (not_lt.mp h)).symm

/-- `PetscMax` and `PetscMin` on real numbers are the maximum and the minimum. -/
theorem PetscMaxReal_eq {R : Type} [LinearOrderedField R] (a b : R) :
    PetscMaxReal a b = max a b ∧ PetscMinReal a b = min a b := by
  unfold PetscMaxReal PetscMinReal
  split_ifs with h
  · exact ⟨(max_eq_right h.le).symm, (min_eq_left h.le).symm⟩
  · exact ⟨(max_eq_left (not_lt.mp h)).symm, (min_eq_right (not_lt.mp h)).symm⟩

/-- `SlepcAbsEigenvalue` over an ordered field: the divisor `w` is never zero
when the quotient `z/w` is formed, so the call returns; the value is
`max(|x|,|y|)` when `min(|x|,|y|) = 0`, and `w*sqrt(1+(z/w)^2)` otherwise. -/
theorem SlepcAbsEigenvalue_value {R : Type} [LinearOrderedField R] (sqrt : R → R) (x y : R) :
    SlepcAbsEigenvalue sqrt x y =
      .ok (if min |x| |y| = 0 then max |x| |y|
        else max |x| |y| * sqrt (1 + min |x| |y| / max |x| |y| * (min |x| |y| / max |x| |y|))) ∧
    (min |x| |y| ≠ 0 → max |x| |y| ≠ 0) := by
  have hw : min |x| |y| ≠ 0 → max |x| |y| ≠ 0 := by
    intro hz hmax
    have h1 : (0 : R) ≤ min |x| |y| := le_min (abs_nonneg x) (abs_nonneg y)
    have h2 : min |x| |y| ≤ max |x| |y| := min_le_max
    exact hz (le_antisymm (hmax ▸ h2) h1)
  refine ⟨?_, hw⟩
  unfold SlepcAbsEigenvalue
  simp only [PetscAbsReal_eq, (PetscMaxReal_eq _ _).1, (PetscMaxReal_eq _ _).2]
  by_cases hz : min |x| |y| = 0
  · rw [if_pos hz, if_pos hz]
    rfl
  · rw [if_neg hz, if_neg hz, if_neg (hw hz)]
    rfl

/-- C26. Over the real numbers, with the square root of the real numbers,
`SlepcAbsEigenvalue(x,y)` returns `sqrt(x^2+y^2)` for all `x` and `y`; that it
returns says that no quotient with a zero divisor is formed. -/
theorem SlepcAbsEigenvalue_sqrt (x y : ℝ) :
    SlepcAbsEigenvalue Real.sqrt x y = .ok (Real.sqrt (x ^ 2 + y ^ 2)) := by
  obtain ⟨hv, hw⟩ := SlepcAbsEigenvalue_value Real.sqrt x y
  rw [hv]
  congr 1
  have hsum : max |x| |y| ^ 2 + min |x| |y| ^ 2 = x ^ 2 + y ^ 2 := by
    rcases le_total |x| |y| with h | h
    · rw [max_eq_right h, min_eq_left h, sq_abs, sq_abs]
      ring
    · rw [max_eq_left h, min_eq_right h, sq_abs, sq_abs]
  have hmax0 : (0 : ℝ) ≤ max |x| |y| := le_max_of_le_left (abs_nonneg x)
  by_cases hz : min |x| |y| = 0
  · rw [if_pos hz]
    rw [← hsum, hz]
    simp only [ne_eq, OfNat.ofNat_ne_zero, not_false_eq_true, zero_pow, add_zero]
    exact (Real.sqrt_sq hmax0).symm
  · rw [if_neg hz]
    have hne := hw hz
    have e : max |x| |y| ^ 2 * (1 + min |x| |y| / max |x| |y| * (min |x| |y| / max |x| |y|))
        = x ^ 2 + y ^ 2 := by
      rw [← hsum]
      field_simp
      ring
    rw [← e, Real.sqrt_mul (sq_nonneg _), Real.sqrt_sq hmax0]

/-- C26, evaluated over the rational numbers: `SlepcAbsEigenvalue(3,4) = 5`,
`SlepcAbsEigenvalue(0,-7) = 7` and `SlepcAbsEigenvalue(0,0) = 0`. -/
theorem SlepcAbsEigenvalue_examples :
    SlepcAbsEigenvalue sqrtQ 3 4 = .ok 5 ∧ SlepcAbsEigenvalue sqrtQ 0 (-7) = .ok 7 ∧
    SlepcAbsEigenvalue sqrtQ 0 0 = .ok 0 := by
  refine ⟨?_, ?_, ?_⟩ <;> with_unfolding_all rfl

section RandomThms

variable {R S : Type}

/-- The numbers drawn from the state after one draw are the later numbers. -/
theorem drawn_succ (x : RandCollab R S) (g : S) (k : Nat) :
    drawn x (SlepcVecSetRandom_draw x g).2 k = drawn x g (k + 1) := rfl

/-- The loop of `SlepcVecSetRandom`, by entries: after `k` passes from the index
`i0`, the entry for an owned index `i` in `[i0, i0+k)` is the number drawn in the
pass of `i`, every other entry of the local array is as before, and the
generator has advanced by `k` numbers. -/
theorem SlepcVecSetRandom_loop_entries (x : RandCollab R S) (low high : Int) :
    ∀ (k : Nat) (i0 : Int) (px : Int → R) (g : S),
      (∀ j, (SlepcVecSetRandom_loop x low high k i0 (px, g)).1 j =
        if (i0 ≤ j + low ∧ j + low < i0 + k) ∧ low ≤ j + low ∧ j + low < high then
          drawn x g (j + low - i0).toNat else px j) ∧
      (SlepcVecSetRandom_loop x low high k i0 (px, g)).2 = stateAfter x g k := by
  intro k
  induction k with
  | zero =>
    intro i0 px g
    refine ⟨fun j => ?_, rfl⟩
    rw [if_neg (by intro hh; have := hh.1; push_cast at this; omega)]
    rfl
  | succ k ih =>
    intro i0 px g
    obtain ⟨ih1, ih2⟩ := ih (i0 + 1)
      (if low ≤ i0 ∧ i0 < high then
        fun j => if j = i0 - low then (SlepcVecSetRandom_draw x g).1 else px j else px)
      (SlepcVecSetRandom_draw x g).2
    refine ⟨fun j => ?_, ih2⟩
    show (SlepcVecSetRandom_loop x low high k (i0 + 1) _).1 j = _
    rw [ih1]
    by_cases hj : j + low = i0
    · have hnot : ¬ ((i0 + 1 ≤ j + low ∧ j + low < i0 + 1 + (k : Int)) ∧
          low ≤ j + low ∧ j + low < high) := by omega
      rw [if_neg hnot]
      by_cases hown : low ≤ i0 ∧ i0 < high
      · rw [if_pos hown, if_pos (by omega), if_pos (by push_cast; omega)]
        have e : (j + low - i0).toNat = 0 := by omega
        rw [e]
        rfl
      · rw [if_neg hown, if_neg (by omega)]
    · have hpx : (if low ≤ i0 ∧ i0 < high then
          fun j => if j = i0 - low then (SlepcVecSetRandom_draw x g).1 else px j else px) j
          = px j := by
        by_cases hown : low ≤ i0 ∧ i0 < high
        · rw [if_pos hown]
          exact if_neg (by omega)
        · rw [if_neg hown]
      rw [hpx]
      by_cases hin : (i0 + 1 ≤ j + low ∧ j + low < i0 + 1 + (k : Int)) ∧
          low ≤ j + low ∧ j + low < high
      · rw [if_pos hin, if_pos (by push_cast; omega), drawn_succ]
        congr 1
        omega
      · rw [if_neg hin, if_neg (by push_cast; omega)]

/-- C25. For every global length `n`, every ownership range `[low,high)` and
every content of the local arrays, the entry that `SlepcVecSetRandom` writes for
a global index `i` of the range, `0 <= i < n`, in the local array of the process
that owns it is the `i`-th number drawn from the generator state `g`, counting
from `0`; it is the entry `i` of the array written by a single process that owns
`[0,n)` and starts from the same state, and both generators end in the same
state. -/
theorem SlepcVecSetRandom_partition (x : RandCollab R S) (n low high : Int)
    (px px1 : Int → R) (g : S) (i : Int) (h0 : 0 ≤ i) (hn : i < n) (hl : low ≤ i)
    (hh : i < high) :
    (SlepcVecSetRandom x n low high px g).1 (i - low) = drawn x g i.toNat ∧
    (SlepcVecSetRandom x n low high px g).1 (i - low) =
      (SlepcVecSetRandom x n 0 n px1 g).1 i ∧
    (SlepcVecSetRandom x n low high px g).2 = (SlepcVecSetRandom x n 0 n px1 g).2 := by
  unfold SlepcVecSetRandom
  obtain ⟨a1, a2⟩ := SlepcVecSetRandom_loop_entries x low high n.toNat 0 px g
  obtain ⟨b1, b2⟩ := SlepcVecSetRandom_loop_entries x 0 n n.toNat 0 px1 g
  have e1 : (SlepcVecSetRandom_loop x low high n.toNat 0 (px, g)).1 (i - low)
      = drawn x g i.toNat := by
    rw [a1, if_pos (by omega)]
    congr 1
    omega
  have e2 : (SlepcVecSetRandom_loop x 0 n n.toNat 0 (px1, g)).1 i = drawn x g i.toNat := by
    rw [b1, if_pos (by omega)]
    congr 1
    omega
  exact ⟨e1, e1.trans e2.symm, a2.trans b2.symm⟩

end RandomThms

/-- C25, evaluated on `randZ` from the state `1`: a vector of length 4 is
`1, 8, 11, 10` on one process, and the process that owns `[2,4)` of two writes
`11, 10` into its local array. -/
theorem SlepcVecSetRandom_partition_witness :
    (SlepcVecSetRandom randZ 4 0 4 (fun _ => 0) 1).1 0 = 1 ∧
    (SlepcVecSetRandom randZ 4 0 4 (fun _ => 0) 1).1 1 = 8 ∧
    (SlepcVecSetRandom randZ 4 0 4 (fun _ => 0) 1).1 2 = 11 ∧
    (SlepcVecSetRandom randZ 4 0 4 (fun _ => 0) 1).1 3 = 10 ∧
    (SlepcVecSetRandom randZ 4 2 4 (fun _ => 0) 1).1 0 = 11 ∧
    (SlepcVecSetRandom randZ 4 2 4 (fun _ => 0) 1).1 1 = 10 ∧
    ((SlepcVecSetRandom randZ 4 2 4 (fun _ => 0) 1).1 (3 - 2) = drawn randZ 1 (3 : Int).toNat ∧
      (SlepcVecSetRandom randZ 4 2 4 (fun _ => 0) 1).1 (3 - 2) =
        (SlepcVecSetRandom randZ 4 0 4 (fun _ => 7) 1).1 3 ∧
      (SlepcVecSetRandom randZ 4 2 4 (fun _ => 0) 1).2 =
        (SlepcVecSetRandom randZ 4 0 4 (fun _ => 7) 1).2) :=
  ⟨by decide, by decide, by decide, by decide, by decide, by decide,
    SlepcVecSetRandom_partition randZ 4 2 4 (fun _ => 0) (fun _ => 7) 1 3 (by decide)
      (by decide) (by decide) (by decide)⟩

section PhaseCheckedThms

variable {R E : Type} [Field R] [StarRing R] [DecidableEq R]

/-- Where a zero modulus comes with a zero imaginary part, the body of the loop
of `dvd_calcpairs_selectPairs_qz` divides by a modulus that is not zero, and does
what `qz_rotate` does. -/
theorem qz_rotate_checked_ok (ops : ScalarOps R) (size_H i : Int)
    (m : DMat R × DMat R × DMat R)
    (hz : ops.PetscAbsScalar (m.1 i i) = 0 → ops.PetscImaginaryPart (m.1 i i) = 0) :
    qz_rotate_checked ops size_H i m = .ok (qz_rotate ops size_H i m) := by
  unfold qz_rotate_checked qz_rotate
  by_cases him : ops.PetscImaginaryPart (m.1 i i) ≠ 0
  · rw [if_pos him, if_pos him]
    unfold divChecked
    rw [if_neg (fun h0 => him (hz h0))]
    rfl
  · rw [if_neg him, if_neg him]
    rfl

/-- The loop of `dvd_calcpairs_selectPairs_qz` with checked divisions, from the
column `i0`: it returns what `qz_rotate_all` computes. -/
theorem forRange_qz_rotate_checked (ops : ScalarOps R) (size_H : Int) :
    ∀ (n : Nat) (i0 : Int) (m : DMat R × DMat R × DMat R),
      (∀ i, i0 ≤ i → i < i0 + n →
        ops.PetscAbsScalar (m.1 i i) = 0 → ops.PetscImaginaryPart (m.1 i i) = 0) →
      forRange (qz_rotate_checked ops size_H) n i0 m = .ok (qz_rotate_all ops size_H n i0 m) := by
  intro n
  induction n with
  | zero => exact fun _ _ _ => rfl
  | succ n ih =>
    intro i0 m hz
    have h0 := qz_rotate_checked_ok ops size_H i0 m (hz i0 (le_refl i0) (by push_cast; omega))
    have hnext : ∀ i, i0 + 1 ≤ i → i < i0 + 1 + (n : Int) →
        ops.PetscAbsScalar ((qz_rotate ops size_H i0 m).1 i i) = 0 →
        ops.PetscImaginaryPart ((qz_rotate ops size_H i0 m).1 i i) = 0 := by
      intro i hi1 hi2
      have e : (qz_rotate ops size_H i0 m).1 i i = m.1 i i := by
        rw [(qz_rotate_entries ops size_H i0 m).1, if_neg (fun hh => by omega)]
      rw [e]
      exact hz i (by omega) (by push_cast; omega)
    show (qz_rotate_checked ops size_H i0 m >>= fun s =>
      forRange (qz_rotate_checked ops size_H) n (i0 + 1) s) = _
    rw [h0]
    exact ih (i0 + 1) _ hnext

/-- The fix-up of `dvd_calcpairs_selectPairs_qz` forms no quotient with a zero
divisor: where a zero modulus of a diagonal entry of `T` comes with a zero
imaginary part, the loop with checked divisions returns, with the result of
`qz_rotate_all`. -/
theorem dvd_calcpairs_selectPairs_qz_checked_ok (ops : ScalarOps R) (size_H : Int)
    (m : DMat R × DMat R × DMat R)
    (hz : ∀ i, 0 ≤ i → i < size_H →
      ops.PetscAbsScalar (m.1 i i) = 0 → ops.PetscImaginaryPart (m.1 i i) = 0) :
    dvd_calcpairs_selectPairs_qz_checked ops size_H m =
      .ok (qz_rotate_all ops size_H size_H.toNat 0 m) := by
  unfold dvd_calcpairs_selectPairs_qz_checked
  exact forRange_qz_rotate_checked ops size_H size_H.toNat 0 m
    (fun i h0 h1 => hz i h0 (by omega))

end PhaseCheckedThms

/-- C28 (failing input). In the complex build, for `nconv = 2` and the factor
`cTQI`, upper triangular with the diagonal `2, 0`, the loop of
`EPSComputeVectors_QZ` divides `conj(0)` by `|0| = 0` in the column `1`; the loop of
`dvd_calcpairs_selectPairs_qz` on the same factor returns, since it skips the
entries without imaginary part. -/
theorem EPSComputeVectors_QZ_divides_by_zero :
    cTQI 1 1 = 0 ∧ opsQI.PetscAbsScalar (cTQI 1 1) = 0 ∧
    EPSComputeVectors_QZ_fix complexBuild opsQI 2 (some cTQI) idQI (fun _ => (1 : QI))
      = .error "division by zero" ∧
    dvd_calcpairs_selectPairs_qz_checked opsQI 2 (cTQI, idQI, idQI)
      = .ok (qz_rotate_all opsQI 2 2 0 (cTQI, idQI, idQI)) ∧
    EPSComputeVectors_QZ_fix complexBuild opsQI 1 (some cTQI) idQI (fun _ => (1 : QI))
      ≠ .error "division by zero" :=
  ⟨by with_unfolding_all decide, by with_unfolding_all decide, by with_unfolding_all rfl,
    by with_unfolding_all rfl, by
      intro h
      have h2 : (EPSComputeVectors_QZ_fix complexBuild opsQI 1 (some cTQI) idQI
          (fun _ => (1 : QI))).toBool = false := by rw [h]; rfl
      revert h2
      with_unfolding_all decide⟩

section LinearThms

variable {R : Type} [CommRing R]

/-- `MatSetValues` on the entries `(c + off, w c)`, `0 <= c < n`, of a row: the
columns `off .. off+n-1` of that row are set, and nothing else changes. -/
theorem MatSetValues_range (A : Mat R) (row off : Int) (w : Int → R) :
    ∀ n : Nat,
      (∀ r c, (MatSetValues A row
          ((List.range n).map (fun (k : Nat) => ((k : Int) + off, w (k : Int))))).a r c =
        if r = row ∧ off ≤ c ∧ c < off + n then w (c - off) else A.a r c) ∧
      (MatSetValues A row ((List.range n).map (fun (k : Nat) => ((k : Int) + off, w (k : Int))))).M
        = A.M ∧
      (MatSetValues A row ((List.range n).map (fun (k : Nat) => ((k : Int) + off, w (k : Int))))).N
        = A.N := by
  intro n
  induction n with
  | zero =>
    refine ⟨fun r c => ?_, rfl, rfl⟩
    rw [if_neg (by intro hh; have := hh.2.2; push_cast at this; omega)]
    rfl
  | succ n ih =>
    obtain ⟨ih1, ih2, ih3⟩ := ih
    have hstep : MatSetValues A row
        ((List.range (n + 1)).map (fun (k : Nat) => ((k : Int) + off, w (k : Int)))) =
        { MatSetValues A row ((List.range n).map (fun (k : Nat) => ((k : Int) + off, w (k : Int)))) with
          a := fun r c => if r = row ∧ c = (n : Int) + off then w (n : Int)
            else (MatSetValues A row
              ((List.range n).map (fun (k : Nat) => ((k : Int) + off, w (k : Int))))).a r c } := by
      unfold MatSetValues
      rw [List.range_succ, List.map_append, List.foldl_append]
      rfl
    rw [hstep]
    refine ⟨fun r c => ?_, ih2, ih3⟩
    show (if r = row ∧ c = (n : Int) + off then w (n : Int) else _) = _
    by_cases h : r = row ∧ c = (n : Int) + off
    · rw [if_pos h, if_pos ⟨h.1, by omega, by push_cast; omega⟩]
      congr 1
      omega
    · rw [if_neg h, ih1]
      refine if_congr ⟨fun hh => ⟨hh.1, hh.2.1, by push_cast; omega⟩, fun hh => ⟨hh.1, hh.2.1, ?_⟩⟩
        rfl rfl
      have h3 := hh.2.2
      push_cast at h3
      by_cases hc : c = (n : Int) + off
      · exact absurd ⟨hh.1, hc⟩ h
      · omega

/-- The entries that `MatGetRow` lists, and those entries with shifted columns. -/
theorem MatGetRow_form (A : Mat R) (i M : Int) :
    MatGetRow A i = (List.range A.N.toNat).map (fun (k : Nat) => ((k : Int) + 0, A.a i (k : Int))) ∧
    shiftCols (MatGetRow A i) M =
      (List.range A.N.toNat).map (fun (k : Nat) => ((k : Int) + M, A.a i (k : Int))) := by
  unfold shiftCols MatGetRow
  constructor
  · simp only [add_zero]
  · rw [List.map_map]
    rfl

/-- Setting a row from the row `i` of `K`: `MatSetValues(A,row,MatGetRow(K,i))`
with the columns shifted by `off`. -/
theorem MatSetValues_row (A K : Mat R) (row i off : Int) :
    (∀ r c, (MatSetValues A row (shiftCols (MatGetRow K i) off)).a r c =
      if r = row ∧ off ≤ c ∧ c < off + K.N then K.a i (c - off) else A.a r c) ∧
    (∀ r c, (MatSetValues A row (MatGetRow K i)).a r c =
      if r = row ∧ 0 ≤ c ∧ c < K.N then K.a i c else A.a r c) ∧
    (MatSetValues A row (shiftCols (MatGetRow K i) off)).N = A.N ∧
    (MatSetValues A row (MatGetRow K i)).N = A.N := by
  obtain ⟨g1, g2⟩ := MatGetRow_form K i off
  obtain ⟨s1, -, s3⟩ := MatSetValues_range A row off (K.a i) K.N.toNat
  obtain ⟨t1, -, t3⟩ := MatSetValues_range A row 0 (K.a i) K.N.toNat
  rw [← g2] at s1 s3
  rw [← g1] at t1 t3
  refine ⟨fun r c => ?_, fun r c => ?_, s3, t3⟩
  · rw [s1]
    exact if_congr ⟨fun hh => ⟨hh.1, hh.2.1, by omega⟩, fun hh => ⟨hh.1, hh.2.1, by omega⟩⟩
      rfl rfl
  · rw [t1]
    by_cases hh : r = row ∧ 0 ≤ c ∧ c < K.N
    · rw [if_pos hh, if_pos ⟨hh.1, hh.2.1, by omega⟩, sub_zero]
    · rw [if_neg hh, if_neg (fun h2 => hh ⟨h2.1, h2.2.1, by omega⟩)]

/-- The body of the loop of `MatCreateExplicit_QEPLINEAR_H1A` for the row `i`, by
entries, for matrices of order `n`. -/
theorem H1A_row_entries (ctx : QEP_LINEAR R) (n : Int) (h : ctx.order n) (i : Int) (A : Mat R) :
    (∀ r c, (H1A_row ctx n i A).a r c =
      if r = i + n ∧ 0 ≤ c ∧ c < n then ctx.C.a (r - n) c
      else if r = i + n ∧ n ≤ c ∧ c < n + n then ctx.K.a (r - n) (c - n)
      else if r = i ∧ 0 ≤ c ∧ c < n then ctx.K.a r c
      else A.a r c) ∧
    (H1A_row ctx n i A).N = A.N := by
  obtain ⟨-, -, -, hC, hK⟩ := h
  unfold H1A_row
  simp only []
  obtain ⟨-, c1, -, c4⟩ := MatSetValues_row
    (MatSetValues (MatSetValues A i (MatGetRow ctx.K i)) (i + n) (shiftCols (MatGetRow ctx.K i) n))
    ctx.C (i + n) i 0
  obtain ⟨k1, -, k3, -⟩ := MatSetValues_row (MatSetValues A i (MatGetRow ctx.K i)) ctx.K (i + n) i n
  obtain ⟨-, j1, -, j4⟩ := MatSetValues_row A ctx.K i i 0
  refine ⟨fun r c => ?_, by rw [c4, k3, j4]⟩
  rw [c1, k1, j1, hC, hK]
  split_ifs <;> first
    | rfl
    | (exfalso; omega)
    | (congr 1; all_goals omega)

/-- The loop of `MatCreateExplicit_QEPLINEAR_H1A` over the rows `i0 .. i0+k-1`, by
entries, for matrices of order `n`. -/
theorem rowLoop_H1A_entries (ctx : QEP_LINEAR R) (n : Int) (h : ctx.order n) :
    ∀ (k : Nat) (i0 : Int) (A : Mat R), 0 ≤ i0 → i0 + k ≤ n →
      (∀ r c, (rowLoop (H1A_row ctx n) k i0 A).a r c =
        if (i0 + n ≤ r ∧ r < i0 + k + n) ∧ 0 ≤ c ∧ c < n then ctx.C.a (r - n) c
        else if (i0 + n ≤ r ∧ r < i0 + k + n) ∧ n ≤ c ∧ c < n + n then ctx.K.a (r - n) (c - n)
        else if (i0 ≤ r ∧ r < i0 + k) ∧ 0 ≤ c ∧ c < n then ctx.K.a r c
        else A.a r c) ∧
      (rowLoop (H1A_row ctx n) k i0 A).N = A.N := by
  intro k
  induction k with
  | zero =>
    intro i0 A _ _
    refine ⟨fun r c => ?_, rfl⟩
    show A.a r c = _
    push_cast
    split_ifs <;> first
      | rfl
      | (exfalso; omega)
  | succ k ih =>
    intro i0 A h0 h1
    push_cast at h1
    obtain ⟨ih1, ih2⟩ := ih (i0 + 1) (H1A_row ctx n i0 A) (by omega) (by omega)
    obtain ⟨r1, r2⟩ := H1A_row_entries ctx n h i0 A
    refine ⟨fun r c => ?_, ih2.trans r2⟩
    show (rowLoop (H1A_row ctx n) k (i0 + 1) (H1A_row ctx n i0 A)).a r c = _
    rw [ih1, r1]
    push_cast
    split_ifs <;> first
      | rfl
      | (exfalso; omega)

/-- The first loop of `MatCreateExplicit_QEPLINEAR_H1B` over the rows
`i0 .. i0+k-1`, by entries, for matrices of order `n`. -/
theorem rowLoop_H1B_row1_entries (ctx : QEP_LINEAR R) (n : Int) (h : ctx.order n) :
    ∀ (k : Nat) (i0 : Int) (B : Mat R),
      (∀ r c, (rowLoop (H1B_row1 ctx n) k i0 B).a r c =
        if (i0 + n ≤ r ∧ r < i0 + k + n) ∧ 0 ≤ c ∧ c < n then ctx.M.a (r - n) c
        else B.a r c) ∧
      (rowLoop (H1B_row1 ctx n) k i0 B).N = B.N := by
  obtain ⟨-, -, hM, -, -⟩ := h
  intro k
  induction k with
  | zero =>
    intro i0 B
    refine ⟨fun r c => ?_, rfl⟩
    show B.a r c = _
    push_cast
    split_ifs <;> first
      | rfl
      | (exfalso; omega)
  | succ k ih =>
    intro i0 B
    obtain ⟨ih1, ih2⟩ := ih (i0 + 1) (H1B_row1 ctx n i0 B)
    obtain ⟨-, r1, -, r4⟩ := MatSetValues_row B ctx.M (i0 + n) i0 0
    refine ⟨fun r c => ?_, ih2.trans r4⟩
    show (rowLoop (H1B_row1 ctx n) k (i0 + 1) (H1B_row1 ctx n i0 B)).a r c = _
    rw [ih1]
    unfold H1B_row1
    simp only []
    rw [r1, hM]
    push_cast
    split_ifs <;> first
      | rfl
      | (exfalso; omega)
      | (congr 1; all_goals omega)

/-- The second loop of `MatCreateExplicit_QEPLINEAR_H1B` over the rows
`i0 .. i0+k-1`, by entries, for matrices of order `n`. -/
theorem rowLoop_H1B_row2_entries (ctx : QEP_LINEAR R) (n : Int) (h : ctx.order n) :
    ∀ (k : Nat) (i0 : Int) (B : Mat R),
      (∀ r c, (rowLoop (H1B_row2 ctx n) k i0 B).a r c =
        if (i0 ≤ r ∧ r < i0 + k) ∧ n ≤ c ∧ c < n + n then ctx.K.a r (c - n)
        else B.a r c) ∧
      (rowLoop (H1B_row2 ctx n) k i0 B).N = B.N := by
  obtain ⟨-, -, -, -, hK⟩ := h
  intro k
  induction k with
  | zero =>
    intro i0 B
    refine ⟨fun r c => ?_, rfl⟩
    show B.a r c = _
    push_cast
    split_ifs <;> first
      | rfl
      | (exfalso; omega)
  | succ k ih =>
    intro i0 B
    obtain ⟨ih1, ih2⟩ := ih (i0 + 1) (H1B_row2 ctx n i0 B)
    obtain ⟨r1, -, r3, -⟩ := MatSetValues_row B ctx.K i0 i0 n
    refine ⟨fun r c => ?_, ih2.trans r3⟩
    show (rowLoop (H1B_row2 ctx n) k (i0 + 1) (H1B_row2 ctx n i0 B)).a r c = _
    rw [ih1]
    unfold H1B_row2
    rw [r1, hK]
    push_cast
    split_ifs <;> first
      | rfl
      | (exfalso; omega)
      | (congr 1; all_goals omega)

/-- The matrices that `MatCreateExplicit_QEPLINEAR_H1A` and
`MatCreateExplicit_QEPLINEAR_H1B` assemble from matrices of order `n` are of order
`2n` with the entries of `A = [K 0; C K]` and of `B = [0 K; -M 0]`. -/
theorem MatCreateExplicit_QEPLINEAR_H1_entries (ctx : QEP_LINEAR R) (n : Int)
    (h : ctx.order n) :
    (MatCreateExplicit_QEPLINEAR_H1A ctx 0 n).N = n + n ∧
    (MatCreateExplicit_QEPLINEAR_H1B ctx 0 n).N = n + n ∧
    (∀ r c, 0 ≤ r → r < n + n → 0 ≤ c → c < n + n →
      (MatCreateExplicit_QEPLINEAR_H1A ctx 0 n).a r c = blockA ctx n r c ∧
      (MatCreateExplicit_QEPLINEAR_H1B ctx 0 n).a r c = blockB ctx n r c) := by
  have hn := h.1
  have hMM := h.2.1
  have hMN := h.2.2.1
  have hk : ((n - 0).toNat : Int) = n := by omega
  obtain ⟨a1, a2⟩ := rowLoop_H1A_entries ctx n h (n - 0).toNat 0 (MatCreate (n + n) (n + n))
    (le_refl 0) (by omega)
  obtain ⟨b1, b2⟩ := rowLoop_H1B_row1_entries ctx n h (n - 0).toNat 0 (MatCreate (n + n) (n + n))
  obtain ⟨c1, c2⟩ := rowLoop_H1B_row2_entries ctx n h (n - 0).toNat 0
    (MatScale (rowLoop (H1B_row1 ctx n) (n - 0).toNat 0 (MatCreate (n + n) (n + n))) (-1))
  unfold MatCreateExplicit_QEPLINEAR_H1A MatCreateExplicit_QEPLINEAR_H1B
  simp only [hMM, hMN]
  refine ⟨a2, c2.trans b2, fun r c hr0 hr1 hc0 hc1 => ⟨?_, ?_⟩⟩
  · rw [a1, hk]
    unfold blockA MatCreate
    split_ifs <;> first
      | rfl
      | (exfalso; omega)
  · rw [c1, hk]
    show (if (0 ≤ r ∧ r < 0 + n) ∧ n ≤ c ∧ c < n + n then ctx.K.a r (c - n)
      else -1 * (rowLoop (H1B_row1 ctx n) (n - 0).toNat 0 (MatCreate (n + n) (n + n))).a r c) = _
    rw [b1, hk]
    unfold blockB MatCreate
    split_ifs <;> first
      | rfl
      | (exfalso; omega)
      | simp

/-- A sum over `2n` terms is the sum of its two halves. -/
theorem sumTo_split (n : Int) (hn : 0 ≤ n) (f : Int → R) :
    sumTo (n + n) f = sumTo n f + sumTo n (fun c => f (n + c)) := by
  unfold sumTo
  have e : (n + n).toNat = n.toNat + n.toNat := by omega
  rw [e, Finset.sum_range_add]
  congr 1
  refine Finset.sum_congr rfl (fun k _ => ?_)
  congr 1
  push_cast
  omega

/-- A sum of zeros. -/
theorem sumTo_zero (n : Int) : sumTo n (fun _ => (0 : R)) = 0 := by
  unfold sumTo
  exact Finset.sum_const_zero

/-- A common factor of the terms of a sum. -/
theorem sumTo_mul_left (l : R) (n : Int) (f : Int → R) :
    sumTo n (fun c => l * f c) = l * sumTo n f := by
  unfold sumTo
  exact (Finset.mul_sum _ _ _).symm

/-- The product of the matrices assembled by `MatCreateExplicit_QEPLINEAR_H1A`
and `MatCreateExplicit_QEPLINEAR_H1B` with a vector `z = [x1; x2]`: the rows of
`A*z` are `K*x1` and `C*x1 + K*x2`, the rows of `B*z` are `K*x2` and `-M*x1`. -/
theorem MatMult_explicit_H1 (ctx : QEP_LINEAR R) (n : Int) (h : ctx.order n)
    (z : Int → R) (r : Int) (hr0 : 0 ≤ r) (hr1 : r < n + n) :
    MatMult (MatCreateExplicit_QEPLINEAR_H1A ctx 0 n) z r =
      (if r < n then MatMult ctx.K (placed z 0) r
        else MatMult ctx.C (placed z 0) (r - n) + MatMult ctx.K (placed z n) (r - n)) ∧
    MatMult (MatCreateExplicit_QEPLINEAR_H1B ctx 0 n) z r =
      (if r < n then MatMult ctx.K (placed z n) r
        else -(MatMult ctx.M (placed z 0) (r - n))) := by
  obtain ⟨eA, eB, ent⟩ := MatCreateExplicit_QEPLINEAR_H1_entries ctx n h
  obtain ⟨hn, -, hMN, hC, hK⟩ := h
  unfold MatMult
  rw [eA, eB, hMN, hC, hK, sumTo_split n hn, sumTo_split n hn]
  have lowA : ∀ c, 0 ≤ c → c < n →
      (MatCreateExplicit_QEPLINEAR_H1A ctx 0 n).a r c * z c = blockA ctx n r c * placed z 0 c := by
    intro c h0 h1
    rw [(ent r c hr0 hr1 h0 (by omega)).1]
    unfold placed
    rw [zero_add]
  have highA : ∀ c, 0 ≤ c → c < n →
      (MatCreateExplicit_QEPLINEAR_H1A ctx 0 n).a r (n + c) * z (n + c)
        = blockA ctx n r (n + c) * placed z n c := by
    intro c h0 h1
    rw [(ent r (n + c) hr0 hr1 (by omega) (by omega)).1]
    rfl
  have lowB : ∀ c, 0 ≤ c → c < n →
      (MatCreateExplicit_QEPLINEAR_H1B ctx 0 n).a r c * z c = blockB ctx n r c * placed z 0 c := by
    intro c h0 h1
    rw [(ent r c hr0 hr1 h0 (by omega)).2]
    unfold placed
    rw [zero_add]
  have highB : ∀ c, 0 ≤ c → c < n →
      (MatCreateExplicit_QEPLINEAR_H1B ctx 0 n).a r (n + c) * z (n + c)
        = blockB ctx n r (n + c) * placed z n c := by
    intro c h0 h1
    rw [(ent r (n + c) hr0 hr1 (by omega) (by omega)).2]
    rfl
  rw [sumTo_congr n _ _ lowA, sumTo_congr n _ _ highA, sumTo_congr n _ _ lowB,
    sumTo_congr n _ _ highB]
  by_cases hr : r < n
  · rw [if_pos hr, if_pos hr]
    constructor
    · rw [sumTo_congr n (fun c => blockA ctx n r (n + c) * placed z n c) (fun _ => 0),
        sumTo_zero, add_zero]
      · refine sumTo_congr n _ _ (fun c h0 h1 => ?_)
        unfold blockA
        rw [if_pos hr, if_pos h1]
      · intro c h0 h1
        unfold blockA
        rw [if_pos hr, if_neg (by omega), zero_mul]
    · rw [sumTo_congr n (fun c => blockB ctx n r c * placed z 0 c) (fun _ => 0),
        sumTo_zero, zero_add]
      · refine sumTo_congr n _ _ (fun c h0 h1 => ?_)
        unfold blockB
        rw [if_pos hr, if_neg (by omega), add_sub_cancel_left]
      · intro c h0 h1
        unfold blockB
        rw [if_pos hr, if_pos h1, zero_mul]
  · rw [if_neg hr, if_neg hr]
    constructor
    · congr 1
      · refine sumTo_congr n _ _ (fun c h0 h1 => ?_)
        unfold blockA
        rw [if_neg hr, if_pos h1]
      · refine sumTo_congr n _ _ (fun c h0 h1 => ?_)
        unfold blockA
        rw [if_neg hr, if_neg (by omega), add_sub_cancel_left]
    · rw [sumTo_congr n (fun c => blockB ctx n r (n + c) * placed z n c) (fun _ => 0),
        sumTo_zero, add_zero]
      · rw [← neg_one_mul, ← sumTo_mul_left]
        refine sumTo_congr n _ _ (fun c h0 h1 => ?_)
        unfold blockB
        rw [if_neg hr, if_pos h1]
        ring
      · intro c h0 h1
        unfold blockB
        rw [if_neg hr, if_neg (by omega), zero_mul]

/-- The shell products, by rows, for matrices of order `n`:
`MatMult_QEPLINEAR_H1A` leaves `K*x1` and `C*x1 + K*x2`, and
`MatMult_QEPLINEAR_H1B` leaves `K*x1` and `-M*x1`. -/
theorem MatMult_QEPLINEAR_H1_value (ctx : QEP_LINEAR R) (n : Int) (h : ctx.order n)
    (px py : Int → R) (r : Int) (hr0 : 0 ≤ r) (hr1 : r < n + n) :
    MatMult_QEPLINEAR_H1A ctx px py r =
      (if r < n then MatMult ctx.K (placed px 0) r
        else MatMult ctx.C (placed px 0) (r - n) + MatMult ctx.K (placed px n) (r - n)) ∧
    MatMult_QEPLINEAR_H1B ctx px py r =
      (if r < n then MatMult ctx.K (placed px 0) r
        else -(MatMult ctx.M (placed px 0) (r - n))) := by
  obtain ⟨hn, hMM, -, -, -⟩ := h
  have e1 : ∀ a b : Int, a + (b - a) - a = b - a := fun a b => by omega
  have e2 : ∀ a b : Int, a + (b - a) = b := fun a b => by omega
  unfold MatMult_QEPLINEAR_H1A MatMult_QEPLINEAR_H1B
  simp only [hMM]
  unfold placeWrite VecAXPY VecScale
  constructor
  · split_ifs <;> first
      | (exfalso; omega)
      | (simp only [placed, sub_zero, zero_add, e1, e2]
         split_ifs <;> first
          | (exfalso; omega)
          | (simp only [sub_zero, zero_add, one_mul, e1, e2]; rw [add_comm]))
      | (simp only [sub_zero])
  · split_ifs <;> first
      | (exfalso; omega)
      | (simp only [placed, sub_zero, zero_add, e1, e2]
         split_ifs
         simp only [sub_zero, zero_add, neg_one_mul, e1, e2])
      | (simp only [sub_zero])

/-- The shell product `MatMult_QEPLINEAR_H1A` returns the product of the matrix
assembled by `MatCreateExplicit_QEPLINEAR_H1A` with the same vector, for every
vector and matrices of every order `n`. -/
theorem MatMult_QEPLINEAR_H1A_explicit (ctx : QEP_LINEAR R) (n : Int) (h : ctx.order n)
    (px py : Int → R) (r : Int) (hr0 : 0 ≤ r) (hr1 : r < n + n) :
    MatMult_QEPLINEAR_H1A ctx px py r
      = MatMult (MatCreateExplicit_QEPLINEAR_H1A ctx 0 n) px r := by
  rw [(MatMult_QEPLINEAR_H1_value ctx n h px py r hr0 hr1).1,
    (MatMult_explicit_H1 ctx n h px r hr0 hr1).1]

/-- C22 (amended). For matrices `M`, `C`, `K` of order `n`, a scalar `l` and a
vector `x` with `(l^2*M + l*C + K)*x = 0`, the vector `z = [l*x; x]` satisfies
`A*z = l*B*z` for the matrices `A` and `B` assembled by
`MatCreateExplicit_QEPLINEAR_H1A` and `MatCreateExplicit_QEPLINEAR_H1B`. -/
theorem QEPLINEAR_H1_linearization (ctx : QEP_LINEAR R) (n : Int) (h : ctx.order n) (l : R)
    (x : Int → R)
    (hq : ∀ i, 0 ≤ i → i < n →
      l ^ 2 * MatMult ctx.M x i + l * MatMult ctx.C x i + MatMult ctx.K x i = 0) :
    ∀ r, 0 ≤ r → r < n + n →
      MatMult (MatCreateExplicit_QEPLINEAR_H1A ctx 0 n) (stack n (VecScale x l) x) r =
        l * MatMult (MatCreateExplicit_QEPLINEAR_H1B ctx 0 n) (stack n (VecScale x l) x) r := by
  intro r hr0 hr1
  obtain ⟨eA, eB⟩ := MatMult_explicit_H1 ctx n h (stack n (VecScale x l) x) r hr0 hr1
  obtain ⟨hn, -, hMN, hC, hK⟩ := h
  have low : ∀ (A : Mat R) (i : Int), A.N = n →
      MatMult A (placed (stack n (VecScale x l) x) 0) i = l * MatMult A x i := by
    intro A i hA
    unfold MatMult
    rw [hA, ← sumTo_mul_left]
    refine sumTo_congr n _ _ (fun c h0 h1 => ?_)
    unfold placed stack VecScale
    rw [zero_add, if_pos h1]
    ring
  have high : ∀ (A : Mat R) (i : Int), A.N = n →
      MatMult A (placed (stack n (VecScale x l) x) n) i = MatMult A x i := by
    intro A i hA
    unfold MatMult
    rw [hA]
    refine sumTo_congr n _ _ (fun c h0 h1 => ?_)
    unfold placed stack
    rw [if_neg (by omega), add_sub_cancel_left]
  rw [eA, eB]
  by_cases hr : r < n
  · rw [if_pos hr, if_pos hr, low ctx.K r hK, high ctx.K r hK]
  · rw [if_neg hr, if_neg hr, low ctx.C _ hC, high ctx.K _ hK, low ctx.M _ hMN]
    have := hq (r - n) (by omega) (by omega)
    linear_combination this

end LinearThms

/-- C21 (failing input). For the quadratic problem `ctxZ` of order 1 (`M = 1`,
`C = -3`, `K = 2`) and the vector `z = [0; 1]`, the matrix assembled by
`MatCreateExplicit_QEPLINEAR_H1B` gives `B*z = [2; 0]`, that is `[K*x2; -M*x1]`, and
the shell product `MatMult_QEPLINEAR_H1B` returns `[0; 0]`, that is `[K*x1; -M*x1]`;
the two routines for `A` agree on `z`. -/
theorem MatMult_QEPLINEAR_H1B_differs :
    MatMult (MatCreateExplicit_QEPLINEAR_H1B ctxZ 0 1) (stack 1 (fun _ => 0) (fun _ => 1)) 0 = 2 ∧
    MatMult (MatCreateExplicit_QEPLINEAR_H1B ctxZ 0 1) (stack 1 (fun _ => 0) (fun _ => 1)) 1 = 0 ∧
    MatMult_QEPLINEAR_H1B ctxZ (stack 1 (fun _ => 0) (fun _ => 1)) (fun _ => 0) 0 = 0 ∧
    MatMult_QEPLINEAR_H1B ctxZ (stack 1 (fun _ => 0) (fun _ => 1)) (fun _ => 0) 1 = 0 ∧
    MatMult_QEPLINEAR_H1B ctxZ (stack 1 (fun _ => 0) (fun _ => 1)) (fun _ => 0) 0 ≠
      MatMult (MatCreateExplicit_QEPLINEAR_H1B ctxZ 0 1) (stack 1 (fun _ => 0) (fun _ => 1)) 0 ∧
    MatMult_QEPLINEAR_H1A ctxZ (stack 1 (fun _ => 0) (fun _ => 1)) (fun _ => 0) 0 =
      MatMult (MatCreateExplicit_QEPLINEAR_H1A ctxZ 0 1) (stack 1 (fun _ => 0) (fun _ => 1)) 0 ∧
    MatMult_QEPLINEAR_H1A ctxZ (stack 1 (fun _ => 0) (fun _ => 1)) (fun _ => 0) 1 =
      MatMult (MatCreateExplicit_QEPLINEAR_H1A ctxZ 0 1) (stack 1 (fun _ => 0) (fun _ => 1)) 1 := by
  refine ⟨?_, ?_, ?_, ?_, ?_, ?_, ?_⟩ <;> decide

/-- C22 (counterexample). For `ctxZ` (`M = 1`, `C = -3`, `K = 2`), `l = 2` and
`x = 1`, the quadratic problem holds, `4 - 6 + 2 = 0`, and for `z = [x; l*x] = [1; 2]`
the first entry of `A*z` is `2` while the first entry of `l*B*z` is `8`. -/
theorem QEPLINEAR_H1_wrong_order :
    ctxZ.order 1 ∧
    (∀ i : Int, 0 ≤ i → i < 1 →
      (2 : ℤ) ^ 2 * MatMult ctxZ.M (fun _ => 1) i + 2 * MatMult ctxZ.C (fun _ => 1) i
        + MatMult ctxZ.K (fun _ => 1) i = 0) ∧
    MatMult (MatCreateExplicit_QEPLINEAR_H1A ctxZ 0 1)
      (stack 1 (fun _ => 1) (VecScale (fun _ => 1) 2)) 0 = 2 ∧
    2 * MatMult (MatCreateExplicit_QEPLINEAR_H1B ctxZ 0 1)
      (stack 1 (fun _ => 1) (VecScale (fun _ => 1) 2)) 0 = 8 ∧
    MatMult (MatCreateExplicit_QEPLINEAR_H1A ctxZ 0 1)
      (stack 1 (fun _ => 1) (VecScale (fun _ => 1) 2)) 0 ≠
    2 * MatMult (MatCreateExplicit_QEPLINEAR_H1B ctxZ 0 1)
      (stack 1 (fun _ => 1) (VecScale (fun _ => 1) 2)) 0 := by
  refine ⟨by unfold QEP_LINEAR.order; decide, ?_, by decide, by decide, by decide⟩
  intro i h0 h1
  have hi : i = 0 := by omega
  subst hi
  decide

/-- C22, evaluated on `ctxZ2` (`M = I`, `C = -3*I`, `K = [2 1; 0 2]`) with `l = 2` and
`x = (1, 0)`: `z = [2; 0; 1; 0]`, and `A*z = l*B*z = [4; 0; -4; 0]`. -/
theorem QEPLINEAR_H1_linearization_witness :
    ctxZ2.order 2 ∧
    MatMult (MatCreateExplicit_QEPLINEAR_H1A ctxZ2 0 2)
      (stack 2 (VecScale (fun i => if i = 0 then 1 else 0) 2)
        (fun i => if i = 0 then 1 else 0)) 0 = 4 ∧
    MatMult (MatCreateExplicit_QEPLINEAR_H1A ctxZ2 0 2)
      (stack 2 (VecScale (fun i => if i = 0 then 1 else 0) 2)
        (fun i => if i = 0 then 1 else 0)) 2 = -4 ∧
    (∀ r : Int, 0 ≤ r → r < 2 + 2 →
      MatMult (MatCreateExplicit_QEPLINEAR_H1A ctxZ2 0 2)
        (stack 2 (VecScale (fun i => if i = 0 then 1 else 0) 2)
          (fun i => if i = 0 then 1 else 0)) r =
      2 * MatMult (MatCreateExplicit_QEPLINEAR_H1B ctxZ2 0 2)
        (stack 2 (VecScale (fun i => if i = 0 then 1 else 0) 2)
          (fun i => if i = 0 then 1 else 0)) r) :=
  ⟨by unfold QEP_LINEAR.order; decide, by decide, by decide,
    QEPLINEAR_H1_linearization ctxZ2 2 (by unfold QEP_LINEAR.order; decide) 2
      (fun i => if i = 0 then 1 else 0)
      (by
        intro i h0 h1
        have hi : i = 0 ∨ i = 1 := by omega
        rcases hi with hi | hi <;> subst hi <;> decide)⟩

section ProjTwice

variable {R E : Type} [CommRing R] [Star R] [Div R] [AddCommGroup E] [Module R E]

end ProjTwice

section LdH

variable {R E : Type} [CommRing R] [Star R] [Div R] [AddCommGroup E] [Module R E]

/-- The allocation pass of `dvd_calcpairs_qz` stores the sizes of the setup and
keeps `max_size_V`. -/
theorem qz_dash_sizes (s : qzSetup) (mem : qzStorage R E) (d : dvdDashboard R E) :
    (dvd_calcpairs_qz_dash s mem d).max_size_proj = s.max_size_proj ∧
    (dvd_calcpairs_qz_dash s mem d).max_size_V = d.max_size_V :=
  ⟨rfl, rfl⟩

/-- A successful `dvd_calcpairs_proj` keeps `ldH`, `max_size_proj` and
`max_size_V`, when the callbacks do, and it leaves the leading dimensions of `S`
and of `T` equal to the current size `size_H = size_V`. -/
theorem proj_sameLd (cfg : Build) (x : Collab R E) (d d1 : dvdDashboard R E)
    (h : dvd_calcpairs_proj cfg x d = .ok d1)
    (hW : ∀ a c, x.calcpairs_W a = .ok c → sameLd a c)
    (hT : ∀ f, x.calcpairs_proj_trans = some f → ∀ a c, f a = .ok c → sameLd a c) :
    sameLd d d1 ∧ d1.ldS = d1.size_H ∧ d1.size_H = d1.size_V ∧
      (d1.sEP.DVD_EP_STD = false → d1.ldT = d1.size_H) := by
  obtain ⟨d0, h1, h2, h3⟩ := dvd_calcpairs_proj_ok cfg x d d1 h
  obtain ⟨l1, l2, l3⟩ := proj_update_sameLd x d d0 h1 hW hT
  obtain ⟨-, c2, -, -⟩ := consistency_ok d1 h3
  unfold dvd_calcpairs_proj_solve at h2
  obtain ⟨d2, h4, h5⟩ := bind_ok_inv _ _ _ h2
  cases h5
  cases hstd : d0.sEP.DVD_EP_STD <;> cases hher : d0.sEP.DVD_EP_HERMITIAN <;>
    simp only [hstd, hher, if_true, if_false, Bool.false_eq_true] at h4
  · obtain ⟨G, T0, r, -, -, -, -, -, rfl⟩ := projeig_qz_gen_ok cfg x _ _ h4
    exact ⟨⟨l1, l2, l3⟩, rfl, c2, fun _ => rfl⟩
  · obtain ⟨G, T0, r, -, -, -, -, -, rfl⟩ := projeig_qz_gen_ok cfg x _ _ h4
    exact ⟨⟨l1, l2, l3⟩, rfl, c2, fun _ => rfl⟩
  · obtain ⟨hs, r, -, -, rfl⟩ := projeig_qz_std_ok x _ _ h4
    refine ⟨⟨l1, l2, l3⟩, rfl, c2, ?_⟩
    intro hn
    simp only at hn
    rw [hstd] at hn
    cases hn
  · obtain ⟨r, -, rfl⟩ := projeig_eig_ok x _ _ h4
    refine ⟨⟨l1, l2, l3⟩, rfl, c2, ?_⟩
    intro hn
    simp only at hn
    rw [hstd] at hn
    cases hn

/-- Every dashboard of a run has the `ldH`, the `max_size_proj` and the
`max_size_V` of the dashboard the run starts from. -/
theorem projRun_sameLd (cfg : Build) (x : Collab R E) (d0 dk : dvdDashboard R E)
    (hW : ∀ a c, x.calcpairs_W a = .ok c → sameLd a c)
    (hT : ∀ f, x.calcpairs_proj_trans = some f → ∀ a c, f a = .ok c → sameLd a c)
    (hrun : projRun cfg x d0 dk) : sameLd d0 dk := by
  induction hrun with
  | start => exact ⟨rfl, rfl, rfl⟩
  | proj d d1 _ h ih =>
    obtain ⟨⟨a1, a2, a3⟩, -⟩ := proj_sameLd cfg x d d1 h hW hT
    exact ⟨a1.trans ih.1, a2.trans ih.2.1, a3.trans ih.2.2⟩
  | other d d1 _ h ih => exact ⟨h.1.trans ih.1, h.2.1.trans ih.2.1, h.2.2.trans ih.2.2⟩

/-- C19 (amended). Let the allocation pass of `dvd_calcpairs_qz` on the blackboard
`b` store its sizes in the dashboard `d`, whose maximum subspace size
`max_size_V` is at most the one of the blackboard, and let
`dvd_calcpairs_qz_start` then leave `d0`. In every dashboard `dk` of a run from
`d0` (successful calls of `dvd_calcpairs_proj` and steps of other routines that
keep `ldH`, `max_size_proj` and `max_size_V`, as the callbacks are taken to do)
the leading dimension `ldH`, which `H` and `G` share, is the value fixed at
setup, `max_size_proj = max_size_V` of the blackboard, and it is not less than
the maximum subspace size `max_size_V` of the dashboard. The leading dimensions
of `S` and of `T` are not fixed: a successful `dvd_calcpairs_proj` on `dk` leaves
`ldH` as it is and `ldS` (for a non-standard problem also `ldT`) equal to the
current size `size_H = size_V`. -/
theorem dvd_calcpairs_ldH_fixed (cfg : Build) (x : Collab R E) (b : dvdBlackboard)
    (nev nds : Int) (s : qzSetup) (mem : qzStorage R E) (d d0 : dvdDashboard R E)
    (hs : (dvd_calcpairs_qz cfg (qzProblemOf d nev nds) b).2 = some s)
    (hstart : dvd_calcpairs_qz_start (dvd_calcpairs_qz_dash s mem d) = .ok d0)
    (hmax : d.max_size_V ≤ b.max_size_V)
    (hW : ∀ a c, x.calcpairs_W a = .ok c → sameLd a c)
    (hT : ∀ f, x.calcpairs_proj_trans = some f → ∀ a c, f a = .ok c → sameLd a c) :
    ∀ dk, projRun cfg x d0 dk →
      dk.ldH = b.max_size_V ∧ dk.max_size_proj = b.max_size_V ∧
      dk.max_size_V = d.max_size_V ∧ dk.max_size_V ≤ dk.ldH ∧
      ∀ d1, dvd_calcpairs_proj cfg x dk = .ok d1 →
        d1.ldH = dk.ldH ∧ d1.ldS = d1.size_H ∧ d1.size_H = d1.size_V ∧
        (d1.sEP.DVD_EP_STD = false → d1.ldT = d1.size_H) := by
  intro dk hrun
  have hb := qz_max_size_proj cfg (qzProblemOf d nev nds) b s hs
  obtain ⟨q1, q2, q3⟩ := qz_start_ldH _ d0 hstart
  obtain ⟨p1, p2⟩ := qz_dash_sizes s mem d
  obtain ⟨r1, r2, r3⟩ := projRun_sameLd cfg x d0 dk hW hT hrun
  have e1 : dk.ldH = b.max_size_V := by rw [r1, q1, p1, hb]
  have e2 : dk.max_size_proj = b.max_size_V := by rw [r2, q2, p1, hb]
  have e3 : dk.max_size_V = d.max_size_V := by rw [r3, q3, p2]
  refine ⟨e1, e2, e3, by rw [e1, e3]; exact hmax, ?_⟩
  intro d1 h1
  obtain ⟨⟨a1, -, -⟩, a2, a3, a4⟩ := proj_sameLd cfg x dk d1 h1 hW hT
  exact ⟨a1, a2, a3, a4⟩

end LdH

/-- C19 (amended), evaluated. The allocation pass on `qzBoard3`, whose maximum
subspace size is `3`, stores `max_size_proj = 3` in `dashPre`, which gives
`dashStart`; `dvd_calcpairs_qz_start` leaves `dashStart0`, the first call of
`dvd_calcpairs_proj` leaves `dashStart1`, the columns are made immutable
(`dashStart2`) and a second call leaves `dashStart3`. In each of them `ldH` is
`3`, not less than `max_size_V = 3`, while the calls leave `ldS = size_H = 2`. -/
theorem dvd_calcpairs_ldH_fixed_witness :
    (dvd_calcpairs_qz realBuild (qzProblemOf dashPre 1 0) qzBoard3).2 = some qzSetup3 ∧
    dvd_calcpairs_qz_start (dvd_calcpairs_qz_dash qzSetup3 memZ dashPre) = .ok dashStart0 ∧
    dvd_calcpairs_proj realBuild collabZ dashStart0 = .ok dashStart1 ∧
    dvd_calcpairs_proj realBuild collabZ dashStart2 = .ok dashStart3 ∧
    (dashStart0.ldH = 3 ∧ dashStart1.ldH = 3 ∧ dashStart3.ldH = 3 ∧ dashStart3.max_size_V = 3 ∧
      dashStart1.ldS = 2 ∧ dashStart3.ldS = 2) ∧
    (dashStart0.ldH = qzBoard3.max_size_V ∧ dashStart0.max_size_proj = qzBoard3.max_size_V ∧
      dashStart0.max_size_V = dashPre.max_size_V ∧ dashStart0.max_size_V ≤ dashStart0.ldH ∧
      ∀ d1, dvd_calcpairs_proj realBuild collabZ dashStart0 = .ok d1 →
        d1.ldH = dashStart0.ldH ∧ d1.ldS = d1.size_H ∧ d1.size_H = d1.size_V ∧
        (d1.sEP.DVD_EP_STD = false → d1.ldT = d1.size_H)) ∧
    (dashStart3.ldH = qzBoard3.max_size_V ∧ dashStart3.max_size_proj = qzBoard3.max_size_V ∧
      dashStart3.max_size_V = dashPre.max_size_V ∧ dashStart3.max_size_V ≤ dashStart3.ldH ∧
      ∀ d1, dvd_calcpairs_proj realBuild collabZ dashStart3 = .ok d1 →
        d1.ldH = dashStart3.ldH ∧ d1.ldS = d1.size_H ∧ d1.size_H = d1.size_V ∧
        (d1.sEP.DVD_EP_STD = false → d1.ldT = d1.size_H)) := by
  have hsetup : (dvd_calcpairs_qz realBuild (qzProblemOf dashPre 1 0) qzBoard3).2
      = some qzSetup3 := rfl
  have hstart : dvd_calcpairs_qz_start (dvd_calcpairs_qz_dash qzSetup3 memZ dashPre)
      = .ok dashStart0 := rfl
  have hp1 : dvd_calcpairs_proj realBuild collabZ dashStart0 = .ok dashStart1 := rfl
  have hp3 : dvd_calcpairs_proj realBuild collabZ dashStart2 = .ok dashStart3 := rfl
  have hW : ∀ a c, collabZ.calcpairs_W a = .ok c → sameLd a c := by
    intro a c hac
    cases hac
    exact ⟨rfl, rfl, rfl⟩
  have hT : ∀ f, collabZ.calcpairs_proj_trans = some f → ∀ a c, f a = .ok c → sameLd a c := by
    intro f hf
    cases hf
  have hrun1 : projRun realBuild collabZ dashStart0 dashStart1 :=
    .proj dashStart0 dashStart1 .start hp1
  have hrun3 : projRun realBuild collabZ dashStart0 dashStart3 :=
    .proj dashStart2 dashStart3 (.other dashStart1 dashStart2 hrun1 ⟨rfl, rfl, rfl⟩) hp3
  exact ⟨hsetup, hstart, hp1, hp3, by decide,
    dvd_calcpairs_ldH_fixed realBuild collabZ qzBoard3 1 0 qzSetup3 memZ dashPre dashStart0
      hsetup hstart (by decide) hW hT dashStart0 .start,
    dvd_calcpairs_ldH_fixed realBuild collabZ qzBoard3 1 0 qzSetup3 memZ dashPre dashStart0
      hsetup hstart (by decide) hW hT dashStart3 hrun3⟩

end Slepc
